import Mathlib

/-!
# Agent firmware (`firmware/agent/src/main.c`): shallow embedding

Conventions of the embedding.

* A byte is a natural number below 256.  A C string is the list of its bytes
  before the terminator; a fixed `char` array is a list of its cells.
* `uint32_t` values are naturals, reduced modulo `2 ^ 32` where the C operation
  can wrap.
* Pointers and sandbox handles are naturals, `0` being `NULL`.  The heap is a
  list of blocks; address `p + 1` names block `p`, a freed block is `none`.
* Calls that leave the firmware (allocator, sandbox engine) are recorded in a
  trace, and every line handed to `agent_write_str` is appended to `uart_tx`.
* The sandbox engine, the allocator outcome and the bytes that reach the RX
  interrupt while a handler waits are parameters of the handlers.
-/

namespace Agent

/-! ## Text helpers and C library functions -/

/-- Bytes of an ASCII literal. -/
def str (s : String) : List Nat := s.toList.map Char.toNat

/-- The `NULL` pointer / handle. -/
def NULL : Nat := 0

/-- C string held in a character array: the cells before the first zero. -/
def cstr (buf : List Nat) : List Nat := buf.takeWhile (fun c => c != 0)

/-- C library `isspace` in the "C" locale. -/
def isspace (c : Nat) : Bool := c == 32 || (9 ≤ c && c ≤ 13)

/-- Value of a character as a digit in the given base, as `strtol` reads it. -/
def digit_val (base c : Nat) : Option Nat :=
  let v : Option Nat :=
    if 48 ≤ c ∧ c ≤ 57 then some (c - 48)
    else if 97 ≤ c ∧ c ≤ 122 then some (c - 87)
    else if 65 ≤ c ∧ c ≤ 90 then some (c - 55)
    else none
  match v with
  | some d => if d < base then some d else none
  | none => none

/-- Value of the longest digit run at the head of the string, accumulated left to right. -/
def parse_digits (base : Nat) : List Nat → Nat → Nat
  | [], acc => acc
  | c :: cs, acc =>
    match digit_val base c with
    | some d => parse_digits base cs (acc * base + d)
    | none => acc

/-- Optional sign in front of a number: the flag is true for a minus. -/
def take_sign : List Nat → Bool × List Nat
  | 45 :: t => (true, t)
  | 43 :: t => (false, t)
  | s => (false, s)

/-- C library `atoi`, as `(int) strtol (s, NULL, 10)` with a 32-bit `long`:
leading white space, optional sign, decimal digits, saturating at the range ends. -/
def atoi (s : List Nat) : Int :=
  let (neg, t) := take_sign (s.dropWhile isspace)
  let v := parse_digits 10 t 0
  if neg then (if v > 2 ^ 31 then -(2 ^ 31 : Int) else -(v : Int))
  else (if v > 2 ^ 31 - 1 then (2 ^ 31 - 1 : Int) else (v : Int))

/-- Conversion of an `int` to `uint32_t`. -/
def to_u32 (i : Int) : Nat := (i % (2 ^ 32 : Int)).toNat

/-- Optional `0x` / `0X` in front of a base-16 number. -/
def skip_0x : List Nat → List Nat
  | 48 :: 120 :: t => t
  | 48 :: 88 :: t => t
  | s => s

/-- C library `strtoul (s, NULL, 16)` with a 32-bit `unsigned long`: leading white
space, optional sign, optional `0x`, hexadecimal digits; `ULONG_MAX` on overflow,
negation modulo `2 ^ 32` after a minus. -/
def strtoul16 (s : List Nat) : Nat :=
  let (neg, t) := take_sign (s.dropWhile isspace)
  let v := parse_digits 16 (skip_0x t) 0
  if v > 2 ^ 32 - 1 then 2 ^ 32 - 1
  else if neg then (2 ^ 32 - v) % 2 ^ 32 else v

/-- C library `strstr`: the tail of `hay` that starts at the first occurrence of `needle`. -/
def strstr : List Nat → List Nat → Option (List Nat)
  | [], needle => if needle = [] then some [] else none
  | c :: t, needle => if needle.isPrefixOf (c :: t) then some (c :: t) else strstr t needle

/-- C library `strchr`: the tail of `s` that starts at the first occurrence of `c`. -/
def strchr (s : List Nat) (c : Nat) : Option (List Nat) :=
  match s.dropWhile (fun x => x != c) with
  | [] => none
  | t => some t

/-- C library `strtok` on the string at the saved position: skips leading
delimiters, returns the next token and the position saved for the next call. -/
def strtok (s delims : List Nat) : Option (List Nat × List Nat) :=
  match s.dropWhile (fun c => delims.contains c) with
  | [] => none
  | t => some (t.takeWhile (fun c => !delims.contains c),
               (t.dropWhile (fun c => !delims.contains c)).drop 1)

/-- C library `strncpy` into a zeroed array, read back as a C string. -/
def strncpy (src : List Nat) (n : Nat) : List Nat := src.take n

/-- Result of `snprintf` into a buffer of `size` bytes: the text cut to `size - 1` bytes. -/
def snprintf (size : Nat) (text : List Nat) : List Nat := text.take (size - 1)

/-- Decimal digits of `n`, most significant first, prepended to `acc`. -/
def utoa_aux : Nat → Nat → List Nat → List Nat
  | 0, _, acc => acc
  | fuel + 1, n, acc =>
    if n < 10 then (48 + n) :: acc
    else utoa_aux fuel (n / 10) ((48 + n % 10) :: acc)

/-- Text of `%lu`. -/
def utoa (n : Nat) : List Nat := utoa_aux (n + 1) n []

/-- One lower-case hexadecimal digit. -/
def hex_digit (d : Nat) : Nat := if d < 10 then 48 + d else 87 + d

/-- Text of `%08lx` for a 32-bit value. -/
def hex8 (n : Nat) : List Nat :=
  [hex_digit (n / 16 ^ 7 % 16), hex_digit (n / 16 ^ 6 % 16), hex_digit (n / 16 ^ 5 % 16),
   hex_digit (n / 16 ^ 4 % 16), hex_digit (n / 16 ^ 3 % 16), hex_digit (n / 16 ^ 2 % 16),
   hex_digit (n / 16 % 16), hex_digit (n % 16)]

/-! ## CRC32 (`crc32_calc`) -/

/-- One pass of the inner loop of `crc32_calc`. -/
def crc32_bit (crc : Nat) : Nat :=
  let lsb := crc &&& 1
  let mask := (2 ^ 32 - lsb) % 2 ^ 32
  (crc >>> 1) ^^^ (0xEDB88320 &&& mask)

/-- One pass of the outer loop of `crc32_calc`: fold a byte in, then eight bit passes. -/
def crc32_byte (crc byte : Nat) : Nat :=
  crc32_bit^[8] (crc ^^^ byte)

/-- Function `crc32_calc (data, len)` on the `len` bytes of `data`. -/
def crc32_calc (data : List Nat) : Nat :=
  0xFFFFFFFF ^^^ data.foldl crc32_byte 0xFFFFFFFF

/-- Entry `n` of the zlib CRC table (RFC 1952, section 8, `make_crc_table`). -/
def zlib_crc_table (n : Nat) : Nat :=
  (fun c => if c &&& 1 = 1 then 0xedb88320 ^^^ (c >>> 1) else c >>> 1)^[8] n

/-- Reference `update_crc` of RFC 1952, section 8 (the table-driven loop of zlib). -/
def zlib_update_crc (crc : Nat) (buf : List Nat) : Nat :=
  0xffffffff ^^^
    buf.foldl (fun c b => zlib_crc_table ((c ^^^ b) &&& 0xff) ^^^ (c >>> 8)) (crc ^^^ 0xffffffff)

/-- Reference CRC-32 of zlib: `crc32 (0, buf, len)`. -/
def zlib_crc32 (buf : List Nat) : Nat := zlib_update_crc 0 buf

/-! ## Shared state -/

/-- RX state (`rx_state_t`). -/
inductive rx_state_t where
  | RX_STATE_LINE
  | RX_STATE_BINARY
deriving DecidableEq, Repr

/-- Job record handed to the runner (`run_request_t`). -/
structure run_request_t where
  /-- C string held in `func_name[64]`. -/
  func_name : List Nat
  /-- Field `argc`. -/
  argc : Nat
  /-- The `MAX_CALL_ARGS` cells of `argv`. -/
  argv : List Nat
deriving DecidableEq, Repr

/-- Calls that leave the firmware, in the order they are made. -/
inductive Event where
  | malloc (size ptr : Nat)
  | free (ptr : Nat)
  | wasm_runtime_load (image : List Nat)
  | wasm_runtime_instantiate (module : Nat)
  | wasm_runtime_deinstantiate (inst : Nat)
  | wasm_runtime_unload (module : Nat)
  | wasm_runtime_create_exec_env (inst : Nat)
  | wasm_runtime_destroy_exec_env (exec_env : Nat)
  | wasm_runtime_call_wasm (fn argc : Nat) (argv : List Nat)
deriving DecidableEq, Repr

/-- The file-scope variables of `main.c`, the kernel objects it defines, the heap,
the bytes written to the UART and the trace of outside calls. -/
structure State where
  /-- Line accumulator `rx_buf[LINE_BUF_SIZE]`. -/
  rx_buf : List Nat
  /-- Write position `rx_buf_pos`. -/
  rx_buf_pos : Nat
  /-- Variable `g_rx_state`. -/
  g_rx_state : rx_state_t
  /-- Pointer `g_bin_buf`. -/
  g_bin_buf : Nat
  /-- Variable `g_bin_expected`. -/
  g_bin_expected : Nat
  /-- Variable `g_bin_received`. -/
  g_bin_received : Nat
  /-- Message queue `uart_msgq`, oldest message first. -/
  uart_msgq : List (List Nat)
  /-- Count of semaphore `bin_sem` (limit 1). -/
  bin_sem : Nat
  /-- Pointer `g_wasm_buf`. -/
  g_wasm_buf : Nat
  /-- Variable `g_wasm_size`. -/
  g_wasm_size : Nat
  /-- Handle `g_wasm_module`. -/
  g_wasm_module : Nat
  /-- Handle `g_wasm_inst`. -/
  g_wasm_inst : Nat
  /-- Flag `g_module_loaded`. -/
  g_module_loaded : Bool
  /-- C string held in `g_current_module_id[32]`. -/
  g_current_module_id : List Nat
  /-- Record `g_run_req`. -/
  g_run_req : run_request_t
  /-- Flag `g_runner_busy`. -/
  g_runner_busy : Bool
  /-- Flag `g_stop_requested`. -/
  g_stop_requested : Bool
  /-- Count of semaphore `run_sem` (limit 1). -/
  run_sem : Nat
  /-- Heap blocks; `none` is a freed block. -/
  heap : List (Option (List Nat))
  /-- Strings passed to `agent_write_str`, oldest first. -/
  uart_tx : List (List Nat)
  /-- Outside calls, oldest first. -/
  trace : List Event
deriving DecidableEq, Repr

/-- Capacity of a line buffer (`LINE_BUF_SIZE`). -/
def LINE_BUF_SIZE : Nat := 256

/-- Number of argument cells (`MAX_CALL_ARGS`). -/
def MAX_CALL_ARGS : Nat := 4

/-- Capacity of `uart_msgq` (`K_MSGQ_DEFINE (uart_msgq, LINE_BUF_SIZE, 4, 4)`). -/
def MSGQ_MAX_MSGS : Nat := 4

/-- State after static initialisation. -/
def init : State where
  rx_buf := List.replicate LINE_BUF_SIZE 0
  rx_buf_pos := 0
  g_rx_state := rx_state_t.RX_STATE_LINE
  g_bin_buf := NULL
  g_bin_expected := 0
  g_bin_received := 0
  uart_msgq := []
  bin_sem := 0
  g_wasm_buf := NULL
  g_wasm_size := 0
  g_wasm_module := NULL
  g_wasm_inst := NULL
  g_module_loaded := false
  g_current_module_id := []
  g_run_req := { func_name := [], argc := 0, argv := List.replicate MAX_CALL_ARGS 0 }
  g_runner_busy := false
  g_stop_requested := false
  run_sem := 0
  heap := []
  uart_tx := []
  trace := []

/-- The sandbox engine, as far as the firmware calls it.  A handle of `0` is `NULL`;
the second component of a result is the text left in `error_buf`. -/
structure Sandbox where
  /-- Parse an image (`wasm_runtime_load`). -/
  wasm_runtime_load : List Nat → Nat × List Nat
  /-- Instantiate a parsed module (`wasm_runtime_instantiate`). -/
  wasm_runtime_instantiate : Nat → Nat × List Nat
  /-- Find an export of an instance by name (`wasm_runtime_lookup_function`). -/
  wasm_runtime_lookup_function : Nat → List Nat → Nat
  /-- Number of results of a function (`wasm_func_get_result_count`). -/
  wasm_func_get_result_count : Nat → Nat → Nat
  /-- Create an execution environment (`wasm_runtime_create_exec_env`). -/
  wasm_runtime_create_exec_env : Nat → Nat

/-- What the surroundings do during one `LOAD`. -/
structure LoadEnv where
  /-- Whether `malloc` finds memory. -/
  malloc_ok : Bool
  /-- Bytes that reach the RX interrupt before `k_sem_take` returns. -/
  rx : List Nat

/-- Outcome of one guest call (`wasm_runtime_call_wasm` and `wasm_runtime_get_exception`). -/
structure GuestRun where
  /-- Return value of `wasm_runtime_call_wasm`. -/
  ok : Bool
  /-- Cell `argv_local[0]` after the call. -/
  argv0 : Nat
  /-- Text returned by `wasm_runtime_get_exception`, `none` for `NULL`. -/
  exception : Option (List Nat)

/-- Kernel call `k_sem_give` on a semaphore of limit 1. -/
def k_sem_give (count : Nat) : Nat := if count < 1 then count + 1 else count

/-- Kernel call `k_msgq_put (.., K_NO_WAIT)`: the message is dropped when the queue is full. -/
def k_msgq_put (q : List (List Nat)) (msg : List Nat) : List (List Nat) :=
  if q.length < MSGQ_MAX_MSGS then q ++ [msg] else q

/-- Contents of the block at address `p` (empty for `NULL` or a freed block). -/
def heap_read (heap : List (Option (List Nat))) (p : Nat) : List Nat :=
  match p with
  | 0 => []
  | k + 1 => (heap.getD k none).getD []

/-- Store of one byte at `p[i]`. -/
def heap_write (heap : List (Option (List Nat))) (p i c : Nat) : List (Option (List Nat)) :=
  match p with
  | 0 => heap
  | k + 1 =>
    match heap.getD k none with
    | some blk => heap.set k (some (blk.set i c))
    | none => heap

/-- Function `agent_write_str` (with `uart_dev` ready). -/
def agent_write_str (text : List Nat) (s : State) : State :=
  { s with uart_tx := s.uart_tx ++ [text] }

/-- Release of the block at address `p`; nothing happens for `NULL`. -/
def heap_free (heap : List (Option (List Nat))) (p : Nat) : List (Option (List Nat)) :=
  match p with
  | 0 => heap
  | k + 1 => heap.set k none

/-- C library `free`. -/
def free (p : Nat) (s : State) : State :=
  { s with heap := heap_free s.heap p, trace := s.trace ++ [Event.free p] }

/-- C library `malloc`: a fresh block when memory is found, `NULL` otherwise. -/
def malloc (ok : Bool) (size : Nat) (s : State) : Nat × State :=
  if ok then
    (s.heap.length + 1,
     { s with heap := s.heap ++ [some (List.replicate size 0)],
              trace := s.trace ++ [Event.malloc size (s.heap.length + 1)] })
  else
    (NULL, { s with trace := s.trace ++ [Event.malloc size NULL] })

/-! ## RX interrupt (`serial_cb`) -/

/-- Body of the `while` loop of `serial_cb` for one byte `c` read from the FIFO. -/
def serial_cb_byte (s : State) (c : Nat) : State :=
  match s.g_rx_state with
  | rx_state_t.RX_STATE_LINE =>
    if (c = 10 ∨ c = 13) ∧ s.rx_buf_pos > 0 then
      let buf := s.rx_buf.set s.rx_buf_pos 0
      { s with rx_buf := buf, uart_msgq := k_msgq_put s.uart_msgq buf, rx_buf_pos := 0 }
    else if s.rx_buf_pos < LINE_BUF_SIZE - 1 then
      { s with rx_buf := s.rx_buf.set s.rx_buf_pos c, rx_buf_pos := s.rx_buf_pos + 1 }
    else s
  | rx_state_t.RX_STATE_BINARY =>
    if s.g_bin_buf ≠ NULL ∧ s.g_bin_received < s.g_bin_expected then
      let s1 := { s with heap := heap_write s.heap s.g_bin_buf s.g_bin_received c,
                         g_bin_received := s.g_bin_received + 1 }
      if s1.g_bin_received = s1.g_bin_expected then
        { s1 with g_rx_state := rx_state_t.RX_STATE_LINE, bin_sem := k_sem_give s1.bin_sem }
      else s1
    else s

/-- Function `serial_cb` on the bytes the FIFO delivers. -/
def serial_cb (s : State) (fifo : List Nat) : State :=
  fifo.foldl serial_cb_byte s

/-! ## Parameter parsing (`find_param`, `copy_param_value`) -/

/-- The `while` loop of `find_param` with `p` as loop variable. -/
def find_param_loop (key : List Nat) : Nat → List Nat → Option (List Nat)
  | 0, _ => none
  | fuel + 1, p =>
    match strstr p key with
    | none => none
    | some q =>
      if q.getD key.length 0 = 61 then some (q.drop (key.length + 1))
      else find_param_loop key fuel (q.drop 1)

/-- Function `find_param (line, key)`; `none` is `NULL`. -/
def find_param (line key : List Nat) : Option (List Nat) :=
  find_param_loop key (line.length + 1) line

/-- The `while` loop of `copy_param_value`: returns the array and the final `i`. -/
def copy_param_loop (dst_len : Nat) : List Nat → List Nat → Nat → List Nat × Nat
  | [], dst, i => (dst, i)
  | c :: rest, dst, i =>
    if c ≠ 0 ∧ c ≠ 32 ∧ c ≠ 13 ∧ c ≠ 10 then
      copy_param_loop dst_len rest (if i + 1 < dst_len then dst.set i c else dst) (i + 1)
    else (dst, i)

/-- Function `copy_param_value (start, dst, dst_len)`: the array `dst` afterwards. -/
def copy_param_value (start dst : List Nat) (dst_len : Nat) : List Nat :=
  let (d, i) := copy_param_loop dst_len start dst 0
  if dst_len > 0 then d.set (if i < dst_len then i else dst_len - 1) 0 else d

/-- A local `char` array of `n` cells filled by `copy_param_value`, read as a C string. -/
def param_value (start : List Nat) (n : Nat) : List Nat :=
  cstr (copy_param_value start (List.replicate n 0) n)

/-! ## `LOAD` (`handle_load_cmd`) -/

/-- Unload of the module already in the slot, at the head of `handle_load_cmd`. -/
def load_teardown (s : State) : State :=
  if s.g_module_loaded then
    let s1 := { s with trace := s.trace ++ [Event.wasm_runtime_deinstantiate s.g_wasm_inst,
                                            Event.wasm_runtime_unload s.g_wasm_module] }
    let s2 := free s1.g_wasm_buf s1
    { s2 with g_wasm_buf := NULL, g_module_loaded := false }
  else s

/-- Tail of `handle_load_cmd` once the payload is complete: CRC check, load,
instantiate, record the module id. -/
def load_install (sb : Sandbox) (line : List Nat) (crc_expected : Nat) (s : State) : State :=
  let crc_calc := crc32_calc ((heap_read s.heap s.g_wasm_buf).take s.g_wasm_size)
  if crc_calc ≠ crc_expected then
    let s1 := agent_write_str (snprintf 160 (str "LOAD_ERR code=BAD_CRC msg=\"expected=" ++
      hex8 crc_expected ++ str " got=" ++ hex8 crc_calc ++ str "\"\n")) s
    let s2 := free s1.g_wasm_buf s1
    { s2 with g_wasm_buf := NULL }
  else
    let image := (heap_read s.heap s.g_wasm_buf).take s.g_wasm_size
    let loaded := sb.wasm_runtime_load image
    let s1 := { s with g_wasm_module := loaded.1,
                       trace := s.trace ++ [Event.wasm_runtime_load image] }
    if s1.g_wasm_module = NULL then
      let s2 := agent_write_str (snprintf 160 (str "LOAD_ERR code=LOAD_FAIL msg=\"" ++
        loaded.2.take 127 ++ str "\"\n")) s1
      let s3 := free s2.g_wasm_buf s2
      { s3 with g_wasm_buf := NULL }
    else
      let inst := sb.wasm_runtime_instantiate s1.g_wasm_module
      let s2 := { s1 with g_wasm_inst := inst.1,
                          trace := s1.trace ++ [Event.wasm_runtime_instantiate s1.g_wasm_module] }
      if s2.g_wasm_inst = NULL then
        let s3 := agent_write_str (snprintf 160 (str "LOAD_ERR code=INSTANTIATE_FAIL msg=\"" ++
          inst.2.take 127 ++ str "\"\n")) s2
        let s4 := { s3 with trace := s3.trace ++ [Event.wasm_runtime_unload s3.g_wasm_module],
                            g_wasm_module := NULL }
        let s5 := free s4.g_wasm_buf s4
        { s5 with g_wasm_buf := NULL }
      else
        let s3 :=
          match find_param line (str "module_id") with
          | some p_mod => { s2 with g_current_module_id := strncpy (param_value p_mod 32) 31 }
          | none => { s2 with g_current_module_id := [] }
        agent_write_str (str "LOAD_OK\n") { s3 with g_module_loaded := true }

/-- Part of `handle_load_cmd` from the return of `k_sem_take (&bin_sem, K_SECONDS (5))`:
the timeout branch when the semaphore was not given, the tail of the handler otherwise. -/
def load_after_wait (sb : Sandbox) (line : List Nat) (crc_expected : Nat) (s6 : State) : State :=
  if s6.bin_sem = 0 then
    let s7 := agent_write_str
      (str "LOAD_ERR code=TIMEOUT msg=\"binary payload not received\"\n") s6
    let s8 := { s7 with g_rx_state := rx_state_t.RX_STATE_LINE }
    let s9 := free s8.g_wasm_buf s8
    { s9 with g_wasm_buf := NULL }
  else
    load_install sb line crc_expected { s6 with bin_sem := s6.bin_sem - 1 }

/-- Middle of `handle_load_cmd`: teardown, allocation, switch of the RX interrupt to
binary mode, `LOAD_READY`, then the wait during which the bytes `env.rx` arrive. -/
def load_receive (sb : Sandbox) (env : LoadEnv) (line crc_str : List Nat)
    (size crc_expected : Nat) (s : State) : State :=
  let s1 := load_teardown s
  let m := malloc env.malloc_ok size s1
  let s2 := { m.2 with g_wasm_buf := m.1 }
  if s2.g_wasm_buf = NULL then
    agent_write_str (str "LOAD_ERR code=NO_MEM\n") s2
  else
    let s3 := { s2 with g_wasm_size := size }
    let s4 := { s3 with g_bin_buf := s3.g_wasm_buf, g_bin_expected := s3.g_wasm_size,
                        g_bin_received := 0, g_rx_state := rx_state_t.RX_STATE_BINARY,
                        bin_sem := 0 }
    let s5 := agent_write_str (snprintf 160 (str "LOAD_READY size=" ++ utoa s4.g_wasm_size ++
      str " crc32=" ++ crc_str ++ str "\n")) s4
    load_after_wait sb line crc_expected (serial_cb s5 env.rx)

/-- Function `handle_load_cmd (line)`. -/
def handle_load_cmd (sb : Sandbox) (env : LoadEnv) (line : List Nat) (s : State) : State :=
  match find_param line (str "size"), find_param line (str "crc32") with
  | none, _ => agent_write_str (str "LOAD_ERR code=BAD_PARAMS msg=\"missing size\"\n") s
  | some _, none => agent_write_str (str "LOAD_ERR code=BAD_PARAMS msg=\"missing crc32\"\n") s
  | some p_size, some p_crc =>
    let size_str := param_value p_size 16
    let crc_str := param_value p_crc 16
    let size := to_u32 (atoi size_str)
    if size = 0 then
      agent_write_str (str "LOAD_ERR code=BAD_PARAMS msg=\"size=0\"\n") s
    else
      load_receive sb env line crc_str size (strtoul16 crc_str) s

/-! ## `START` (`handle_start_cmd`) -/

/-- The `strtok` loop of `handle_start_cmd`: `tok` is the current token with the
position saved by `strtok`, `argv` the values collected so far. -/
def start_args_loop : Nat → Option (List Nat × List Nat) → List Nat → List Nat
  | 0, _, argv => argv
  | fuel + 1, tok, argv =>
    match tok with
    | none => argv
    | some (t, saved) =>
      if argv.length < MAX_CALL_ARGS then
        let argv1 :=
          match strchr t 61 with
          | some eq => argv ++ [to_u32 (atoi (eq.drop 1))]
          | none => argv
        start_args_loop fuel (strtok saved [44]) argv1
      else argv

/-- Contents of `args_buf` in `handle_start_cmd`, `none` when the block is skipped. -/
def start_args_buf (line : List Nat) : Option (List Nat) :=
  match find_param line (str "args") with
  | none => none
  | some p_args =>
    match p_args with
    | 34 :: p =>
      match strchr p 34 with
      | none => none
      | some p_end =>
        let len := p.length - p_end.length
        let len1 := if len ≥ 64 then 64 - 1 else len
        some (p.take len1)
    | _ => none

/-- The values `argv[0 .. argc)` that `handle_start_cmd` collects from `args="..."`. -/
def start_parse_args (line : List Nat) : List Nat :=
  match start_args_buf line with
  | none => []
  | some args_buf => start_args_loop (args_buf.length + 1) (strtok args_buf [44]) []

/-- Record `g_run_req` as `handle_start_cmd` fills it: `memset`, `strncpy`, `argc`,
then the copy loop over `argv`. -/
def start_request (func_name argv : List Nat) : run_request_t where
  func_name := strncpy func_name (64 - 1)
  argc := argv.length
  argv := (List.range MAX_CALL_ARGS).map (fun i => if i < argv.length then argv.getD i 0 else 0)

/-- Function `handle_start_cmd (line)`. -/
def handle_start_cmd (sb : Sandbox) (line : List Nat) (s : State) : State :=
  if ¬ s.g_module_loaded then
    agent_write_str (str "RESULT status=NO_MODULE\n") s
  else
    match find_param line (str "module_id") with
    | none => agent_write_str (str "RESULT status=BAD_PARAMS msg=\"missing module_id\"\n") s
    | some p_mod =>
      if param_value p_mod 32 ≠ s.g_current_module_id then
        agent_write_str (str "RESULT status=NO_MODULE msg=\"module_id mismatch\"\n") s
      else if s.g_runner_busy then
        agent_write_str (str "RESULT status=BUSY\n") s
      else
        match find_param line (str "func") with
        | none => agent_write_str (str "RESULT status=BAD_PARAMS msg=\"missing func\"\n") s
        | some p_func =>
          let func_name := param_value p_func 64
          let argv := start_parse_args line
          let fn := sb.wasm_runtime_lookup_function s.g_wasm_inst func_name
          if fn = NULL then
            agent_write_str
              (snprintf 96 (str "RESULT status=NO_FUNC name=" ++ func_name ++ str "\n")) s
          else
            agent_write_str (str "START_OK\n")
              { s with g_run_req := start_request func_name argv,
                       g_stop_requested := false,
                       g_runner_busy := true,
                       run_sem := k_sem_give s.run_sem }

/-! ## `STOP`, `STATUS` and the dispatcher -/

/-- Function `handle_stop_cmd (line)`. -/
def handle_stop_cmd (line : List Nat) (s : State) : State :=
  if ¬ s.g_runner_busy then
    agent_write_str (str "STOP_OK status=IDLE\n") s
  else
    match find_param line (str "module_id") with
    | none => agent_write_str (str "STOP_OK status=NO_JOB\n") s
    | some p_mod =>
      if param_value p_mod 32 ≠ s.g_current_module_id then
        agent_write_str (str "STOP_OK status=NO_JOB\n") s
      else
        agent_write_str (str "STOP_OK status=PENDING\n") { s with g_stop_requested := true }

/-- Function `handle_status_cmd (line)`. -/
def handle_status_cmd (_line : List Nat) (s : State) : State :=
  if ¬ s.g_module_loaded then
    agent_write_str (str "STATUS_OK modules=\"none\" runner=IDLE\n") s
  else
    agent_write_str (snprintf 128 (str "STATUS_OK modules=\"wasm_module(loaded)\" runner=" ++
      (if s.g_runner_busy then str "RUNNING" else str "IDLE") ++ str "\n")) s

/-- Removal of one trailing `\n` or `\r`, at the head of `handle_command_line`. -/
def strip_newline (line : List Nat) : List Nat :=
  match line.getLast? with
  | some c => if c = 10 ∨ c = 13 then line.dropLast else line
  | none => line

/-- The two `strtok` calls of `handle_command_line`: the verb and the rest of the
line (empty when `strtok` returns `NULL`); `none` when there is no verb. -/
def split_command (line : List Nat) : Option (List Nat × List Nat) :=
  match strtok (strip_newline line) [32] with
  | none => none
  | some (cmd, saved) =>
    match strtok saved [] with
    | some (rest, _) => some (cmd, rest)
    | none => some (cmd, [])

/-- Function `handle_command_line (line)`. -/
def handle_command_line (sb : Sandbox) (env : LoadEnv) (line : List Nat) (s : State) : State :=
  match split_command line with
  | none => s
  | some (cmd, rest) =>
    if cmd = str "LOAD" then handle_load_cmd sb env rest s
    else if cmd = str "START" then handle_start_cmd sb rest s
    else if cmd = str "STOP" then handle_stop_cmd rest s
    else if cmd = str "STATUS" then handle_status_cmd rest s
    else agent_write_str (str "ERROR code=UNKNOWN_COMMAND\n") s

/-! ## Runner (`runner_thread_entry`) -/

/-- Locals of one iteration of the runner loop that live across the guest call. -/
structure Job where
  /-- Snapshot `req`. -/
  req : run_request_t
  /-- Function handle `fn`. -/
  fn : Nat
  /-- Local `result_count`. -/
  result_count : Nat
  /-- Handle `exec_env`. -/
  exec_env : Nat
deriving DecidableEq, Repr

/-- Reset of the runner flags (`g_runner_busy = false; g_stop_requested = false`). -/
def runner_reset (s : State) : State :=
  { s with g_runner_busy := false, g_stop_requested := false }

/-- One iteration of the runner loop from `k_sem_take` up to the guest call.
The job is `none` when the iteration ends before the call. -/
def runner_job_begin (sb : Sandbox) (s : State) : State × Option Job :=
  let s1 := { s with run_sem := s.run_sem - 1 }
  if ¬ s1.g_module_loaded then (runner_reset s1, none)
  else
    let req := s1.g_run_req
    let fn := sb.wasm_runtime_lookup_function s1.g_wasm_inst req.func_name
    if fn = NULL then
      (runner_reset (agent_write_str
        (snprintf 96 (str "RESULT status=NO_FUNC name=" ++ req.func_name ++ str "\n")) s1), none)
    else
      let result_count := sb.wasm_func_get_result_count fn s1.g_wasm_inst
      let exec_env := sb.wasm_runtime_create_exec_env s1.g_wasm_inst
      let s2 := { s1 with trace := s1.trace ++ [Event.wasm_runtime_create_exec_env s1.g_wasm_inst] }
      if exec_env = NULL then
        (runner_reset (agent_write_str
          (snprintf 96 (str "RESULT status=NO_EXEC_ENV func=" ++ req.func_name ++ str "\n")) s2),
         none)
      else
        let argv_local := (req.argv.take MAX_CALL_ARGS).take req.argc
        ({ s2 with trace := s2.trace ++ [Event.wasm_runtime_call_wasm fn req.argc argv_local] },
         some { req := req, fn := fn, result_count := result_count, exec_env := exec_env })

/-- The `RESULT` line of a finished guest call. -/
def runner_result_line (job : Job) (run : GuestRun) (stop_requested : Bool) : List Nat :=
  if ¬ run.ok then
    snprintf 192 (str "RESULT status=EXCEPTION func=" ++ job.req.func_name ++ str " msg=\"" ++
      (match run.exception with
       | some exc => exc
       | none => str "<none>") ++ str "\"\n")
  else if stop_requested then
    snprintf 192 (str "RESULT status=STOPPED func=" ++ job.req.func_name ++ str "\n")
  else if job.result_count > 0 then
    snprintf 192 (str "RESULT status=OK func=" ++ job.req.func_name ++ str " ret_i32=" ++
      utoa (run.argv0 % 2 ^ 32) ++ str "\n")
  else
    snprintf 192 (str "RESULT status=OK func=" ++ job.req.func_name ++ str "\n")

/-- One iteration of the runner loop from the return of the guest call to the end. -/
def runner_job_end (job : Job) (run : GuestRun) (s : State) : State :=
  let s1 := agent_write_str (runner_result_line job run s.g_stop_requested) s
  let s2 := { s1 with trace := s1.trace ++ [Event.wasm_runtime_destroy_exec_env job.exec_env] }
  runner_reset s2

/-- One whole iteration of the runner loop, no command being handled during the call. -/
def runner_iteration (sb : Sandbox) (run : GuestRun) (s : State) : State :=
  match runner_job_begin sb s with
  | (s1, none) => s1
  | (s1, some job) => runner_job_end job run s1

/-! ## Reachable states -/

/-- States the agent reaches from `init` by command lines handled by the COMM
thread and by iterations of the runner woken through `run_sem`. -/
inductive Reachable (sb : Sandbox) : State → Prop where
  | init : Reachable sb init
  | command (env : LoadEnv) (line : List Nat) {s : State} :
      Reachable sb s → Reachable sb (handle_command_line sb env line s)
  | runner (run : GuestRun) {s : State} :
      Reachable sb s → 0 < s.run_sem → Reachable sb (runner_iteration sb run s)

/-! ## COMM thread loop (`agent_read_line`, `comm_thread_entry`) -/

/-- Kernel call `k_msgq_get (.., K_FOREVER)`: the oldest message and the rest of the
queue; `none` while the queue is empty and the caller stays blocked. -/
def k_msgq_get (q : List (List Nat)) : Option (List Nat × List (List Nat)) :=
  match q with
  | [] => none
  | msg :: rest => some (msg, rest)

/-- Function `agent_read_line (buf, max_len)`: the return value, the C string left in
`buf` and the state afterwards; `none` while the caller is blocked on the queue. -/
def agent_read_line (max_len : Nat) (s : State) : Option (Int × List Nat × State) :=
  if max_len = 0 then some (-1, [], s)
  else
    match k_msgq_get s.uart_msgq with
    | none => none
    | some (local_buf, q) =>
      let len := if (cstr local_buf).length ≥ max_len then max_len - 1
                 else (cstr local_buf).length
      some ((len : Int), (cstr local_buf).take len, { s with uart_msgq := q })

/-- Body of the `for (;;)` loop of `comm_thread_entry`; the state is unchanged while the
thread is blocked in `agent_read_line`. -/
def comm_thread_step (sb : Sandbox) (env : LoadEnv) (s : State) : State :=
  match agent_read_line LINE_BUF_SIZE s with
  | none => s
  | some (n, line_buf, s1) =>
    if n ≤ 0 then s1 else handle_command_line sb env line_buf s1

/-- States of the running agent: from `init`, any interleaving of bursts of bytes handled
by the RX interrupt, iterations of the COMM loop and iterations of the runner loop. -/
inductive Running (sb : Sandbox) : State → Prop where
  | init : Running sb init
  | rx (fifo : List Nat) {s : State} : Running sb s → Running sb (serial_cb s fifo)
  | comm (env : LoadEnv) {s : State} : Running sb s → Running sb (comm_thread_step sb env s)
  | runner (run : GuestRun) {s : State} :
      Running sb s → 0 < s.run_sem → Running sb (runner_iteration sb run s)

/-! ## Auxiliary definitions used in the statements and proofs -/

/-- The bit pass of the reference table. -/
def zbit (c : Nat) : Nat := if c &&& 1 = 1 then 0xedb88320 ^^^ (c >>> 1) else c >>> 1

/-- Characters that `copy_param_value` copies. -/
def value_char (c : Nat) : Bool := c != 0 && c != 32 && c != 13 && c != 10

/-- Left-to-right search for `key` followed by `=`: the text after the first hit. -/
def scan_param (key : List Nat) : List Nat → Option (List Nat)
  | [] => none
  | c :: t =>
    if key.isPrefixOf (c :: t) ∧ (c :: t).getD key.length 0 = 61 then
      some ((c :: t).drop (key.length + 1))
    else scan_param key t

/-- State of `handle_load_cmd` after the wait on `bin_sem`, starting from the state
`s1` left by the teardown: the new block holds `blk`. -/
def load_waited (s1 : State) (crc_str : List Nat) (n : Nat) (blk : List Nat) (received : Nat)
    (st : rx_state_t) : State :=
  { s1 with
    heap := s1.heap ++ [some blk]
    trace := s1.trace ++ [Event.malloc n (s1.heap.length + 1)]
    g_wasm_buf := s1.heap.length + 1
    g_wasm_size := n
    g_bin_buf := s1.heap.length + 1
    g_bin_expected := n
    g_bin_received := received
    g_rx_state := st
    bin_sem := 0
    uart_tx := s1.uart_tx ++ [snprintf 160 (str "LOAD_READY size=" ++ utoa n ++
      str " crc32=" ++ crc_str ++ str "\n")] }

/-- Text after the verb of a well-formed `LOAD` line. -/
def load_line (id : List Nat) (n v : Nat) : List Nat :=
  str "module_id=" ++ id ++ str " size=" ++ utoa n ++ str " crc32=" ++ hex8 v

/-- Text of a decimal integer: a minus sign for a negative value, then the digits. -/
def itoa (v : Int) : List Nat :=
  if v < 0 then 45 :: utoa v.natAbs else utoa v.natAbs

/-- Text `name=value` of one argument of `args="..."`. -/
def arg_text (a : List Nat × Int) : List Nat := a.1 ++ 61 :: itoa a.2

/-- Tokens separated by commas. -/
def comma_join : List (List Nat) → List Nat
  | [] => []
  | [t] => t
  | t :: u :: rest => t ++ 44 :: comma_join (u :: rest)

/-- A sandbox for concrete runs: every non-empty image parses to module `7`,
instantiation of module `m` gives instance `m + 1`, the only export is `add`
(function `3`, one result), and execution environments are always available. -/
def demo_sandbox : Sandbox where
  wasm_runtime_load := fun image => if image = [] then (NULL, str "empty") else (7, [])
  wasm_runtime_instantiate := fun m => (m + 1, [])
  wasm_runtime_lookup_function := fun _ name => if name = str "add" then 3 else NULL
  wasm_func_get_result_count := fun _ _ => 1
  wasm_runtime_create_exec_env := fun _ => 9

/-- Fields that the RX interrupt never writes. -/
def rx_frame (s s' : State) : Prop :=
  s'.g_wasm_buf = s.g_wasm_buf ∧ s'.g_wasm_size = s.g_wasm_size ∧
  s'.g_wasm_module = s.g_wasm_module ∧ s'.g_wasm_inst = s.g_wasm_inst ∧
  s'.g_module_loaded = s.g_module_loaded ∧ s'.g_current_module_id = s.g_current_module_id ∧
  s'.g_run_req = s.g_run_req ∧ s'.g_runner_busy = s.g_runner_busy ∧
  s'.g_stop_requested = s.g_stop_requested ∧ s'.run_sem = s.run_sem ∧
  s'.uart_tx = s.uart_tx ∧ s'.trace = s.trace ∧ s'.heap.length = s.heap.length

/-- Outside calls made by the teardown at the head of `handle_load_cmd`. -/
def teardown_events (s : State) : List Event :=
  if s.g_module_loaded then
    [Event.wasm_runtime_deinstantiate s.g_wasm_inst, Event.wasm_runtime_unload s.g_wasm_module,
     Event.free s.g_wasm_buf]
  else []

/-- Image used in the concrete runs: the four magic bytes of a WebAssembly module. -/
def demo_image : List Nat := [0, 97, 115, 109]

/-- State after `LOAD module_id=m2 size=4 crc32=5f4049db` with its four payload bytes. -/
def demo_loaded : State :=
  handle_command_line demo_sandbox ⟨true, demo_image⟩
    (str "LOAD module_id=m2 size=4 crc32=5f4049db") init

/-- State after a following `START module_id=m2 func=add args="a=200,b=26"`. -/
def demo_started : State :=
  handle_command_line demo_sandbox ⟨true, []⟩
    (str "START module_id=m2 func=add args=\"a=200,b=26\"") demo_loaded

/-- State after `LOAD` (accepted), `START` (accepted) and a `LOAD` whose payload stops
after two of four bytes: the runner is busy and the slot is empty. -/
def demo_busy_unloaded : State :=
  handle_command_line demo_sandbox ⟨true, [0, 97]⟩
    (str "LOAD module_id=m2 size=4 crc32=5f4049db") demo_started

/-- In LINE state the RX interrupt leaves the binary reception variables, the heap and the
RX state as they are. -/
def line_frame (s s' : State) : Prop :=
  s'.g_rx_state = rx_state_t.RX_STATE_LINE ∧ s'.heap = s.heap ∧ s'.g_bin_buf = s.g_bin_buf ∧
  s'.g_bin_expected = s.g_bin_expected ∧ s'.g_bin_received = s.g_bin_received ∧
  s'.bin_sem = s.bin_sem

/-- States of the RX framer and of the `LOAD` handler around it: from `init`, the setup
of `handle_load_cmd` for a size of at least 1 with a successful allocation (teardown,
`malloc`, switch to binary mode, `LOAD_READY`), one byte handled by the RX interrupt, and
the part of `handle_load_cmd` after the wait on `bin_sem` (the timeout reset or the tail
of the handler). -/
inductive FramerReach (sb : Sandbox) : State → Prop where
  | init : FramerReach sb init
  | setup (crc_str : List Nat) (size : Nat) {s : State} : FramerReach sb s → 1 ≤ size →
      FramerReach sb (load_waited (load_teardown s) crc_str size (List.replicate size 0) 0
        rx_state_t.RX_STATE_BINARY)
  | byte (c : Nat) {s : State} : FramerReach sb s → FramerReach sb (serial_cb_byte s c)
  | after_wait (line : List Nat) (crc : Nat) {s : State} :
      FramerReach sb s → FramerReach sb (load_after_wait sb line crc s)

/-- What holds of the binary reception variables while the RX state is BINARY. -/
def binary_inv (s : State) : Prop :=
  s.g_rx_state = rx_state_t.RX_STATE_BINARY →
    s.g_bin_buf ≠ NULL ∧ s.g_bin_received < s.g_bin_expected ∧
    (heap_read s.heap s.g_bin_buf).length = s.g_bin_expected ∧ s.bin_sem = 0

/-- What holds of the line accumulator and of the line queue: the position is at most
255, the buffer has its 256 cells, and every queued message is a 256-byte buffer with a
NUL at an index between 1 and 255. -/
def line_inv (s : State) : Prop :=
  s.rx_buf_pos ≤ 255 ∧ s.rx_buf.length = LINE_BUF_SIZE ∧
  ∀ msg ∈ s.uart_msgq, msg.length = LINE_BUF_SIZE ∧ ∃ i, 1 ≤ i ∧ i ≤ 255 ∧ msg.getD i 1 = 0

/-- An `args` body of 70 bytes: a 59-byte name, `=123456`, then `,b=7`. -/
def demo_long_args : List Nat := List.replicate 59 97 ++ str "=123456,b=7"

/-- Text after the verb of a `START` line that carries `demo_long_args`. -/
def demo_long_start : List Nat :=
  str "module_id=m2 func=add args=\"" ++ demo_long_args ++ str "\""

/-- The same text with the `args` body cut to its first 63 bytes. -/
def demo_cut_start : List Nat :=
  str "module_id=m2 func=add args=\"" ++ demo_long_args.take 63 ++ str "\""

/-! ## CRC32: the bit loop against the table-driven reference -/

theorem zlib_crc_table_eq (n : Nat) : zlib_crc_table n = zbit^[8] n := rfl

theorem crc32_bit_eq_zbit (c : Nat) : crc32_bit c = zbit c := by
  unfold crc32_bit zbit
  simp only [Nat.and_one_is_mod]
  rcases Nat.mod_two_eq_zero_or_one c with h | h
  · simp [h]
  · simp only [h]
    rw [Nat.xor_comm]
    rfl

theorem zbit_form (c : Nat) : zbit c = (c >>> 1) ^^^ (if c % 2 = 1 then 0xedb88320 else 0) := by
  unfold zbit
  simp only [Nat.and_one_is_mod]
  split
  · rw [Nat.xor_comm]
  · simp

theorem xor_mod_two (x y : Nat) : (x ^^^ y) % 2 = (x % 2 + y % 2) % 2 := by
  have h := Nat.testBit_xor x y 0
  simp only [Nat.testBit_zero] at h
  rcases Nat.mod_two_eq_zero_or_one x with hx | hx <;>
  rcases Nat.mod_two_eq_zero_or_one y with hy | hy <;>
  rcases Nat.mod_two_eq_zero_or_one (x ^^^ y) with hz | hz <;>
  simp_all

theorem shiftRight_xor (x y k : Nat) : (x ^^^ y) >>> k = (x >>> k) ^^^ (y >>> k) := by
  apply Nat.eq_of_testBit_eq
  intro i
  simp [Nat.testBit_xor, Nat.testBit_shiftRight]

theorem xor_xor_xor_comm (a b c d : Nat) : (a ^^^ b) ^^^ (c ^^^ d) = (a ^^^ c) ^^^ (b ^^^ d) := by
  rw [Nat.xor_assoc, Nat.xor_assoc, ← Nat.xor_assoc b c d, Nat.xor_comm b c, Nat.xor_assoc c b d]

theorem zbit_xor (x y : Nat) : zbit (x ^^^ y) = zbit x ^^^ zbit y := by
  simp only [zbit_form, shiftRight_xor, xor_mod_two]
  rw [xor_xor_xor_comm]
  congr 1
  rcases Nat.mod_two_eq_zero_or_one x with hx | hx <;>
  rcases Nat.mod_two_eq_zero_or_one y with hy | hy <;>
  simp [hx, hy]

theorem zbit_iter_xor (k x y : Nat) : zbit^[k] (x ^^^ y) = zbit^[k] x ^^^ zbit^[k] y := by
  induction k generalizing x y with
  | zero => rfl
  | succ k ih => simp only [Function.iterate_succ, Function.comp, zbit_xor, ih]

theorem zbit_double (m : Nat) : zbit (2 * m) = m := by
  simp [zbit_form, Nat.shiftRight_eq_div_pow]

theorem zbit_iter_shift (k m : Nat) : zbit^[k] (2 ^ k * m) = m := by
  induction k generalizing m with
  | zero => simp
  | succ k ih =>
    rw [Function.iterate_succ, Function.comp, pow_succ, Nat.mul_assoc, Nat.mul_comm (2 ^ k),
      Nat.mul_assoc, zbit_double, Nat.mul_comm, ih]

theorem split_low (x : Nat) : x = (2 ^ 8 * (x / 2 ^ 8)) ^^^ (x % 2 ^ 8) := by
  apply Nat.eq_of_testBit_eq
  intro i
  rw [Nat.testBit_xor, Nat.testBit_mul_pow_two, Nat.testBit_mod_two_pow]
  by_cases h : i < 8
  · simp [h, Nat.not_le.mpr h]
  · have h8 : 8 ≤ i := Nat.le_of_not_lt h
    simp only [h, ge_iff_le, h8, decide_True, Bool.true_and, decide_False, Bool.false_and,
      Bool.xor_false]
    rw [← Nat.shiftRight_eq_div_pow, Nat.testBit_shiftRight]
    congr 1
    omega

theorem crc32_byte_table (c b : Nat) (hb : b < 256) :
    crc32_byte c b = zlib_crc_table ((c ^^^ b) &&& 0xff) ^^^ (c >>> 8) := by
  have hbit : crc32_bit = zbit := funext crc32_bit_eq_zbit
  have hmask : (c ^^^ b) &&& 0xff = (c ^^^ b) % 2 ^ 8 := Nat.and_pow_two_sub_one_eq_mod _ 8
  have hhi : (c ^^^ b) / 2 ^ 8 = c >>> 8 := by
    rw [← Nat.shiftRight_eq_div_pow, shiftRight_xor]
    have : b >>> 8 = 0 := by
      rw [Nat.shiftRight_eq_div_pow]
      exact Nat.div_eq_of_lt hb
    rw [this, Nat.xor_zero]
  unfold crc32_byte
  rw [hbit, hmask, zlib_crc_table_eq]
  conv_lhs => rw [split_low (c ^^^ b)]
  rw [zbit_iter_xor, zbit_iter_shift, hhi, Nat.xor_comm]

theorem crc32_fold_eq (data : List Nat) (h : ∀ x ∈ data, x < 256) (c : Nat) :
    data.foldl crc32_byte c =
      data.foldl (fun c b => zlib_crc_table ((c ^^^ b) &&& 0xff) ^^^ (c >>> 8)) c := by
  induction data generalizing c with
  | nil => rfl
  | cons b t ih =>
    simp only [List.foldl_cons]
    rw [crc32_byte_table c b (h b (List.mem_cons_self _ _))]
    exact ih (fun x hx => h x (List.mem_cons_of_mem _ hx)) _

theorem crc32_calc_eq_zlib (data : List Nat) (h : ∀ x ∈ data, x < 256) :
    crc32_calc data = zlib_crc32 data := by
  unfold crc32_calc zlib_crc32 zlib_update_crc
  rw [crc32_fold_eq data h]
  rfl

set_option maxRecDepth 100000 in
theorem crc32_check : crc32_calc (str "123456789") = 0xCBF43926 := by decide

/-! ## Parameter parsing -/

theorem copy_param_loop_full (n : Nat) (start dst : List Nat) (i : Nat) (h : n ≤ i + 1) :
    (copy_param_loop n start dst i).1 = dst ∧ i ≤ (copy_param_loop n start dst i).2 := by
  induction start generalizing i with
  | nil => simp [copy_param_loop]
  | cons c rest ih =>
    unfold copy_param_loop
    split
    · have h1 : ¬ (i + 1 < n) := by omega
      simp only [h1, if_false]
      have := ih (i + 1) (by omega)
      exact ⟨this.1, by omega⟩
    · simp

theorem cstr_append_zero (pre post : List Nat) (hz : ∀ x ∈ pre, x ≠ 0) :
    cstr (pre ++ 0 :: post) = pre := by
  unfold cstr
  induction pre with
  | nil => simp
  | cons a t ih =>
    have ha : a ≠ 0 := hz a (by simp)
    simp only [List.cons_append]
    rw [List.takeWhile_cons]
    simp only [bne_iff_ne, ne_eq, ha, not_false_eq_true, if_true]
    congr 1
    exact ih (fun x hx => hz x (by simp [hx]))

theorem set_at_length (pre post : List Nat) (hpost : post ≠ []) (a : Nat) :
    (pre ++ post).set pre.length a = pre ++ a :: post.tail := by
  cases post with
  | nil => exact absurd rfl hpost
  | cons x t => simp

theorem copy_param_value_cstr (n : Nat) (start pre post : List Nat)
    (hpost : post ≠ []) (hlen : pre.length + post.length = n) (hz : ∀ x ∈ pre, x ≠ 0) :
    cstr ((copy_param_loop n start (pre ++ post) pre.length).1.set
        (if (copy_param_loop n start (pre ++ post) pre.length).2 < n
          then (copy_param_loop n start (pre ++ post) pre.length).2 else n - 1) 0) =
      pre ++ (start.takeWhile value_char).take (n - 1 - pre.length) := by
  induction start generalizing pre post with
  | nil =>
    have hpl : 0 < post.length := List.length_pos.mpr hpost
    have hlt : pre.length < n := by omega
    simp only [copy_param_loop, List.takeWhile_nil, List.take_nil, List.append_nil, hlt, if_true,
      set_at_length pre post hpost]
    exact cstr_append_zero pre _ hz
  | cons c rest ih =>
    have hpl : 0 < post.length := List.length_pos.mpr hpost
    have hlt : pre.length < n := by omega
    unfold copy_param_loop
    by_cases hc : c ≠ 0 ∧ c ≠ 32 ∧ c ≠ 13 ∧ c ≠ 10
    · have hv : value_char c = true := by
        simp [value_char, hc.1, hc.2.1, hc.2.2.1, hc.2.2.2]
      rw [if_pos hc, List.takeWhile_cons, if_pos hv]
      by_cases h1 : pre.length + 1 < n
      · rw [if_pos h1, set_at_length pre post hpost]
        have hpt : post.tail ≠ [] := by
          intro ht
          have : post.tail.length = post.length - 1 := by simp
          rw [ht] at this
          simp at this
          omega
        have hz1 : ∀ x ∈ pre ++ [c], x ≠ 0 := by
          intro x hx
          rcases List.mem_append.mp hx with h | h
          · exact hz x h
          · simp at h; rw [h]; exact hc.1
        have := ih (pre ++ [c]) post.tail hpt (by simp; omega) hz1
        simp only [List.length_append, List.length_singleton, List.append_assoc,
          List.singleton_append] at this
        rw [this]
        have : n - 1 - pre.length = (n - 1 - (pre.length + 1)) + 1 := by omega
        rw [this, List.take_succ_cons]
      · rw [if_neg h1]
        have hfull := copy_param_loop_full n rest (pre ++ post) (pre.length + 1) (by omega)
        have hlast : pre.length = n - 1 := by omega
        rw [hfull.1]
        have h2 : ¬ ((copy_param_loop n rest (pre ++ post) (pre.length + 1)).2 < n) := by
          have := hfull.2
          omega
        rw [if_neg h2]
        have h3 : n - 1 - pre.length = 0 := by omega
        rw [h3, List.take_zero, List.append_nil, ← hlast, set_at_length pre post hpost]
        exact cstr_append_zero pre _ hz
    · have hv : ¬ (value_char c = true) := by
        intro hv
        apply hc
        simpa [value_char, and_assoc] using hv
      rw [if_neg hc, List.takeWhile_cons, if_neg hv]
      simp only [hlt, if_true, List.take_nil, List.append_nil, set_at_length pre post hpost]
      exact cstr_append_zero pre _ hz

theorem param_value_eq (start : List Nat) (n : Nat) (hn : 0 < n) :
    param_value start n = (start.takeWhile value_char).take (n - 1) := by
  unfold param_value copy_param_value
  have := copy_param_value_cstr n start [] (List.replicate n 0)
    (by cases n with
        | zero => omega
        | succ k => simp [List.replicate_succ])
    (by simp) (by simp)
  simp only [List.nil_append, List.length_nil, Nat.sub_zero] at this
  simp only [hn, if_true]
  exact this

theorem strstr_none (key p : List Nat) (h : strstr p key = none) : scan_param key p = none := by
  induction p with
  | nil => rfl
  | cons c t ih =>
    unfold strstr at h
    split at h
    · simp at h
    · rename_i hp
      unfold scan_param
      simp only [hp, false_and, if_false, Bool.false_eq_true]
      exact ih h

theorem strstr_some (key p q : List Nat) (hk : key ≠ []) (h : strstr p key = some q) :
    q ≠ [] ∧ q.length ≤ p.length ∧ key.isPrefixOf q = true ∧ scan_param key p = scan_param key q := by
  induction p with
  | nil =>
    unfold strstr at h
    simp [hk] at h
  | cons c t ih =>
    unfold strstr at h
    split at h
    · rename_i hp
      simp only [Option.some.injEq] at h
      subst h
      exact ⟨by simp, le_rfl, hp, rfl⟩
    · rename_i hp
      have := ih h
      refine ⟨this.1, by simp; omega, this.2.2.1, ?_⟩
      rw [← this.2.2.2]
      conv_lhs => unfold scan_param
      simp only [hp, false_and, if_false, Bool.false_eq_true]

theorem find_param_loop_eq (key : List Nat) (hk : key ≠ []) (fuel : Nat) (p : List Nat)
    (hf : p.length < fuel) : find_param_loop key fuel p = scan_param key p := by
  induction fuel generalizing p with
  | zero => omega
  | succ fuel ih =>
    unfold find_param_loop
    cases hs : strstr p key with
    | none => simp only [strstr_none key p hs]
    | some q =>
      have hq := strstr_some key p q hk hs
      simp only []
      rw [hq.2.2.2]
      cases q with
      | nil => exact absurd rfl hq.1
      | cons c t =>
        conv_rhs => unfold scan_param
        simp only [hq.2.2.1, true_and]
        split
        · rfl
        · simp only [List.drop_succ_cons, List.drop_zero]
          apply ih
          have := hq.2.1
          simp only [List.length_cons] at this
          omega

theorem find_param_eq_scan (line key : List Nat) (hk : key ≠ []) :
    find_param line key = scan_param key line :=
  find_param_loop_eq key hk _ _ (Nat.lt_succ_self _)

theorem scan_param_skip (key pre rest : List Nat) (h1 : 61 ∉ pre)
    (h2 : 61 ∉ rest.take key.length) : scan_param key (pre ++ rest) = scan_param key rest := by
  induction pre with
  | nil => rfl
  | cons c t ih =>
    have hc : c ≠ 61 := fun h => h1 (by simp [h])
    have ht : 61 ∉ t := fun h => h1 (by simp [h])
    simp only [List.cons_append]
    conv_lhs => unfold scan_param
    have hne : (c :: (t ++ rest)).getD key.length 0 ≠ 61 := by
      intro hget
      cases hk : key.length with
      | zero =>
        rw [hk] at hget
        simp at hget
        exact hc hget
      | succ k =>
        rw [hk] at hget h2
        simp only [List.getD_cons_succ] at hget
        by_cases hlt : k < t.length
        · rw [List.getD_append _ _ _ _ hlt] at hget
          apply ht
          rw [← hget, List.getD_eq_getElem _ _ hlt]
          exact List.getElem_mem _
        · have hle : t.length ≤ k := Nat.le_of_not_lt hlt
          rw [List.getD_append_right _ _ _ _ hle] at hget
          by_cases hlt2 : k - t.length < rest.length
          · apply h2
            rw [← hget, List.getD_eq_getElem _ _ hlt2]
            apply List.mem_take_iff_getElem.mpr
            exact ⟨k - t.length, by omega, rfl⟩
          · rw [List.getD_eq_default _ _ (Nat.le_of_not_lt hlt2)] at hget
            omega
    simp only [hne, and_false, if_false]
    exact ih ht

/-! ## Number texts -/

theorem digit_val_dec (d : Nat) (h : d < 10) : digit_val 10 (48 + d) = some d := by
  unfold digit_val
  have h1 : 48 ≤ 48 + d ∧ 48 + d ≤ 57 := by omega
  simp [h1, h]

theorem parse_digits_utoa_aux (fuel n : Nat) (acc tail : List Nat) (hf : n < fuel) :
    parse_digits 10 (utoa_aux fuel n acc ++ tail) 0 = parse_digits 10 (acc ++ tail) n := by
  induction fuel generalizing n acc with
  | zero => omega
  | succ fuel ih =>
    unfold utoa_aux
    split
    · rename_i h
      simp only [List.cons_append, parse_digits, digit_val_dec n h, Nat.zero_mul, Nat.zero_add]
      rfl
    · rename_i h
      rw [ih (n / 10) _ (by omega)]
      have hd : n % 10 < 10 := Nat.mod_lt _ (by decide)
      simp only [List.cons_append, parse_digits, digit_val_dec _ hd]
      congr 1
      omega

theorem utoa_aux_digits (fuel n : Nat) (acc : List Nat) (hf : n < fuel)
    (hacc : ∀ x ∈ acc, 48 ≤ x ∧ x ≤ 57) : ∀ x ∈ utoa_aux fuel n acc, 48 ≤ x ∧ x ≤ 57 := by
  induction fuel generalizing n acc with
  | zero => omega
  | succ fuel ih =>
    unfold utoa_aux
    split
    · intro x hx
      rcases List.mem_cons.mp hx with h | h
      · omega
      · exact hacc x h
    · apply ih _ _ (by omega)
      intro x hx
      rcases List.mem_cons.mp hx with h | h
      · omega
      · exact hacc x h

theorem utoa_aux_length (fuel n k : Nat) (acc : List Nat) (hf : n < fuel) (hk : n < 10 ^ (k + 1)) :
    1 ≤ (utoa_aux fuel n acc).length ∧ (utoa_aux fuel n acc).length ≤ acc.length + (k + 1) := by
  induction fuel generalizing n acc k with
  | zero => omega
  | succ fuel ih =>
    unfold utoa_aux
    split
    · simp
    · rename_i h
      cases k with
      | zero => simp at hk; omega
      | succ k =>
        have := ih (n / 10) k ((48 + n % 10) :: acc) (by omega)
          (by rw [pow_succ] at hk; exact Nat.div_lt_of_lt_mul (by omega))
        simp only [List.length_cons] at this
        omega

theorem utoa_digits (n : Nat) : ∀ x ∈ utoa n, 48 ≤ x ∧ x ≤ 57 :=
  utoa_aux_digits _ _ _ (Nat.lt_succ_self n) (by simp)

theorem utoa_length (n : Nat) (h : n < 2 ^ 32) : 1 ≤ (utoa n).length ∧ (utoa n).length ≤ 10 := by
  have := utoa_aux_length (n + 1) n 9 [] (Nat.lt_succ_self n) (by norm_num at h ⊢; omega)
  simpa [utoa] using this

theorem take_sign_other (c : Nat) (t : List Nat) (h1 : c ≠ 45) (h2 : c ≠ 43) :
    take_sign (c :: t) = (false, c :: t) := by
  unfold take_sign
  split
  · rename_i h; simp at h; omega
  · rename_i h; simp at h; omega
  · rfl

theorem atoi_utoa (n : Nat) (h : n < 2 ^ 31) : to_u32 (atoi (utoa n)) = n := by
  have hd := utoa_digits n
  have hl := (utoa_length n (by omega)).1
  cases hu : utoa n with
  | nil => rw [hu] at hl; simp at hl
  | cons c t =>
    have hc : 48 ≤ c ∧ c ≤ 57 := hd c (by rw [hu]; simp)
    have hsp : isspace c = false := by
      simp only [isspace, Bool.or_eq_false_iff, beq_eq_false_iff_ne, ne_eq, Bool.and_eq_false_imp,
        decide_eq_true_eq, decide_eq_false_iff_not, not_le]
      omega
    have hv : parse_digits 10 (c :: t) 0 = n := by
      have : parse_digits 10 (utoa n ++ []) 0 = parse_digits 10 ([] ++ []) n :=
        parse_digits_utoa_aux (n + 1) n [] [] (Nat.lt_succ_self n)
      rw [hu] at this
      simpa [parse_digits] using this
    unfold atoi
    rw [List.dropWhile_cons_of_neg (by simp [hsp]), take_sign_other c t (by omega) (by omega)]
    simp only [hv, Bool.false_eq_true, if_false]
    have h2 : ¬ (n > 2 ^ 31 - 1) := by omega
    simp only [h2, if_false, to_u32]
    omega

theorem digit_val_hex (d : Nat) (h : d < 16) : digit_val 16 (hex_digit d) = some d := by
  unfold digit_val hex_digit
  by_cases h10 : d < 10
  · have h1 : 48 ≤ 48 + d ∧ 48 + d ≤ 57 := by omega
    simp [h10, h1, h]
  · have h1 : ¬ (48 ≤ 87 + d ∧ 87 + d ≤ 57) := by omega
    have h2 : 97 ≤ 87 + d ∧ 87 + d ≤ 122 := by omega
    simp [h10, h1, h2, h]

theorem hex_digit_range (d : Nat) (h : d < 16) :
    (48 ≤ hex_digit d ∧ hex_digit d ≤ 57) ∨ (97 ≤ hex_digit d ∧ hex_digit d ≤ 102) := by
  unfold hex_digit
  split <;> omega

theorem strtoul16_hex_head (a b : Nat) (t : List Nat) (ha : a < 16) (hb : b < 16) :
    strtoul16 (hex_digit a :: hex_digit b :: t) =
      if parse_digits 16 (hex_digit a :: hex_digit b :: t) 0 > 2 ^ 32 - 1 then 2 ^ 32 - 1
      else parse_digits 16 (hex_digit a :: hex_digit b :: t) 0 := by
  have ra := hex_digit_range a ha
  have rb := hex_digit_range b hb
  generalize hex_digit a = x at *
  generalize hex_digit b = y at *
  have hsp : isspace x = false := by
    simp only [isspace, Bool.or_eq_false_iff, beq_eq_false_iff_ne, ne_eq, Bool.and_eq_false_imp,
      decide_eq_true_eq, decide_eq_false_iff_not, not_le]
    omega
  have hskip : skip_0x (x :: y :: t) = x :: y :: t := by
    unfold skip_0x
    split
    · rename_i heq; simp at heq; omega
    · rename_i heq; simp at heq; omega
    · rfl
  unfold strtoul16
  rw [List.dropWhile_cons_of_neg (by simp [hsp]), take_sign_other _ _ (by omega) (by omega)]
  simp only [hskip, Bool.false_eq_true, if_false]

theorem parse_digits_hex8 (d7 d6 d5 d4 d3 d2 d1 d0 : Nat) (h7 : d7 < 16) (h6 : d6 < 16)
    (h5 : d5 < 16) (h4 : d4 < 16) (h3 : d3 < 16) (h2 : d2 < 16) (h1 : d1 < 16) (h0 : d0 < 16) :
    parse_digits 16 [hex_digit d7, hex_digit d6, hex_digit d5, hex_digit d4, hex_digit d3,
      hex_digit d2, hex_digit d1, hex_digit d0] 0 =
    ((((((d7 * 16 + d6) * 16 + d5) * 16 + d4) * 16 + d3) * 16 + d2) * 16 + d1) * 16 + d0 := by
  simp only [parse_digits, digit_val_hex, h7, h6, h5, h4, h3, h2, h1, h0, Nat.zero_mul,
    Nat.zero_add]

theorem strtoul16_hex8 (v : Nat) (h : v < 2 ^ 32) : strtoul16 (hex8 v) = v := by
  have m : ∀ k, v / k % 16 < 16 := fun k => Nat.mod_lt _ (by decide)
  have m0 : v % 16 < 16 := Nat.mod_lt _ (by decide)
  unfold hex8
  rw [strtoul16_hex_head _ _ _ (m _) (m _),
    parse_digits_hex8 _ _ _ _ _ _ _ _ (m _) (m _) (m _) (m _) (m _) (m _) (m _) m0]
  have hval : ((((((v / 16 ^ 7 % 16 * 16 + v / 16 ^ 6 % 16) * 16 + v / 16 ^ 5 % 16) * 16 +
      v / 16 ^ 4 % 16) * 16 + v / 16 ^ 3 % 16) * 16 + v / 16 ^ 2 % 16) * 16 + v / 16 % 16) * 16 +
      v % 16 = v := by
    norm_num at h ⊢
    omega
  rw [hval]
  have : ¬ (v > 2 ^ 32 - 1) := by omega
  rw [if_neg this]

theorem hex_digit_bounds (d : Nat) (h : d < 16) : 48 ≤ hex_digit d ∧ hex_digit d ≤ 102 := by
  have hr := hex_digit_range d h
  omega

theorem hex8_value_chars (v : Nat) : ∀ x ∈ hex8 v, 48 ≤ x ∧ x ≤ 102 := by
  have m : ∀ k, v / k % 16 < 16 := fun k => Nat.mod_lt _ (by decide)
  have m0 : v % 16 < 16 := Nat.mod_lt _ (by decide)
  intro x hx
  simp only [hex8, List.mem_cons, List.mem_singleton, List.not_mem_nil, or_false] at hx
  rcases hx with h | h | h | h | h | h | h | h <;> subst h
  · exact hex_digit_bounds _ (m _)
  · exact hex_digit_bounds _ (m _)
  · exact hex_digit_bounds _ (m _)
  · exact hex_digit_bounds _ (m _)
  · exact hex_digit_bounds _ (m _)
  · exact hex_digit_bounds _ (m _)
  · exact hex_digit_bounds _ (m _)
  · exact hex_digit_bounds _ m0

/-! ## Binary reception -/

theorem heap_write_last (h0 : List (Option (List Nat))) (done rest : List Nat) (r c : Nat) :
    heap_write (h0 ++ [some (done ++ r :: rest)]) (h0.length + 1) done.length c =
      h0 ++ [some (done ++ c :: rest)] := by
  simp [heap_write, List.getD_append_right]

theorem heap_free_last (h0 : List (Option (List Nat))) (blk : List Nat) :
    heap_free (h0 ++ [some blk]) (h0.length + 1) = h0 ++ [none] := by
  simp [heap_free]

theorem heap_read_last (h0 : List (Option (List Nat))) (blk : List Nat) :
    heap_read (h0 ++ [some blk]) (h0.length + 1) = blk := by
  simp [heap_read, List.getD_append_right]

theorem serial_cb_binary (bytes : List Nat) :
    ∀ (done rest0 : List Nat) (h0 : List (Option (List Nat))) (s : State),
    s.g_rx_state = rx_state_t.RX_STATE_BINARY → s.g_bin_buf = h0.length + 1 →
    s.heap = h0 ++ [some (done ++ rest0)] → s.g_bin_received = done.length →
    s.g_bin_expected = done.length + rest0.length → bytes.length ≤ rest0.length →
    serial_cb s bytes =
      if bytes ≠ [] ∧ bytes.length = rest0.length then
        { s with heap := h0 ++ [some (done ++ bytes)],
                 g_bin_received := done.length + bytes.length,
                 g_rx_state := rx_state_t.RX_STATE_LINE,
                 bin_sem := k_sem_give s.bin_sem }
      else
        { s with heap := h0 ++ [some (done ++ bytes ++ rest0.drop bytes.length)],
                 g_bin_received := done.length + bytes.length } := by
  induction bytes with
  | nil =>
    intro done rest0 h0 s hst hp hh hr he hlen
    cases s
    simp_all [serial_cb]
  | cons c t ih =>
    intro done rest0 h0 s hst hp hh hr he hlen
    cases rest0 with
    | nil => simp at hlen
    | cons r rest =>
      simp only [serial_cb, List.foldl_cons]
      have hstep : serial_cb_byte s c =
          if rest = [] then
            { s with heap := h0 ++ [some (done ++ [c])],
                     g_bin_received := done.length + 1,
                     g_rx_state := rx_state_t.RX_STATE_LINE,
                     bin_sem := k_sem_give s.bin_sem }
          else
            { s with heap := h0 ++ [some ((done ++ [c]) ++ rest)],
                     g_bin_received := done.length + 1 } := by
        unfold serial_cb_byte
        simp only [hst, hp, hh, hr, he, heap_write_last, NULL]
        cases rest with
        | nil => simp
        | cons x xs => simp
      by_cases hrest : rest = []
      · subst hrest
        have ht : t = [] := by
          simp only [List.length_cons, List.length_nil] at hlen
          exact List.length_eq_zero.mp (by omega)
        subst ht
        rw [hstep]
        simp
      · rw [hstep, if_neg hrest]
        have := ih (done ++ [c]) rest h0
          { s with heap := h0 ++ [some ((done ++ [c]) ++ rest)],
                   g_bin_received := done.length + 1 }
          hst hp rfl (by simp) (by simp [he]; omega) (by simpa using hlen)
        simp only [serial_cb] at this
        rw [this]
        have hcond : (t ≠ [] ∧ t.length = rest.length) ↔
            (c :: t ≠ [] ∧ (c :: t).length = (r :: rest).length) := by
          constructor
          · intro h; exact ⟨by simp, by simp [h.2]⟩
          · intro h
            have hl : t.length = rest.length := by simpa using h.2
            refine ⟨?_, hl⟩
            intro ht
            subst ht
            exact hrest (List.length_eq_zero.mp (by simpa using hl.symm))
        by_cases hc : t ≠ [] ∧ t.length = rest.length
        · rw [if_pos hc, if_pos (hcond.mp hc)]
          simp [Nat.add_assoc, Nat.add_comm 1]
        · rw [if_neg hc, if_neg (fun h => hc (hcond.mpr h))]
          simp [Nat.add_assoc, Nat.add_comm 1]

/-! ## CRC32: a changed byte changes the checksum -/

theorem zbit_lt (c : Nat) (h : c < 2 ^ 32) : zbit c < 2 ^ 32 := by
  rw [zbit_form]
  apply Nat.xor_lt_two_pow
  · rw [Nat.shiftRight_eq_div_pow]
    omega
  · split <;> norm_num

theorem zbit_high (c : Nat) (h : c < 2 ^ 32) : (zbit c).testBit 31 = decide (c % 2 = 1) := by
  rw [zbit_form, Nat.testBit_xor]
  have h1 : (c >>> 1).testBit 31 = false := by
    apply Nat.testBit_lt_two_pow
    rw [Nat.shiftRight_eq_div_pow]
    omega
  rw [h1]
  split
  · rename_i hc
    simp only [hc, decide_True, Bool.false_xor]
    decide
  · rename_i hc
    simp [hc]

theorem zbit_injective (x y : Nat) (hx : x < 2 ^ 32) (hy : y < 2 ^ 32) (h : zbit x = zbit y) :
    x = y := by
  have hb : decide (x % 2 = 1) = decide (y % 2 = 1) := by
    rw [← zbit_high x hx, ← zbit_high y hy, h]
  have hpar : x % 2 = y % 2 := by
    rcases Nat.mod_two_eq_zero_or_one x with h1 | h1 <;>
    rcases Nat.mod_two_eq_zero_or_one y with h2 | h2 <;> simp_all
  rw [zbit_form, zbit_form, hpar] at h
  have hs : x >>> 1 = y >>> 1 := Nat.xor_left_injective h
  rw [Nat.shiftRight_eq_div_pow, Nat.shiftRight_eq_div_pow] at hs
  omega

theorem zbit_iter_lt (k c : Nat) (h : c < 2 ^ 32) : zbit^[k] c < 2 ^ 32 := by
  induction k generalizing c with
  | zero => exact h
  | succ k ih => exact ih _ (zbit_lt c h)

theorem zbit_iter_injective (k x y : Nat) (hx : x < 2 ^ 32) (hy : y < 2 ^ 32)
    (h : zbit^[k] x = zbit^[k] y) : x = y := by
  induction k generalizing x y with
  | zero => exact h
  | succ k ih =>
    exact zbit_injective x y hx hy (ih _ _ (zbit_lt x hx) (zbit_lt y hy) h)

theorem crc32_byte_eq (c b : Nat) : crc32_byte c b = zbit^[8] (c ^^^ b) := by
  have hbit : crc32_bit = zbit := funext crc32_bit_eq_zbit
  unfold crc32_byte
  rw [hbit]

theorem xor_byte_lt (c b : Nat) (hc : c < 2 ^ 32) (hb : b < 256) : c ^^^ b < 2 ^ 32 :=
  Nat.xor_lt_two_pow hc (by omega)

theorem crc32_byte_lt (c b : Nat) (hc : c < 2 ^ 32) (hb : b < 256) : crc32_byte c b < 2 ^ 32 := by
  rw [crc32_byte_eq]
  exact zbit_iter_lt 8 _ (xor_byte_lt c b hc hb)

theorem crc32_fold_lt (data : List Nat) (h : ∀ x ∈ data, x < 256) (c : Nat) (hc : c < 2 ^ 32) :
    data.foldl crc32_byte c < 2 ^ 32 := by
  induction data generalizing c with
  | nil => exact hc
  | cons b t ih =>
    exact ih (fun x hx => h x (List.mem_cons_of_mem _ hx)) _
      (crc32_byte_lt c b hc (h b (List.mem_cons_self _ _)))

theorem crc32_calc_lt (data : List Nat) (h : ∀ x ∈ data, x < 256) : crc32_calc data < 2 ^ 32 := by
  unfold crc32_calc
  exact Nat.xor_lt_two_pow (by norm_num) (crc32_fold_lt data h _ (by norm_num))

theorem crc32_fold_ne (data : List Nat) (h : ∀ x ∈ data, x < 256) (c d : Nat) (hc : c < 2 ^ 32)
    (hd : d < 2 ^ 32) (hne : c ≠ d) : data.foldl crc32_byte c ≠ data.foldl crc32_byte d := by
  induction data generalizing c d with
  | nil => exact hne
  | cons b t ih =>
    have hb := h b (List.mem_cons_self _ _)
    apply ih (fun x hx => h x (List.mem_cons_of_mem _ hx)) _ _
      (crc32_byte_lt c b hc hb) (crc32_byte_lt d b hd hb)
    intro heq
    rw [crc32_byte_eq, crc32_byte_eq] at heq
    have := zbit_iter_injective 8 _ _ (xor_byte_lt c b hc hb) (xor_byte_lt d b hd hb) heq
    exact hne (Nat.xor_left_injective this)

theorem crc32_calc_one_byte (pre post : List Nat) (x y : Nat)
    (hpre : ∀ b ∈ pre, b < 256) (hpost : ∀ b ∈ post, b < 256) (hx : x < 256) (hy : y < 256)
    (hxy : x ≠ y) : crc32_calc (pre ++ x :: post) ≠ crc32_calc (pre ++ y :: post) := by
  unfold crc32_calc
  intro h
  have h1 := Nat.xor_right_injective h
  simp only [List.foldl_append, List.foldl_cons] at h1
  have hc : pre.foldl crc32_byte 0xFFFFFFFF < 2 ^ 32 := crc32_fold_lt pre hpre _ (by norm_num)
  refine crc32_fold_ne post hpost _ _ (crc32_byte_lt _ x hc hx) (crc32_byte_lt _ y hc hy) ?_ h1
  intro heq
  rw [crc32_byte_eq, crc32_byte_eq] at heq
  have := zbit_iter_injective 8 _ _ (xor_byte_lt _ x hc hx) (xor_byte_lt _ y hc hy) heq
  exact hxy (Nat.xor_right_injective this)

/-! ## `LOAD`: the receive phase -/

theorem load_receive_full (sb : Sandbox) (line crc_str B : List Nat) (crc : Nat) (s : State)
    (hB : B ≠ []) :
    load_receive sb ⟨true, B⟩ line crc_str B.length crc s =
      load_install sb line crc
        (load_waited (load_teardown s) crc_str B.length B B.length rx_state_t.RX_STATE_LINE) := by
  unfold load_receive load_after_wait
  simp only [malloc, if_true, NULL, Nat.add_one_ne_zero, if_false, agent_write_str]
  rw [serial_cb_binary B [] (List.replicate B.length 0) (load_teardown s).heap _ rfl rfl rfl rfl
    (by simp) (by simp)]
  simp [hB, k_sem_give, load_waited]

theorem load_receive_timeout (sb : Sandbox) (line crc_str rx : List Nat) (n crc : Nat) (s : State)
    (hrx : rx.length < n) :
    load_receive sb ⟨true, rx⟩ line crc_str n crc s =
      { load_waited (load_teardown s) crc_str n (rx ++ List.replicate (n - rx.length) 0)
          rx.length rx_state_t.RX_STATE_LINE with
        heap := (load_teardown s).heap ++ [none]
        g_wasm_buf := NULL
        trace := (load_teardown s).trace ++
          [Event.malloc n ((load_teardown s).heap.length + 1),
           Event.free ((load_teardown s).heap.length + 1)]
        uart_tx := (load_teardown s).uart_tx ++
          [snprintf 160 (str "LOAD_READY size=" ++ utoa n ++ str " crc32=" ++ crc_str ++ str "\n"),
           str "LOAD_ERR code=TIMEOUT msg=\"binary payload not received\"\n"] } := by
  unfold load_receive load_after_wait
  simp only [malloc, if_true, NULL, Nat.add_one_ne_zero, if_false, agent_write_str]
  rw [serial_cb_binary rx [] (List.replicate n 0) (load_teardown s).heap _ rfl rfl rfl rfl
    (by simp) (by simp; omega)]
  have hne : ¬ (rx ≠ [] ∧ rx.length = (List.replicate n 0).length) := by
    simp only [List.length_replicate]
    omega
  rw [if_neg hne]
  simp [free, load_waited, heap_free_last]

/-! ## `LOAD`: the well-formed command line -/

theorem str_module_id_eq : str "module_id=" = [109, 111, 100, 117, 108, 101, 95, 105, 100, 61] := by
  decide
theorem str_size_eq : str " size=" = [32, 115, 105, 122, 101, 61] := by decide
theorem str_crc32_eq : str " crc32=" = [32, 99, 114, 99, 51, 50, 61] := by decide
theorem str_key_size : str "size" = [115, 105, 122, 101] := by decide
theorem str_key_crc32 : str "crc32" = [99, 114, 99, 51, 50] := by decide
theorem str_key_module_id : str "module_id" = [109, 111, 100, 117, 108, 101, 95, 105, 100] := by
  decide

theorem not_mem_of_digits (l : List Nat) (c : Nat) (h : ∀ x ∈ l, 48 ≤ x ∧ x ≤ 57)
    (hc : c < 48 ∨ 57 < c) : c ∉ l := by
  intro hm
  have := h c hm
  omega

theorem find_size_load_line (id : List Nat) (n v : Nat) (hid : 61 ∉ id) :
    find_param (load_line id n v) (str "size") = some (utoa n ++ str " crc32=" ++ hex8 v) := by
  rw [find_param_eq_scan _ _ (by decide)]
  simp only [load_line, str_module_id_eq, str_size_eq, str_key_size, List.cons_append,
    List.nil_append, List.append_assoc]
  simp only [scan_param, List.isPrefixOf, Nat.reduceBEq, Bool.false_and, Bool.false_eq_true,
    false_and, if_false]
  rw [scan_param_skip _ id _ hid (by simp)]
  simp [scan_param, List.isPrefixOf]

theorem find_crc32_load_line (id : List Nat) (n v : Nat) (hid : 61 ∉ id) :
    find_param (load_line id n v) (str "crc32") = some (hex8 v) := by
  rw [find_param_eq_scan _ _ (by decide)]
  simp only [load_line, str_module_id_eq, str_size_eq, str_key_crc32, List.cons_append,
    List.nil_append, List.append_assoc]
  simp only [scan_param, List.isPrefixOf, Nat.reduceBEq, Bool.false_and, Bool.false_eq_true,
    false_and, if_false]
  rw [scan_param_skip _ id _ hid (by simp)]
  simp only [scan_param, List.isPrefixOf, Nat.reduceBEq, Bool.false_and, Bool.false_eq_true,
    false_and, if_false]
  rw [scan_param_skip _ (utoa n) _ (not_mem_of_digits _ _ (utoa_digits n) (by omega))
    (by simp [str_crc32_eq])]
  simp [scan_param, List.isPrefixOf, str_crc32_eq]

theorem find_module_id_load_line (id : List Nat) (n v : Nat) :
    find_param (load_line id n v) (str "module_id") =
      some (id ++ str " size=" ++ utoa n ++ str " crc32=" ++ hex8 v) := by
  rw [find_param_eq_scan _ _ (by decide)]
  simp [load_line, str_module_id_eq, str_key_module_id, scan_param, List.isPrefixOf]



theorem value_char_of_ge (c : Nat) (h : 33 ≤ c) : value_char c = true := by
  simp only [value_char, Bool.and_eq_true, bne_iff_ne, ne_eq]
  omega

theorem takeWhile_value_append (l rest : List Nat) (h : ∀ x ∈ l, value_char x = true) :
    (l ++ 32 :: rest).takeWhile value_char = l := by
  rw [List.takeWhile_append_of_pos h]
  simp [value_char]

theorem takeWhile_value_all (l : List Nat) (h : ∀ x ∈ l, value_char x = true) :
    l.takeWhile value_char = l :=
  List.takeWhile_eq_self_iff.mpr h

theorem param_value_size (n : Nat) (rest : List Nat) (hn : n < 2 ^ 32) :
    param_value (utoa n ++ str " crc32=" ++ rest) 16 = utoa n := by
  rw [param_value_eq _ _ (by decide), str_crc32_eq, List.append_assoc, List.cons_append,
    takeWhile_value_append _ _
      (fun x hx => value_char_of_ge x (by have := utoa_digits n x hx; omega))]
  exact List.take_of_length_le (by have := (utoa_length n hn).2; omega)

theorem param_value_hex8 (v : Nat) : param_value (hex8 v) 16 = hex8 v := by
  rw [param_value_eq _ _ (by decide),
    takeWhile_value_all _ (fun x hx => value_char_of_ge x (by have := hex8_value_chars v x hx; omega))]
  exact List.take_of_length_le (by simp [hex8])

theorem param_value_module_id (id rest : List Nat) (hid : ∀ x ∈ id, value_char x = true) :
    param_value (id ++ str " size=" ++ rest) 32 = id.take 31 := by
  rw [param_value_eq _ _ (by decide), str_size_eq, List.append_assoc, List.cons_append,
    takeWhile_value_append _ _ hid]

theorem strip_newline_keep (l : List Nat) (c : Nat) (h1 : c ≠ 10) (h2 : c ≠ 13) :
    strip_newline (l ++ [c]) = l ++ [c] := by
  unfold strip_newline
  simp [h1, h2]

theorem strtok_token (delims tok rest : List Nat) (c d : Nat) (t : List Nat)
    (htok : tok = c :: t) (hnd : ∀ x ∈ tok, x ∉ delims) (hd : d ∈ delims) :
    strtok (tok ++ d :: rest) delims = some (tok, rest) := by
  have hv : ∀ x ∈ tok, (!(delims.contains x)) = true := by
    intro x hx
    simp [hnd x hx]
  have hc : c ∉ delims := hnd c (by rw [htok]; simp)
  unfold strtok
  have h1 : (tok ++ d :: rest).dropWhile (fun c => delims.contains c) = c :: (t ++ d :: rest) := by
    rw [htok, List.cons_append, List.dropWhile_cons_of_neg (by simp [hc])]
  rw [h1]
  simp only []
  have h4 : c :: (t ++ d :: rest) = tok ++ d :: rest := by rw [htok]; rfl
  rw [h4, List.takeWhile_append_of_pos hv, List.dropWhile_append_of_pos hv,
    List.takeWhile_cons_of_neg (by simp [hd]), List.dropWhile_cons_of_neg (by simp [hd])]
  simp

theorem strtok_no_delims (r : Nat) (rs : List Nat) :
    strtok (r :: rs) [] = some (r :: rs, []) := by
  have h1 : (r :: rs).takeWhile (fun c => !(([] : List Nat).contains c)) = r :: rs :=
    List.takeWhile_eq_self_iff.mpr (by simp)
  have h2 : (r :: rs).dropWhile (fun c => !(([] : List Nat).contains c)) = [] :=
    List.dropWhile_eq_nil_iff.mpr (by simp)
  unfold strtok
  rw [List.dropWhile_cons_of_neg (by simp)]
  simp only [h1, h2, List.drop_nil]

theorem split_command_verb (verb rest : List Nat) (c : Nat) (t : List Nat)
    (hverb : verb = c :: t) (hsp : 32 ∉ verb) (hrest : rest ≠ [])
    (hlast : ∀ x, rest.getLast? = some x → x ≠ 10 ∧ x ≠ 13) :
    split_command (verb ++ 32 :: rest) = some (verb, rest) := by
  have hstrip : strip_newline (verb ++ 32 :: rest) = verb ++ 32 :: rest := by
    obtain ⟨init, x, hx⟩ : ∃ init x, rest = init ++ [x] :=
      ⟨rest.dropLast, rest.getLast hrest, (List.dropLast_append_getLast hrest).symm⟩
    have := hlast x (by rw [hx]; simp)
    rw [hx, ← List.cons_append, ← List.append_assoc]
    exact strip_newline_keep _ _ this.1 this.2
  unfold split_command
  rw [hstrip, strtok_token [32] verb rest c 32 t hverb
    (by
      intro x hx hm
      have : x = 32 := by simpa using hm
      exact hsp (this ▸ hx))
    (by simp)]
  cases rest with
  | nil => exact absurd rfl hrest
  | cons r rs => simp only [strtok_no_delims]

theorem str_load_verb : str "LOAD" = [76, 79, 65, 68] := by decide

theorem split_command_load_line (id : List Nat) (n v : Nat) :
    split_command (str "LOAD" ++ 32 :: load_line id n v) = some (str "LOAD", load_line id n v) := by
  apply split_command_verb _ _ 76 [79, 65, 68] str_load_verb (by decide)
  · simp [load_line, hex8]
  · intro x hx
    have hx8 : x ∈ hex8 v := by
      have : (load_line id n v).getLast? = (hex8 v).getLast? := by
        simp [load_line, hex8]
      rw [this] at hx
      exact List.mem_of_getLast?_eq_some hx
    have := hex8_value_chars v x hx8
    omega

/-! ## `LOAD`: frame of the RX interrupt and the outcomes after the wait -/

theorem heap_write_length (heap : List (Option (List Nat))) (p i c : Nat) :
    (heap_write heap p i c).length = heap.length := by
  unfold heap_write
  cases p with
  | zero => rfl
  | succ k =>
    simp only []
    split <;> simp

theorem serial_cb_byte_frame (s : State) (c : Nat) : rx_frame s (serial_cb_byte s c) := by
  unfold serial_cb_byte rx_frame
  split
  · split
    · simp
    · split <;> simp
  · split
    · simp only []
      split <;> simp [heap_write_length]
    · simp

theorem serial_cb_frame (s : State) (bytes : List Nat) : rx_frame s (serial_cb s bytes) := by
  induction bytes generalizing s with
  | nil => simp [serial_cb, rx_frame]
  | cons c t ih =>
    have h1 := serial_cb_byte_frame s c
    have h2 := ih (serial_cb_byte s c)
    simp only [serial_cb, List.foldl_cons] at h2 ⊢
    unfold rx_frame at h1 h2 ⊢
    simp only [h2, h1, and_self]

theorem load_teardown_facts (s : State) :
    (load_teardown s).trace = s.trace ++ teardown_events s ∧
    (load_teardown s).g_module_loaded = false ∧
    (load_teardown s).uart_tx = s.uart_tx := by
  unfold load_teardown teardown_events free
  by_cases h : s.g_module_loaded = true
  · simp [h]
  · simp only [h, if_false]
    simp at h
    simp [h]

theorem teardown_events_no_malloc (s : State) (size p : Nat) :
    Event.malloc size p ∉ teardown_events s := by
  unfold teardown_events
  split <;> simp

theorem heap_free_getD (heap : List (Option (List Nat))) (p : Nat) (hp : p ≠ NULL) :
    (heap_free heap p).getD (p - 1) none = none := by
  cases p with
  | zero => exact absurd rfl hp
  | succ k =>
    simp only [heap_free, Nat.add_sub_cancel]
    by_cases h : k < heap.length
    · rw [List.getD_eq_getElem _ _ (by simpa using h)]
      simp
    · rw [List.getD_eq_default _ _ (by simpa using h)]

theorem getLast_snoc {α : Type} (l : List α) (a : α) : (l ++ [a]).getLast? = some a := by
  simp

theorem load_after_wait_error (sb : Sandbox) (line : List Nat) (crc : Nat) (s6 : State)
    (reply : List Nat) (hl : s6.g_module_loaded = false) (hp : s6.g_wasm_buf ≠ NULL)
    (hlast : (load_after_wait sb line crc s6).uart_tx.getLast? = some reply)
    (hcode : (str "LOAD_ERR code=NO_MEM").isPrefixOf reply = true ∨
      (str "LOAD_ERR code=TIMEOUT").isPrefixOf reply = true ∨
      (str "LOAD_ERR code=BAD_CRC").isPrefixOf reply = true ∨
      (str "LOAD_ERR code=LOAD_FAIL").isPrefixOf reply = true ∨
      (str "LOAD_ERR code=INSTANTIATE_FAIL").isPrefixOf reply = true) :
    (load_after_wait sb line crc s6).g_module_loaded = false ∧
    (load_after_wait sb line crc s6).g_wasm_buf = NULL ∧
    (load_after_wait sb line crc s6).heap.getD (s6.g_wasm_buf - 1) none = none ∧
    (∃ ext, (load_after_wait sb line crc s6).trace = s6.trace ++ ext ∧
      ext.getLast? = some (Event.free s6.g_wasm_buf) ∧ ∀ size p, Event.malloc size p ∉ ext) ∧
    ((str "LOAD_ERR code=INSTANTIATE_FAIL").isPrefixOf reply = true →
      (load_after_wait sb line crc s6).g_wasm_module = NULL ∧
      ∃ image p, (load_after_wait sb line crc s6).trace = s6.trace ++
        [Event.wasm_runtime_load image,
         Event.wasm_runtime_instantiate (sb.wasm_runtime_load image).1,
         Event.wasm_runtime_unload (sb.wasm_runtime_load image).1, Event.free p]) := by
  have hg := heap_free_getD s6.heap s6.g_wasm_buf hp
  revert hlast
  unfold load_after_wait
  split
  · -- timeout
    simp only [agent_write_str, free]
    simp only [getLast_snoc, Option.some.injEq]
    intro h
    subst h
    refine ⟨hl, trivial, hg, ⟨[Event.free s6.g_wasm_buf], rfl, rfl, by simp⟩, ?_⟩
    intro hI
    exact absurd hI (by decide)
  · unfold load_install
    simp only []
    split
    · -- BAD_CRC
      simp only [agent_write_str, free]
      simp only [getLast_snoc, Option.some.injEq]
      intro h
      subst h
      refine ⟨hl, trivial, hg, ⟨[Event.free s6.g_wasm_buf], rfl, rfl, by simp⟩, ?_⟩
      intro hI
      simp [str, snprintf, List.isPrefixOf] at hI
    · split
      · -- LOAD_FAIL
        simp only [agent_write_str, free]
        simp only [getLast_snoc, Option.some.injEq]
        intro h
        subst h
        refine ⟨hl, trivial, hg, ⟨[Event.wasm_runtime_load
          ((heap_read s6.heap s6.g_wasm_buf).take s6.g_wasm_size), Event.free s6.g_wasm_buf],
          by simp, rfl, by simp⟩, ?_⟩
        intro hI
        simp [str, snprintf, List.isPrefixOf] at hI
      · split
        · -- INSTANTIATE_FAIL
          simp only [agent_write_str, free]
          simp only [getLast_snoc, Option.some.injEq]
          intro h
          subst h
          refine ⟨hl, trivial, hg, ⟨[Event.wasm_runtime_load
              ((heap_read s6.heap s6.g_wasm_buf).take s6.g_wasm_size),
            Event.wasm_runtime_instantiate (sb.wasm_runtime_load
              ((heap_read s6.heap s6.g_wasm_buf).take s6.g_wasm_size)).1,
            Event.wasm_runtime_unload (sb.wasm_runtime_load
              ((heap_read s6.heap s6.g_wasm_buf).take s6.g_wasm_size)).1,
            Event.free s6.g_wasm_buf], by simp, rfl, by simp⟩, ?_⟩
          intro _
          exact ⟨trivial, (heap_read s6.heap s6.g_wasm_buf).take s6.g_wasm_size, s6.g_wasm_buf,
            by simp⟩
        · -- LOAD_OK
          intro h
          exfalso
          have hr : reply = str "LOAD_OK\n" := by
            revert h
            split <;> simp [agent_write_str] <;> exact fun h => h.symm
          subst hr
          exact absurd hcode (by decide)



theorem load_receive_shape (sb : Sandbox) (env : LoadEnv) (line crc_str : List Nat)
    (size crc : Nat) (s : State) (h : env.malloc_ok = true) :
    ∃ s6, load_receive sb env line crc_str size crc s = load_after_wait sb line crc s6 ∧
      s6.g_module_loaded = false ∧ s6.g_wasm_buf = (load_teardown s).heap.length + 1 ∧
      s6.trace = s.trace ++ teardown_events s ++
        [Event.malloc size ((load_teardown s).heap.length + 1)] ∧
      s6.uart_tx = s.uart_tx ++ [snprintf 160 (str "LOAD_READY size=" ++ utoa size ++
        str " crc32=" ++ crc_str ++ str "\n")] := by
  have hT := load_teardown_facts s
  unfold load_receive
  simp only [malloc, h, if_true, NULL, Nat.add_one_ne_zero, if_false, agent_write_str]
  refine ⟨_, rfl, ?_, ?_, ?_, ?_⟩
  · rw [(serial_cb_frame _ env.rx).2.2.2.2.1]
    exact hT.2.1
  · rw [(serial_cb_frame _ env.rx).1]
  · rw [(serial_cb_frame _ env.rx).2.2.2.2.2.2.2.2.2.2.2.1]
    simp only [hT.1]
  · rw [(serial_cb_frame _ env.rx).2.2.2.2.2.2.2.2.2.2.1]
    simp only [hT.2.2]

/-! ## `LOAD`: reduction of the well-formed line -/

theorem str_load_line (id : List Nat) (n v : Nat) :
    str "LOAD module_id=" ++ id ++ str " size=" ++ utoa n ++ str " crc32=" ++ hex8 v =
      str "LOAD" ++ 32 :: load_line id n v := by
  have : str "LOAD module_id=" = str "LOAD" ++ 32 :: str "module_id=" := by decide
  simp only [load_line, this, List.append_assoc, List.cons_append]

theorem value_char_of_id (id : List Nat)
    (hid : ∀ c ∈ id, c ≠ 0 ∧ c ≠ 32 ∧ c ≠ 13 ∧ c ≠ 10 ∧ c ≠ 61) :
    (∀ x ∈ id, value_char x = true) ∧ 61 ∉ id := by
  constructor
  · intro x hx
    have := hid x hx
    simp [value_char, this.1, this.2.1, this.2.2.1, this.2.2.2.1]
  · intro h
    exact (hid 61 h).2.2.2.2 rfl

/-- Handling a well-formed `LOAD` line whose payload arrives in full comes down to the
tail of the handler run on the state left by the wait. -/
theorem handle_load_line (sb : Sandbox) (s : State) (id B : List Nat)
    (hid : ∀ c ∈ id, c ≠ 0 ∧ c ≠ 32 ∧ c ≠ 13 ∧ c ≠ 10 ∧ c ≠ 61)
    (hB : ∀ x ∈ B, x < 256) (h1 : 1 ≤ B.length) (h2 : B.length < 2 ^ 31) :
    handle_command_line sb ⟨true, B⟩ (str "LOAD module_id=" ++ id ++ str " size=" ++
        utoa B.length ++ str " crc32=" ++ hex8 (crc32_calc B)) s =
      load_install sb (load_line id B.length (crc32_calc B)) (crc32_calc B)
        (load_waited (load_teardown s) (hex8 (crc32_calc B)) B.length B B.length
          rx_state_t.RX_STATE_LINE) := by
  have hv := value_char_of_id id hid
  have hne : B ≠ [] := by
    intro h
    rw [h] at h1
    simp at h1
  rw [str_load_line]
  unfold handle_command_line
  rw [split_command_load_line]
  simp only [if_true]
  unfold handle_load_cmd
  rw [find_size_load_line id _ _ hv.2, find_crc32_load_line id _ _ hv.2]
  simp only [param_value_size _ _ (show B.length < 2 ^ 32 by omega), param_value_hex8,
    atoi_utoa _ h2, strtoul16_hex8 _ (crc32_calc_lt B hB)]
  rw [if_neg (by omega)]
  exact load_receive_full sb _ _ B _ s hne

theorem load_install_waited (sb : Sandbox) (s1 : State) (id B : List Nat) (v : Nat)
    (hid : ∀ x ∈ id, value_char x = true) :
    load_install sb (load_line id B.length v) (crc32_calc B)
        (load_waited s1 (hex8 v) B.length B B.length rx_state_t.RX_STATE_LINE) =
      let W := load_waited s1 (hex8 v) B.length B B.length rx_state_t.RX_STATE_LINE
      let m := sb.wasm_runtime_load B
      let i := sb.wasm_runtime_instantiate m.1
      if m.1 = NULL then
        { W with
          g_wasm_module := m.1
          g_wasm_buf := NULL
          heap := s1.heap ++ [none]
          trace := W.trace ++ [Event.wasm_runtime_load B, Event.free (s1.heap.length + 1)]
          uart_tx := W.uart_tx ++ [snprintf 160 (str "LOAD_ERR code=LOAD_FAIL msg=\"" ++
            m.2.take 127 ++ str "\"\n")] }
      else if i.1 = NULL then
        { W with
          g_wasm_module := NULL
          g_wasm_inst := i.1
          g_wasm_buf := NULL
          heap := s1.heap ++ [none]
          trace := W.trace ++ [Event.wasm_runtime_load B, Event.wasm_runtime_instantiate m.1,
            Event.wasm_runtime_unload m.1, Event.free (s1.heap.length + 1)]
          uart_tx := W.uart_tx ++ [snprintf 160 (str "LOAD_ERR code=INSTANTIATE_FAIL msg=\"" ++
            i.2.take 127 ++ str "\"\n")] }
      else
        { W with
          g_wasm_module := m.1
          g_wasm_inst := i.1
          g_current_module_id := id.take 31
          g_module_loaded := true
          trace := W.trace ++ [Event.wasm_runtime_load B, Event.wasm_runtime_instantiate m.1]
          uart_tx := W.uart_tx ++ [str "LOAD_OK\n"] } := by
  unfold load_install
  have hW : heap_read (load_waited s1 (hex8 v) B.length B B.length
      rx_state_t.RX_STATE_LINE).heap (load_waited s1 (hex8 v) B.length B B.length
      rx_state_t.RX_STATE_LINE).g_wasm_buf = B := by
    simp [load_waited, heap_read_last]
  have hS : (load_waited s1 (hex8 v) B.length B B.length
      rx_state_t.RX_STATE_LINE).g_wasm_size = B.length := rfl
  simp only [hW, hS, List.take_length, ne_eq, not_true_eq_false, if_false]
  by_cases hm : (sb.wasm_runtime_load B).1 = NULL
  · simp [hm, agent_write_str, free, load_waited, NULL, heap_free_last]
  · by_cases hi : (sb.wasm_runtime_instantiate (sb.wasm_runtime_load B).1).1 = NULL
    · simp [hm, hi, agent_write_str, free, load_waited, NULL, heap_free_last]
    · simp only [hm, hi, if_false, find_module_id_load_line]
      simp only [List.append_assoc]
      rw [← List.append_assoc id, param_value_module_id id _ hid]
      simp [agent_write_str, load_waited, strncpy, List.take_take]

/-! ## Handler reductions shared by the claims -/

theorem handle_status_line (sb : Sandbox) (env : LoadEnv) (t : State) :
    handle_command_line sb env (str "STATUS") t = handle_status_cmd [] t := by
  have h : split_command (str "STATUS") = some (str "STATUS", []) := by decide
  have h1 : str "STATUS" ≠ str "LOAD" := by decide
  have h2 : str "STATUS" ≠ str "START" := by decide
  have h3 : str "STATUS" ≠ str "STOP" := by decide
  unfold handle_command_line
  rw [h]
  simp only [h1, h2, h3, if_false, if_true]

theorem load_line_accepted (sb : Sandbox) (s : State) (id B : List Nat)
    (hid : ∀ c ∈ id, c ≠ 0 ∧ c ≠ 32 ∧ c ≠ 13 ∧ c ≠ 10 ∧ c ≠ 61)
    (hB : ∀ x ∈ B, x < 256) (h1 : 1 ≤ B.length) (h2 : B.length < 2 ^ 31)
    (hm : (sb.wasm_runtime_load B).1 ≠ NULL)
    (hi : (sb.wasm_runtime_instantiate (sb.wasm_runtime_load B).1).1 ≠ NULL) :
    (handle_command_line sb ⟨true, B⟩ (str "LOAD module_id=" ++ id ++ str " size=" ++
        utoa B.length ++ str " crc32=" ++ hex8 (crc32_calc B)) s).uart_tx.getLast? =
      some (str "LOAD_OK\n") ∧
    (handle_command_line sb ⟨true, B⟩ (str "LOAD module_id=" ++ id ++ str " size=" ++
        utoa B.length ++ str " crc32=" ++ hex8 (crc32_calc B)) s).g_module_loaded = true ∧
    heap_read (handle_command_line sb ⟨true, B⟩ (str "LOAD module_id=" ++ id ++ str " size=" ++
        utoa B.length ++ str " crc32=" ++ hex8 (crc32_calc B)) s).heap
      (handle_command_line sb ⟨true, B⟩ (str "LOAD module_id=" ++ id ++ str " size=" ++
        utoa B.length ++ str " crc32=" ++ hex8 (crc32_calc B)) s).g_wasm_buf = B := by
  rw [handle_load_line sb s id B hid hB h1 h2,
    load_install_waited sb _ id B _ (value_char_of_id id hid).1]
  simp only [hm, hi, if_false]
  simp [load_waited, heap_read_last]

theorem handle_load_timeout (sb : Sandbox) (s : State) (line rx p_size p_crc : List Nat) (n : Nat)
    (hsize : find_param line (str "size") = some p_size)
    (hn : to_u32 (atoi (param_value p_size 16)) = n) (hn0 : n ≠ 0)
    (hcrc : find_param line (str "crc32") = some p_crc) (hrx : rx.length < n) :
    handle_load_cmd sb ⟨true, rx⟩ line s =
      { load_waited (load_teardown s) (param_value p_crc 16) n
          (rx ++ List.replicate (n - rx.length) 0) rx.length rx_state_t.RX_STATE_LINE with
        heap := (load_teardown s).heap ++ [none]
        g_wasm_buf := NULL
        trace := (load_teardown s).trace ++
          [Event.malloc n ((load_teardown s).heap.length + 1),
           Event.free ((load_teardown s).heap.length + 1)]
        uart_tx := (load_teardown s).uart_tx ++
          [snprintf 160 (str "LOAD_READY size=" ++ utoa n ++ str " crc32=" ++
             param_value p_crc 16 ++ str "\n"),
           str "LOAD_ERR code=TIMEOUT msg=\"binary payload not received\"\n"] } := by
  unfold handle_load_cmd
  simp only [hsize, hcrc, hn]
  rw [if_neg hn0]
  exact load_receive_timeout sb line _ rx n _ s hrx

theorem param_value_length (start : List Nat) (n : Nat) (hn : 0 < n) :
    (param_value start n).length ≤ n - 1 := by
  rw [param_value_eq start n hn]
  simp

theorem snprintf_no_func (name : List Nat) (h : name.length ≤ 63) :
    snprintf 96 (str "RESULT status=NO_FUNC name=" ++ name ++ str "\n") =
      str "RESULT status=NO_FUNC name=" ++ name ++ str "\n" := by
  unfold snprintf
  apply List.take_of_length_le
  have h1 : (str "RESULT status=NO_FUNC name=").length = 27 := by decide
  have h2 : (str "\n").length = 1 := by decide
  simp only [List.length_append, h1, h2]
  omega

theorem start_args_loop_length (fuel : Nat) (tok : Option (List Nat × List Nat))
    (argv : List Nat) (h : argv.length ≤ MAX_CALL_ARGS) :
    (start_args_loop fuel tok argv).length ≤ MAX_CALL_ARGS := by
  induction fuel generalizing tok argv with
  | zero => exact h
  | succ fuel ih =>
    unfold start_args_loop
    cases tok with
    | none => exact h
    | some ts =>
      obtain ⟨t, saved⟩ := ts
      simp only []
      split
      · rename_i hlt
        apply ih
        split
        · simp only [List.length_append, List.length_singleton]
          omega
        · exact h
      · exact h

theorem start_parse_args_length (line : List Nat) :
    (start_parse_args line).length ≤ MAX_CALL_ARGS := by
  unfold start_parse_args
  split
  · simp
  · exact start_args_loop_length _ _ [] (by simp)

theorem start_request_argv (argv : List Nat) (h : argv.length ≤ MAX_CALL_ARGS) :
    (List.range MAX_CALL_ARGS).map (fun i => if i < argv.length then argv.getD i 0 else 0) =
      argv ++ List.replicate (MAX_CALL_ARGS - argv.length) 0 := by
  unfold MAX_CALL_ARGS at *
  match argv, h with
  | [], _ => rfl
  | [a], _ => rfl
  | [a, b], _ => rfl
  | [a, b, c], _ => rfl
  | [a, b, c, d], _ => rfl
  | _ :: _ :: _ :: _ :: _ :: _, h => simp at h

/-! ## RX interrupt: a block anywhere in the heap -/

theorem getD_at_length {α : Type} (h0 h1 : List α) (x d : α) :
    (h0 ++ x :: h1).getD h0.length d = x := by
  induction h0 with
  | nil => rfl
  | cons a t ih => simpa using ih

theorem set_at_length_mid {α : Type} (h0 h1 : List α) (x y : α) :
    (h0 ++ x :: h1).set h0.length y = h0 ++ y :: h1 := by
  induction h0 with
  | nil => rfl
  | cons a t ih => simp [ih]

theorem heap_write_at (h0 h1 : List (Option (List Nat))) (done rest : List Nat) (r c : Nat) :
    heap_write (h0 ++ some (done ++ r :: rest) :: h1) (h0.length + 1) done.length c =
      h0 ++ some (done ++ c :: rest) :: h1 := by
  unfold heap_write
  simp only [getD_at_length, set_at_length_mid]

theorem heap_read_at (h0 h1 : List (Option (List Nat))) (blk : List Nat) :
    heap_read (h0 ++ some blk :: h1) (h0.length + 1) = blk := by
  unfold heap_read
  simp only [getD_at_length]
  rfl

theorem serial_cb_binary_at (bytes : List Nat) :
    ∀ (done rest0 : List Nat) (h0 h1 : List (Option (List Nat))) (s : State),
    s.g_rx_state = rx_state_t.RX_STATE_BINARY → s.g_bin_buf = h0.length + 1 →
    s.heap = h0 ++ some (done ++ rest0) :: h1 → s.g_bin_received = done.length →
    s.g_bin_expected = done.length + rest0.length → bytes.length ≤ rest0.length →
    serial_cb s bytes =
      if bytes ≠ [] ∧ bytes.length = rest0.length then
        { s with heap := h0 ++ some (done ++ bytes) :: h1,
                 g_bin_received := done.length + bytes.length,
                 g_rx_state := rx_state_t.RX_STATE_LINE,
                 bin_sem := k_sem_give s.bin_sem }
      else
        { s with heap := h0 ++ some (done ++ bytes ++ rest0.drop bytes.length) :: h1,
                 g_bin_received := done.length + bytes.length } := by
  induction bytes with
  | nil =>
    intro done rest0 h0 h1 s hst hp hh hr he hlen
    cases s
    simp_all [serial_cb]
  | cons c t ih =>
    intro done rest0 h0 h1 s hst hp hh hr he hlen
    cases rest0 with
    | nil => simp at hlen
    | cons r rest =>
      simp only [serial_cb, List.foldl_cons]
      have hstep : serial_cb_byte s c =
          if rest = [] then
            { s with heap := h0 ++ some (done ++ [c]) :: h1,
                     g_bin_received := done.length + 1,
                     g_rx_state := rx_state_t.RX_STATE_LINE,
                     bin_sem := k_sem_give s.bin_sem }
          else
            { s with heap := h0 ++ some ((done ++ [c]) ++ rest) :: h1,
                     g_bin_received := done.length + 1 } := by
        unfold serial_cb_byte
        simp only [hst, hp, hh, hr, he, heap_write_at, NULL]
        cases rest with
        | nil => simp
        | cons x xs => simp
      by_cases hrest : rest = []
      · subst hrest
        have ht : t = [] := by
          simp only [List.length_cons, List.length_nil] at hlen
          exact List.length_eq_zero.mp (by omega)
        subst ht
        rw [hstep]
        simp
      · rw [hstep, if_neg hrest]
        have := ih (done ++ [c]) rest h0 h1
          { s with heap := h0 ++ some ((done ++ [c]) ++ rest) :: h1,
                   g_bin_received := done.length + 1 }
          hst hp rfl (by simp) (by simp [he]; omega) (by simpa using hlen)
        simp only [serial_cb] at this
        rw [this]
        have hcond : (t ≠ [] ∧ t.length = rest.length) ↔
            (c :: t ≠ [] ∧ (c :: t).length = (r :: rest).length) := by
          constructor
          · intro h; exact ⟨by simp, by simp [h.2]⟩
          · intro h
            have hl : t.length = rest.length := by simpa using h.2
            refine ⟨?_, hl⟩
            intro ht
            subst ht
            exact hrest (List.length_eq_zero.mp (by simpa using hl.symm))
        by_cases hc : t ≠ [] ∧ t.length = rest.length
        · rw [if_pos hc, if_pos (hcond.mp hc)]
          simp [Nat.add_assoc, Nat.add_comm 1]
        · rw [if_neg hc, if_neg (fun h => hc (hcond.mpr h))]
          simp [Nat.add_assoc, Nat.add_comm 1]

/-! ## RX interrupt: LINE state -/

theorem serial_cb_byte_line_frame (s : State) (c : Nat)
    (h : s.g_rx_state = rx_state_t.RX_STATE_LINE) : line_frame s (serial_cb_byte s c) := by
  unfold serial_cb_byte line_frame
  rw [h]
  simp only []
  split
  · simp [h]
  · split <;> simp [h]

theorem serial_cb_line_frame (s : State) (bytes : List Nat)
    (h : s.g_rx_state = rx_state_t.RX_STATE_LINE) : line_frame s (serial_cb s bytes) := by
  induction bytes generalizing s with
  | nil => simp [serial_cb, line_frame, h]
  | cons c t ih =>
    have h1 := serial_cb_byte_line_frame s c h
    have h2 := ih (serial_cb_byte s c) h1.1
    simp only [serial_cb, List.foldl_cons] at h2 ⊢
    unfold line_frame at h1 h2 ⊢
    simp only [h2, h1, and_self]

theorem serial_cb_byte_line_sim (s t : State) (c : Nat)
    (hs : s.g_rx_state = rx_state_t.RX_STATE_LINE) (ht : t.g_rx_state = rx_state_t.RX_STATE_LINE)
    (h1 : s.rx_buf = t.rx_buf) (h2 : s.rx_buf_pos = t.rx_buf_pos)
    (h3 : s.uart_msgq = t.uart_msgq) :
    (serial_cb_byte s c).rx_buf = (serial_cb_byte t c).rx_buf ∧
    (serial_cb_byte s c).rx_buf_pos = (serial_cb_byte t c).rx_buf_pos ∧
    (serial_cb_byte s c).uart_msgq = (serial_cb_byte t c).uart_msgq := by
  unfold serial_cb_byte
  rw [hs, ht]
  simp only [h1, h2, h3]
  split
  · simp
  · split <;> simp [h1, h2, h3]

theorem serial_cb_line_sim (bytes : List Nat) (s t : State)
    (hs : s.g_rx_state = rx_state_t.RX_STATE_LINE) (ht : t.g_rx_state = rx_state_t.RX_STATE_LINE)
    (h1 : s.rx_buf = t.rx_buf) (h2 : s.rx_buf_pos = t.rx_buf_pos)
    (h3 : s.uart_msgq = t.uart_msgq) :
    (serial_cb s bytes).rx_buf = (serial_cb t bytes).rx_buf ∧
    (serial_cb s bytes).rx_buf_pos = (serial_cb t bytes).rx_buf_pos ∧
    (serial_cb s bytes).uart_msgq = (serial_cb t bytes).uart_msgq := by
  induction bytes generalizing s t with
  | nil => exact ⟨h1, h2, h3⟩
  | cons c rest ih =>
    have hsim := serial_cb_byte_line_sim s t c hs ht h1 h2 h3
    have := ih (serial_cb_byte s c) (serial_cb_byte t c)
      (serial_cb_byte_line_frame s c hs).1 (serial_cb_byte_line_frame t c ht).1
      hsim.1 hsim.2.1 hsim.2.2
    simpa [serial_cb] using this

theorem serial_cb_append (s : State) (a b : List Nat) :
    serial_cb s (a ++ b) = serial_cb (serial_cb s a) b := by
  simp [serial_cb, List.foldl_append]

theorem serial_cb_line_accumulate (bytes : List Nat) :
    ∀ (acc post : List Nat) (s : State), s.g_rx_state = rx_state_t.RX_STATE_LINE →
    s.rx_buf = acc ++ post → s.rx_buf_pos = acc.length → acc.length + post.length = 256 →
    post ≠ [] → (∀ b ∈ bytes, b ≠ 10 ∧ b ≠ 13) →
    serial_cb s bytes =
      { s with rx_buf := acc ++ bytes.take (255 - acc.length) ++
                 post.drop (min bytes.length (255 - acc.length)),
               rx_buf_pos := min (acc.length + bytes.length) 255 } := by
  induction bytes with
  | nil =>
    intro acc post s hst hb hp hlen hpost _
    have : acc.length ≤ 255 := by
      have := List.length_pos.mpr hpost
      omega
    cases s
    simp_all [serial_cb]
  | cons c t ih =>
    intro acc post s hst hb hp hlen hpost hbytes
    have hpl := List.length_pos.mpr hpost
    have hc := hbytes c (List.mem_cons_self _ _)
    have ht : ∀ b ∈ t, b ≠ 10 ∧ b ≠ 13 := fun b hb => hbytes b (List.mem_cons_of_mem _ hb)
    simp only [serial_cb, List.foldl_cons]
    by_cases hfull : acc.length < 255
    · have hstep : serial_cb_byte s c =
          { s with rx_buf := (acc ++ [c]) ++ post.tail, rx_buf_pos := acc.length + 1 } := by
        unfold serial_cb_byte
        rw [hst]
        simp only [hc.1, hc.2, or_self, false_and, if_false, hp, LINE_BUF_SIZE, hfull, if_true, hb,
          set_at_length acc post hpost, Nat.reduceSub]
        simp
      have hpt : post.tail ≠ [] := by
        intro h
        have : post.tail.length = post.length - 1 := by simp
        rw [h] at this
        simp at this
        omega
      have := ih (acc ++ [c]) post.tail
        { s with rx_buf := (acc ++ [c]) ++ post.tail, rx_buf_pos := acc.length + 1 }
        hst rfl (by simp) (by simp; omega) hpt ht
      simp only [serial_cb] at this
      rw [hstep, this]
      have e1 : 255 - acc.length = (255 - (acc ++ [c]).length) + 1 := by simp; omega
      have e2 : min (c :: t).length (255 - acc.length) =
          min t.length (255 - (acc ++ [c]).length) + 1 := by
        simp only [List.length_cons, List.length_append, List.length_nil]
        omega
      have e3 : min ((acc ++ [c]).length + t.length) 255 = min (acc.length + (c :: t).length) 255 := by
        simp only [List.length_cons, List.length_append, List.length_nil]
        omega
      rw [e2, e3, e1, List.take_succ_cons]
      have e4 : post.drop (min t.length (255 - (acc ++ [c]).length) + 1) =
          post.tail.drop (min t.length (255 - (acc ++ [c]).length)) := by
        cases post with
        | nil => exact absurd rfl hpost
        | cons x xs => simp
      rw [e4]
      simp
    · have hstep : serial_cb_byte s c = s := by
        unfold serial_cb_byte
        rw [hst]
        simp only [hc.1, hc.2, or_self, false_and, if_false, hp, LINE_BUF_SIZE, hfull,
          Nat.reduceSub]
      have := ih acc post s hst hb hp hlen hpost ht
      simp only [serial_cb] at this
      rw [hstep, this]
      have e0 : 255 - acc.length = 0 := by omega
      have e3 : min (acc.length + t.length) 255 = min (acc.length + (c :: t).length) 255 := by
        simp only [List.length_cons]
        omega
      rw [e0, e3]
      simp

/-! ## The line queue never exceeds its capacity -/

theorem k_msgq_put_length (q : List (List Nat)) (msg : List Nat)
    (h : q.length ≤ MSGQ_MAX_MSGS) : (k_msgq_put q msg).length ≤ MSGQ_MAX_MSGS := by
  unfold k_msgq_put
  split
  · simp only [List.length_append, List.length_singleton]
    omega
  · exact h

theorem serial_cb_byte_msgq_bound (s : State) (c : Nat)
    (h : s.uart_msgq.length ≤ MSGQ_MAX_MSGS) :
    (serial_cb_byte s c).uart_msgq.length ≤ MSGQ_MAX_MSGS := by
  unfold serial_cb_byte
  split
  · split
    · exact k_msgq_put_length _ _ h
    · split <;> exact h
  · split
    · simp only []
      split <;> exact h
    · exact h

theorem serial_cb_msgq_bound (s : State) (bytes : List Nat)
    (h : s.uart_msgq.length ≤ MSGQ_MAX_MSGS) :
    (serial_cb s bytes).uart_msgq.length ≤ MSGQ_MAX_MSGS := by
  induction bytes generalizing s with
  | nil => exact h
  | cons c t ih => exact ih (serial_cb_byte s c) (serial_cb_byte_msgq_bound s c h)

theorem free_msgq (p : Nat) (s : State) : (free p s).uart_msgq = s.uart_msgq := rfl

theorem load_teardown_msgq (s : State) : (load_teardown s).uart_msgq = s.uart_msgq := by
  unfold load_teardown
  split <;> rfl

theorem load_install_msgq (sb : Sandbox) (line : List Nat) (crc : Nat) (s : State) :
    (load_install sb line crc s).uart_msgq = s.uart_msgq := by
  unfold load_install
  simp only []
  split
  · rfl
  · split
    · rfl
    · split
      · rfl
      · split <;> rfl

theorem load_after_wait_msgq (sb : Sandbox) (line : List Nat) (crc : Nat) (s : State) :
    (load_after_wait sb line crc s).uart_msgq = s.uart_msgq := by
  unfold load_after_wait
  split
  · rfl
  · rw [load_install_msgq]

theorem load_receive_msgq_bound (sb : Sandbox) (env : LoadEnv) (line crc_str : List Nat)
    (size crc : Nat) (s : State) (h : s.uart_msgq.length ≤ MSGQ_MAX_MSGS) :
    (load_receive sb env line crc_str size crc s).uart_msgq.length ≤ MSGQ_MAX_MSGS := by
  unfold load_receive
  simp only []
  split
  · simp only [agent_write_str, malloc]
    split <;> simpa [load_teardown_msgq] using h
  · rw [load_after_wait_msgq]
    apply serial_cb_msgq_bound
    simp only [agent_write_str, malloc]
    split <;> simpa [load_teardown_msgq] using h

theorem handle_load_cmd_msgq_bound (sb : Sandbox) (env : LoadEnv) (line : List Nat)
    (s : State) (h : s.uart_msgq.length ≤ MSGQ_MAX_MSGS) :
    (handle_load_cmd sb env line s).uart_msgq.length ≤ MSGQ_MAX_MSGS := by
  unfold handle_load_cmd
  split
  · exact h
  · exact h
  · simp only []
    split
    · exact h
    · exact load_receive_msgq_bound _ _ _ _ _ _ _ h

theorem handle_start_cmd_msgq (sb : Sandbox) (line : List Nat) (s : State) :
    (handle_start_cmd sb line s).uart_msgq = s.uart_msgq := by
  unfold handle_start_cmd
  split
  · rfl
  · split
    · rfl
    · split
      · rfl
      · split
        · rfl
        · split
          · rfl
          · simp only []
            split <;> rfl

theorem handle_stop_cmd_msgq (line : List Nat) (s : State) :
    (handle_stop_cmd line s).uart_msgq = s.uart_msgq := by
  unfold handle_stop_cmd
  split
  · rfl
  · split
    · rfl
    · split <;> rfl

theorem handle_status_cmd_msgq (line : List Nat) (s : State) :
    (handle_status_cmd line s).uart_msgq = s.uart_msgq := by
  unfold handle_status_cmd
  split <;> rfl

theorem handle_command_line_msgq_bound (sb : Sandbox) (env : LoadEnv) (line : List Nat)
    (s : State) (h : s.uart_msgq.length ≤ MSGQ_MAX_MSGS) :
    (handle_command_line sb env line s).uart_msgq.length ≤ MSGQ_MAX_MSGS := by
  unfold handle_command_line
  split
  · exact h
  · split
    · exact handle_load_cmd_msgq_bound _ _ _ _ h
    · split
      · rw [handle_start_cmd_msgq]
        exact h
      · split
        · rw [handle_stop_cmd_msgq]
          exact h
        · split
          · rw [handle_status_cmd_msgq]
            exact h
          · exact h

theorem agent_read_line_msgq_bound (max_len : Nat) (s s1 : State) (n : Int) (l : List Nat)
    (hr : agent_read_line max_len s = some (n, l, s1))
    (h : s.uart_msgq.length ≤ MSGQ_MAX_MSGS) : s1.uart_msgq.length ≤ MSGQ_MAX_MSGS := by
  unfold agent_read_line at hr
  split at hr
  · simp only [Option.some.injEq, Prod.mk.injEq] at hr
    rw [← hr.2.2]
    exact h
  · cases hq : s.uart_msgq with
    | nil => simp [k_msgq_get, hq] at hr
    | cons msg rest =>
      simp only [k_msgq_get, hq, Option.some.injEq, Prod.mk.injEq] at hr
      rw [← hr.2.2]
      rw [hq] at h
      simp only [List.length_cons] at h ⊢
      omega

theorem comm_thread_step_msgq_bound (sb : Sandbox) (env : LoadEnv) (s : State)
    (h : s.uart_msgq.length ≤ MSGQ_MAX_MSGS) :
    (comm_thread_step sb env s).uart_msgq.length ≤ MSGQ_MAX_MSGS := by
  unfold comm_thread_step
  cases hr : agent_read_line LINE_BUF_SIZE s with
  | none => exact h
  | some r =>
    obtain ⟨n, l, s1⟩ := r
    have h1 := agent_read_line_msgq_bound _ _ _ _ _ hr h
    simp only []
    split
    · exact h1
    · exact handle_command_line_msgq_bound _ _ _ _ h1

theorem runner_job_begin_msgq (sb : Sandbox) (s : State) :
    (runner_job_begin sb s).1.uart_msgq = s.uart_msgq := by
  unfold runner_job_begin
  simp only []
  split
  · rfl
  · split
    · rfl
    · split <;> rfl

theorem runner_job_end_msgq (job : Job) (run : GuestRun) (s : State) :
    (runner_job_end job run s).uart_msgq = s.uart_msgq := rfl

theorem runner_iteration_msgq (sb : Sandbox) (run : GuestRun) (s : State) :
    (runner_iteration sb run s).uart_msgq = s.uart_msgq := by
  unfold runner_iteration
  have h := runner_job_begin_msgq sb s
  cases hb : runner_job_begin sb s with
  | mk s1 oj =>
    rw [hb] at h
    cases oj with
    | none => exact h
    | some job =>
      simp only [runner_job_end_msgq]
      exact h

theorem running_msgq_bound (sb : Sandbox) (s : State) (h : Running sb s) :
    s.uart_msgq.length ≤ MSGQ_MAX_MSGS := by
  induction h with
  | init => decide
  | rx fifo _ ih => exact serial_cb_msgq_bound _ _ ih
  | comm env _ ih => exact comm_thread_step_msgq_bound _ _ _ ih
  | runner run _ _ ih =>
    rw [runner_iteration_msgq]
    exact ih

/-! ## `START`: the argument list -/

theorem parse_digits_utoa (n : Nat) : parse_digits 10 (utoa n) 0 = n := by
  have := parse_digits_utoa_aux (n + 1) n [] [] (Nat.lt_succ_self n)
  simpa [utoa, parse_digits] using this

theorem utoa_ne_nil (n : Nat) (h : n < 2 ^ 32) : utoa n ≠ [] := by
  intro hu
  have := (utoa_length n h).1
  rw [hu] at this
  simp at this

theorem itoa_chars (v : Int) : ∀ x ∈ itoa v, x = 45 ∨ (48 ≤ x ∧ x ≤ 57) := by
  intro x hx
  unfold itoa at hx
  split at hx
  · rcases List.mem_cons.mp hx with h | h
    · exact Or.inl h
    · exact Or.inr (utoa_digits _ x h)
  · exact Or.inr (utoa_digits _ x hx)

theorem atoi_itoa (v : Int) (h1 : -(2 ^ 31 : Int) ≤ v) (h2 : v < 2 ^ 31) : atoi (itoa v) = v := by
  have hd := utoa_digits v.natAbs
  have hne := utoa_ne_nil v.natAbs (by omega)
  have hp := parse_digits_utoa v.natAbs
  unfold itoa
  split
  · rename_i hneg
    have hs : (45 :: utoa v.natAbs).dropWhile isspace = 45 :: utoa v.natAbs := by
      rw [List.dropWhile_cons_of_neg (by decide)]
    unfold atoi
    rw [hs]
    simp only [take_sign, hp]
    have hle : ¬ v.natAbs > 2 ^ 31 := by omega
    simp only [hle, if_true, if_false]
    omega
  · rename_i hpos
    cases hu : utoa v.natAbs with
    | nil => exact absurd hu hne
    | cons c t =>
      have hc : 48 ≤ c ∧ c ≤ 57 := hd c (by rw [hu]; simp)
      have hsp : isspace c = false := by
        simp only [isspace, Bool.or_eq_false_iff, beq_eq_false_iff_ne, ne_eq,
          Bool.and_eq_false_imp, decide_eq_true_eq, decide_eq_false_iff_not, not_le]
        omega
      have hs : (c :: t).dropWhile isspace = c :: t := by
        rw [List.dropWhile_cons_of_neg (by simp [hsp])]
      unfold atoi
      rw [hs, take_sign_other c t (by omega) (by omega), ← hu]
      simp only [hp]
      have hle : ¬ v.natAbs > 2 ^ 31 - 1 := by omega
      simp only [hle, if_false, Bool.false_eq_true]
      omega

theorem to_u32_twos_complement (v : Int) (h1 : -(2 ^ 31 : Int) ≤ v) (h2 : v < 2 ^ 31) :
    (to_u32 v : Int) = if v < 0 then v + 2 ^ 32 else v := by
  unfold to_u32
  have hnn : 0 ≤ v % (2 ^ 32 : Int) := Int.emod_nonneg _ (by norm_num)
  rw [Int.toNat_of_nonneg hnn]
  split
  · rw [← Int.add_emod_self, Int.emod_eq_of_lt (by omega) (by omega)]
  · exact Int.emod_eq_of_lt (by omega) (by omega)

theorem arg_text_chars (a : List Nat × Int) (d : Nat) (hd : d = 44 ∨ d = 34)
    (hname : ∀ c ∈ a.1, c ≠ d) : ∀ c ∈ arg_text a, c ≠ d := by
  intro c hc
  unfold arg_text at hc
  rcases List.mem_append.mp hc with h | h
  · exact hname c h
  · rcases List.mem_cons.mp h with h | h
    · omega
    · have := itoa_chars a.2 c h
      omega

theorem comma_join_cons (t : List Nat) (ts : List (List Nat)) :
    comma_join (t :: ts) = if ts = [] then t else t ++ 44 :: comma_join ts := by
  cases ts with
  | nil => simp [comma_join]
  | cons u r => simp [comma_join]

theorem comma_join_chars (ts : List (List Nat)) (h : ∀ t ∈ ts, ∀ c ∈ t, c ≠ 34) :
    ∀ c ∈ comma_join ts, c ≠ 34 := by
  induction ts with
  | nil => simp [comma_join]
  | cons t r ih =>
    intro c hc
    rw [comma_join_cons] at hc
    split at hc
    · exact h t (by simp) c hc
    · rcases List.mem_append.mp hc with h1 | h1
      · exact h t (by simp) c h1
      · rcases List.mem_cons.mp h1 with h2 | h2
        · omega
        · exact ih (fun t ht => h t (by simp [ht])) c h2

theorem comma_join_length (ts : List (List Nat)) (h : ∀ t ∈ ts, t ≠ []) :
    ts.length ≤ (comma_join ts).length := by
  induction ts with
  | nil => simp
  | cons t r ih =>
    have ht : 1 ≤ t.length := List.length_pos.mpr (h t (by simp))
    have := ih (fun t ht => h t (by simp [ht]))
    rw [comma_join_cons]
    split
    · rename_i hr
      rw [hr]
      simpa using ht
    · simp only [List.length_append, List.length_cons]
      omega

theorem arg_text_ne_nil (a : List Nat × Int) : arg_text a ≠ [] := by
  unfold arg_text
  simp

theorem strtok_whole (tok : List Nat) (c : Nat) (t : List Nat) (delims : List Nat)
    (htok : tok = c :: t) (hnd : ∀ x ∈ tok, x ∉ delims) :
    strtok tok delims = some (tok, []) := by
  have hv : ∀ x ∈ tok, (!(delims.contains x)) = true := by
    intro x hx
    simp [hnd x hx]
  have hc : c ∉ delims := hnd c (by rw [htok]; simp)
  unfold strtok
  have h1 : tok.dropWhile (fun c => delims.contains c) = tok := by
    rw [htok, List.dropWhile_cons_of_neg (by simp [hc])]
  rw [h1]
  have h2 : tok.takeWhile (fun c => !(delims.contains c)) = tok :=
    List.takeWhile_eq_self_iff.mpr hv
  have h3 : tok.dropWhile (fun c => !(delims.contains c)) = [] :=
    List.dropWhile_eq_nil_iff.mpr hv
  rw [htok] at h2 h3 ⊢
  simp only [h2, h3, List.drop_nil]

theorem strtok_comma_join (a : List Nat × Int) (rest : List (List Nat × Int))
    (hname : ∀ c ∈ a.1, c ≠ 44) :
    strtok (comma_join ((a :: rest).map arg_text)) [44] =
      some (arg_text a, comma_join (rest.map arg_text)) := by
  have hch : ∀ x ∈ arg_text a, x ∉ [44] := by
    intro x hx
    simpa using arg_text_chars a 44 (Or.inl rfl) hname x hx
  obtain ⟨c, t, hct⟩ := List.exists_cons_of_ne_nil (arg_text_ne_nil a)
  rw [List.map_cons, comma_join_cons]
  split
  · rename_i hr
    rw [hr, strtok_whole _ c t _ hct hch]
    rfl
  · exact strtok_token [44] _ _ c 44 t hct hch (by simp)

theorem strchr_arg_text (a : List Nat × Int) (hname : ∀ c ∈ a.1, c ≠ 61) :
    strchr (arg_text a) 61 = some (61 :: itoa a.2) := by
  unfold strchr arg_text
  have : (a.1 ++ 61 :: itoa a.2).dropWhile (fun x => x != 61) = 61 :: itoa a.2 := by
    rw [List.dropWhile_append_of_pos (by simpa using hname),
      List.dropWhile_cons_of_neg (by simp)]
  rw [this]

theorem start_args_loop_tokens (toks : List (List Nat × Int)) :
    ∀ (fuel : Nat) (argv : List Nat), toks.length ≤ fuel → argv.length ≤ MAX_CALL_ARGS →
    (∀ a ∈ toks, ∀ c ∈ a.1, c ≠ 44 ∧ c ≠ 61) →
    (∀ a ∈ toks, -(2 ^ 31 : Int) ≤ a.2 ∧ a.2 < 2 ^ 31) →
    start_args_loop fuel (strtok (comma_join (toks.map arg_text)) [44]) argv =
      argv ++ (toks.take (MAX_CALL_ARGS - argv.length)).map (fun a => to_u32 a.2) := by
  induction toks with
  | nil =>
    intro fuel argv _ _ _ _
    have : strtok (comma_join (([] : List (List Nat × Int)).map arg_text)) [44] = none := rfl
    rw [this]
    cases fuel <;> simp [start_args_loop]
  | cons a rest ih =>
    intro fuel argv hf hargv hname hval
    cases fuel with
    | zero => simp at hf
    | succ fuel =>
      have ha := hname a (by simp)
      have hv := hval a (by simp)
      rw [strtok_comma_join a rest (fun c hc => (ha c hc).1)]
      unfold start_args_loop
      simp only [strchr_arg_text a (fun c hc => (ha c hc).2), List.drop_succ_cons, List.drop_zero,
        atoi_itoa a.2 hv.1 hv.2]
      split
      · rename_i hlt
        rw [ih fuel (argv ++ [to_u32 a.2]) (by simpa using hf)
          (by simp only [List.length_append, List.length_singleton]; omega)
          (fun b hb => hname b (by simp [hb])) (fun b hb => hval b (by simp [hb]))]
        have e : MAX_CALL_ARGS - argv.length =
            (MAX_CALL_ARGS - (argv ++ [to_u32 a.2]).length) + 1 := by
          simp only [List.length_append, List.length_singleton]
          omega
        rw [e, List.take_succ_cons]
        simp
      · rename_i hge
        have e : MAX_CALL_ARGS - argv.length = 0 := by omega
        rw [e]
        simp

theorem start_args_buf_quoted (line body rest : List Nat)
    (hfind : find_param line (str "args") = some (34 :: body ++ 34 :: rest))
    (hlen : body.length ≤ 63) (hq : ∀ c ∈ body, c ≠ 34) :
    start_args_buf line = some body := by
  unfold start_args_buf
  rw [hfind]
  simp only [List.cons_append]
  have h1 : strchr (body ++ 34 :: rest) 34 = some (34 :: rest) := by
    unfold strchr
    have : (body ++ 34 :: rest).dropWhile (fun x => x != 34) = 34 :: rest := by
      rw [List.dropWhile_append_of_pos (by simpa using hq),
        List.dropWhile_cons_of_neg (by simp)]
    rw [this]
  rw [h1]
  simp only [List.length_append, List.length_cons, Nat.add_sub_cancel]
  have h2 : ¬ body.length ≥ 64 := by omega
  simp only [h2, if_false, List.take_left']

/-! ## Runner: the job taken by an iteration -/

theorem runner_job_begin_some (sb : Sandbox) (s0 s1 : State) (job : Job)
    (hb : runner_job_begin sb s0 = (s1, some job)) :
    job.req = s0.g_run_req ∧
    job.fn = sb.wasm_runtime_lookup_function s0.g_wasm_inst s0.g_run_req.func_name ∧
    job.result_count = sb.wasm_func_get_result_count job.fn s0.g_wasm_inst ∧
    job.exec_env = sb.wasm_runtime_create_exec_env s0.g_wasm_inst ∧
    job.fn ≠ NULL ∧ job.exec_env ≠ NULL ∧ s0.g_module_loaded = true ∧
    s1.uart_tx = s0.uart_tx := by
  unfold runner_job_begin at hb
  simp only [] at hb
  split at hb
  · simp at hb
  · rename_i hl
    split at hb
    · simp at hb
    · rename_i hfn
      split at hb
      · simp at hb
      · rename_i hee
        simp only [Prod.mk.injEq, Option.some.injEq] at hb
        obtain ⟨h1, h2⟩ := hb
        subst h1 h2
        simp at hl
        exact ⟨rfl, rfl, rfl, rfl, hfn, hee, hl, rfl⟩

theorem snprintf_fits (size : Nat) (text : List Nat) (h : text.length ≤ size - 1) :
    snprintf size text = text :=
  List.take_of_length_le h

/-! ## Runner: flags and module slot -/

theorem runner_job_begin_slot (sb : Sandbox) (s : State) :
    (runner_job_begin sb s).1.g_module_loaded = s.g_module_loaded ∧
    (runner_job_begin sb s).1.g_wasm_buf = s.g_wasm_buf ∧
    (runner_job_begin sb s).1.g_wasm_size = s.g_wasm_size ∧
    (runner_job_begin sb s).1.g_wasm_module = s.g_wasm_module ∧
    (runner_job_begin sb s).1.g_wasm_inst = s.g_wasm_inst ∧
    (runner_job_begin sb s).1.g_current_module_id = s.g_current_module_id ∧
    (runner_job_begin sb s).1.heap = s.heap ∧
    ((runner_job_begin sb s).2 = none →
      (runner_job_begin sb s).1.g_runner_busy = false ∧
      (runner_job_begin sb s).1.g_stop_requested = false) := by
  unfold runner_job_begin
  simp only []
  split
  · simp [runner_reset]
  · split
    · simp [runner_reset, agent_write_str]
    · split
      · simp [runner_reset, agent_write_str]
      · simp

/-! ## RX interrupt: the binary state -/

theorem heap_read_write_length (heap : List (Option (List Nat))) (p i c : Nat) :
    (heap_read (heap_write heap p i c) p).length = (heap_read heap p).length := by
  cases p with
  | zero => rfl
  | succ k =>
    unfold heap_write heap_read
    simp only []
    cases hk : heap.getD k none with
    | none => simp only [hk]
    | some blk =>
      simp only []
      by_cases hlt : k < heap.length
      · simp [List.getD_eq_getElem?_getD, List.getElem?_set, hlt]
      · have : heap.getD k none = none := by
          simp [List.getD_eq_getElem?_getD, List.getElem?_eq_none (Nat.le_of_not_lt hlt)]
        rw [this] at hk
        simp at hk

theorem load_receive_setup (sb : Sandbox) (line crc_str rx : List Nat) (size crc : Nat)
    (s : State) :
    load_receive sb ⟨true, rx⟩ line crc_str size crc s =
      load_after_wait sb line crc
        (serial_cb (load_waited (load_teardown s) crc_str size (List.replicate size 0) 0
          rx_state_t.RX_STATE_BINARY) rx) := by
  unfold load_receive
  simp only [malloc, if_true, NULL, Nat.add_one_ne_zero, if_false, agent_write_str, load_waited]

theorem load_install_rx_state (sb : Sandbox) (line : List Nat) (crc : Nat) (s : State) :
    (load_install sb line crc s).g_rx_state = s.g_rx_state := by
  unfold load_install
  simp only []
  split
  · rfl
  · split
    · rfl
    · split
      · rfl
      · split <;> rfl

theorem binary_inv_byte (s : State) (c : Nat) (h : binary_inv s) :
    binary_inv (serial_cb_byte s c) := by
  cases hst : s.g_rx_state with
  | RX_STATE_LINE =>
    intro hb
    rw [(serial_cb_byte_line_frame s c hst).1] at hb
    cases hb
  | RX_STATE_BINARY =>
    obtain ⟨h1, h2, h3, h4⟩ := h hst
    unfold serial_cb_byte binary_inv
    rw [hst]
    simp only [h1, h2, ne_eq, not_false_eq_true, and_self, if_true]
    split
    · intro hb
      cases hb
    · rename_i hne
      intro _
      simp only [heap_read_write_length]
      refine ⟨h1, ?_, h3, h4⟩
      omega

theorem binary_inv_after_wait (sb : Sandbox) (line : List Nat) (crc : Nat) (s : State)
    (h : binary_inv s) :
    (load_after_wait sb line crc s).g_rx_state = rx_state_t.RX_STATE_LINE := by
  unfold load_after_wait
  split
  · rfl
  · rename_i hsem
    rw [load_install_rx_state]
    cases hst : s.g_rx_state with
    | RX_STATE_LINE => rfl
    | RX_STATE_BINARY => exact absurd (h hst).2.2.2 hsem

theorem framer_reach_binary_inv (sb : Sandbox) (s : State) (h : FramerReach sb s) :
    binary_inv s := by
  induction h with
  | init =>
    intro hb
    cases hb
  | setup crc_str size _ hsize _ =>
    intro _
    refine ⟨?_, ?_, ?_, rfl⟩
    · simp [load_waited, NULL]
    · simp only [load_waited]
      omega
    · simp [load_waited, heap_read_last]
  | byte c _ ih => exact binary_inv_byte _ c ih
  | after_wait line crc _ ih =>
    intro hb
    rw [binary_inv_after_wait sb line crc _ ih] at hb
    cases hb

theorem framer_reach_serial_cb (sb : Sandbox) (bytes : List Nat) :
    ∀ s, FramerReach sb s → FramerReach sb (serial_cb s bytes) := by
  induction bytes with
  | nil => exact fun s h => h
  | cons c t ih => exact fun s h => ih _ (FramerReach.byte c h)

/-! ## The line accumulator and the queued messages -/

theorem line_inv_of_eq (s t : State) (h : line_inv s) (h1 : t.rx_buf = s.rx_buf)
    (h2 : t.rx_buf_pos = s.rx_buf_pos) (h3 : t.uart_msgq = s.uart_msgq) : line_inv t := by
  unfold line_inv at h ⊢
  rw [h1, h2, h3]
  exact h

theorem serial_cb_byte_line_inv (s : State) (c : Nat) (h : line_inv s) :
    line_inv (serial_cb_byte s c) := by
  obtain ⟨hpos, hlen, hq⟩ := h
  have hlen2 : s.rx_buf.length = 256 := hlen
  unfold serial_cb_byte
  split
  · split
    · rename_i hc
      refine ⟨Nat.zero_le _, by simpa using hlen, ?_⟩
      intro msg hm
      simp only [k_msgq_put] at hm
      split at hm
      · rcases List.mem_append.mp hm with h1 | h1
        · exact hq msg h1
        · simp only [List.mem_singleton] at h1
          subst h1
          refine ⟨by simpa using hlen, s.rx_buf_pos, hc.2, hpos, ?_⟩
          rw [List.getD_eq_getElem?_getD, List.getElem?_set_self (by omega)]
          rfl
      · exact hq msg hm
    · split
      · rename_i hlt
        simp only [LINE_BUF_SIZE] at hlt
        exact ⟨by simp only []; omega, by simpa using hlen, hq⟩
      · exact ⟨hpos, hlen, hq⟩
  · split
    · simp only []
      split <;> exact ⟨hpos, hlen, hq⟩
    · exact ⟨hpos, hlen, hq⟩

theorem serial_cb_line_inv (bytes : List Nat) :
    ∀ s, line_inv s → line_inv (serial_cb s bytes) := by
  induction bytes with
  | nil => exact fun s h => h
  | cons c t ih => exact fun s h => ih _ (serial_cb_byte_line_inv s c h)

theorem load_install_line (sb : Sandbox) (line : List Nat) (crc : Nat) (s : State) :
    (load_install sb line crc s).rx_buf = s.rx_buf ∧
    (load_install sb line crc s).rx_buf_pos = s.rx_buf_pos := by
  unfold load_install
  simp only []
  split
  · exact ⟨rfl, rfl⟩
  · split
    · exact ⟨rfl, rfl⟩
    · split
      · exact ⟨rfl, rfl⟩
      · split <;> exact ⟨rfl, rfl⟩

theorem load_after_wait_line (sb : Sandbox) (line : List Nat) (crc : Nat) (s : State) :
    (load_after_wait sb line crc s).rx_buf = s.rx_buf ∧
    (load_after_wait sb line crc s).rx_buf_pos = s.rx_buf_pos := by
  unfold load_after_wait
  split
  · exact ⟨rfl, rfl⟩
  · exact load_install_line _ _ _ _

theorem load_teardown_line (s : State) :
    (load_teardown s).rx_buf = s.rx_buf ∧ (load_teardown s).rx_buf_pos = s.rx_buf_pos := by
  unfold load_teardown
  split <;> exact ⟨rfl, rfl⟩

theorem load_receive_line_inv (sb : Sandbox) (env : LoadEnv) (line crc_str : List Nat)
    (size crc : Nat) (s : State) (h : line_inv s) :
    line_inv (load_receive sb env line crc_str size crc s) := by
  have hT : line_inv (load_teardown s) :=
    line_inv_of_eq s _ h (load_teardown_line s).1 (load_teardown_line s).2 (load_teardown_msgq s)
  unfold load_receive
  simp only []
  split
  · refine line_inv_of_eq _ _ hT ?_ ?_ ?_ <;>
      (simp only [agent_write_str, malloc]; split <;> rfl)
  · refine line_inv_of_eq _ _ (serial_cb_line_inv env.rx _ ?_) (load_after_wait_line _ _ _ _).1
      (load_after_wait_line _ _ _ _).2 (load_after_wait_msgq _ _ _ _)
    refine line_inv_of_eq _ _ hT ?_ ?_ ?_ <;>
      (simp only [agent_write_str, malloc]; split <;> rfl)

theorem handle_load_cmd_line_inv (sb : Sandbox) (env : LoadEnv) (line : List Nat)
    (s : State) (h : line_inv s) : line_inv (handle_load_cmd sb env line s) := by
  unfold handle_load_cmd
  split
  · exact h
  · exact h
  · simp only []
    split
    · exact h
    · exact load_receive_line_inv _ _ _ _ _ _ _ h

theorem handle_start_cmd_line (sb : Sandbox) (line : List Nat) (s : State) :
    (handle_start_cmd sb line s).rx_buf = s.rx_buf ∧
    (handle_start_cmd sb line s).rx_buf_pos = s.rx_buf_pos := by
  unfold handle_start_cmd
  split
  · exact ⟨rfl, rfl⟩
  · split
    · exact ⟨rfl, rfl⟩
    · split
      · exact ⟨rfl, rfl⟩
      · split
        · exact ⟨rfl, rfl⟩
        · split
          · exact ⟨rfl, rfl⟩
          · simp only []
            split <;> exact ⟨rfl, rfl⟩

theorem handle_stop_cmd_line (line : List Nat) (s : State) :
    (handle_stop_cmd line s).rx_buf = s.rx_buf ∧
    (handle_stop_cmd line s).rx_buf_pos = s.rx_buf_pos := by
  unfold handle_stop_cmd
  split
  · exact ⟨rfl, rfl⟩
  · split
    · exact ⟨rfl, rfl⟩
    · split <;> exact ⟨rfl, rfl⟩

theorem handle_status_cmd_line (line : List Nat) (s : State) :
    (handle_status_cmd line s).rx_buf = s.rx_buf ∧
    (handle_status_cmd line s).rx_buf_pos = s.rx_buf_pos := by
  unfold handle_status_cmd
  split <;> exact ⟨rfl, rfl⟩

theorem handle_command_line_line_inv (sb : Sandbox) (env : LoadEnv) (line : List Nat)
    (s : State) (h : line_inv s) : line_inv (handle_command_line sb env line s) := by
  unfold handle_command_line
  split
  · exact h
  · split
    · exact handle_load_cmd_line_inv _ _ _ _ h
    · split
      · exact line_inv_of_eq _ _ h (handle_start_cmd_line _ _ _).1 (handle_start_cmd_line _ _ _).2
          (handle_start_cmd_msgq _ _ _)
      · split
        · exact line_inv_of_eq _ _ h (handle_stop_cmd_line _ _).1 (handle_stop_cmd_line _ _).2
            (handle_stop_cmd_msgq _ _)
        · split
          · exact line_inv_of_eq _ _ h (handle_status_cmd_line _ _).1
              (handle_status_cmd_line _ _).2 (handle_status_cmd_msgq _ _)
          · exact h

theorem agent_read_line_line_inv (max_len : Nat) (s s1 : State) (n : Int) (l : List Nat)
    (hr : agent_read_line max_len s = some (n, l, s1)) (h : line_inv s) : line_inv s1 := by
  unfold agent_read_line at hr
  split at hr
  · simp only [Option.some.injEq, Prod.mk.injEq] at hr
    rw [← hr.2.2]
    exact h
  · cases hq : s.uart_msgq with
    | nil => simp [k_msgq_get, hq] at hr
    | cons msg rest =>
      simp only [k_msgq_get, hq, Option.some.injEq, Prod.mk.injEq] at hr
      rw [← hr.2.2]
      obtain ⟨h1, h2, h3⟩ := h
      refine ⟨h1, h2, ?_⟩
      intro m hm
      apply h3
      rw [hq]
      exact List.mem_cons_of_mem _ hm

theorem comm_thread_step_line_inv (sb : Sandbox) (env : LoadEnv) (s : State)
    (h : line_inv s) : line_inv (comm_thread_step sb env s) := by
  unfold comm_thread_step
  cases hr : agent_read_line LINE_BUF_SIZE s with
  | none => exact h
  | some r =>
    obtain ⟨n, l, s1⟩ := r
    have h1 := agent_read_line_line_inv _ _ _ _ _ hr h
    simp only []
    split
    · exact h1
    · exact handle_command_line_line_inv _ _ _ _ h1

theorem runner_iteration_line (sb : Sandbox) (run : GuestRun) (s : State) :
    (runner_iteration sb run s).rx_buf = s.rx_buf ∧
    (runner_iteration sb run s).rx_buf_pos = s.rx_buf_pos := by
  have hb : (runner_job_begin sb s).1.rx_buf = s.rx_buf ∧
      (runner_job_begin sb s).1.rx_buf_pos = s.rx_buf_pos := by
    unfold runner_job_begin
    simp only []
    split
    · exact ⟨rfl, rfl⟩
    · split
      · exact ⟨rfl, rfl⟩
      · split <;> exact ⟨rfl, rfl⟩
  unfold runner_iteration
  cases hj : runner_job_begin sb s with
  | mk s1 oj =>
    rw [hj] at hb
    cases oj with
    | none => exact hb
    | some job => exact hb

theorem running_line_inv (sb : Sandbox) (s : State) (h : Running sb s) : line_inv s := by
  induction h with
  | init =>
    refine ⟨by decide, by simp [init], ?_⟩
    intro msg hm
    simp [init] at hm
  | rx fifo _ ih => exact serial_cb_line_inv fifo _ ih
  | comm env _ ih => exact comm_thread_step_line_inv _ _ _ ih
  | runner run _ _ ih =>
    exact line_inv_of_eq _ _ ih (runner_iteration_line _ _ _).1 (runner_iteration_line _ _ _).2
      (runner_iteration_msgq _ _ _)

theorem serial_cb_byte_posts (s : State) (c : Nat)
    (h : (serial_cb_byte s c).uart_msgq ≠ s.uart_msgq) :
    (c = 10 ∨ c = 13) ∧ s.g_rx_state = rx_state_t.RX_STATE_LINE ∧ 0 < s.rx_buf_pos ∧
    (serial_cb_byte s c).uart_msgq = s.uart_msgq ++ [s.rx_buf.set s.rx_buf_pos 0] := by
  unfold serial_cb_byte at h ⊢
  cases hst : s.g_rx_state with
  | RX_STATE_LINE =>
    rw [hst] at h
    simp only [] at h ⊢
    split at h
    · rename_i hc
      simp only [k_msgq_put] at h ⊢
      split at h
      · rename_i hlt
        simp [hc, hlt]
      · exact absurd rfl h
    · split at h <;> exact absurd rfl h
  | RX_STATE_BINARY =>
    rw [hst] at h
    simp only [] at h
    split at h
    · split at h <;> exact absurd rfl h
    · exact absurd rfl h

/-! ## `busy` across the command handlers -/

theorem load_install_busy (sb : Sandbox) (line : List Nat) (crc : Nat) (s : State) :
    (load_install sb line crc s).g_runner_busy = s.g_runner_busy := by
  unfold load_install
  simp only []
  split
  · rfl
  · split
    · rfl
    · split
      · rfl
      · split <;> rfl

theorem load_after_wait_busy (sb : Sandbox) (line : List Nat) (crc : Nat) (s : State) :
    (load_after_wait sb line crc s).g_runner_busy = s.g_runner_busy := by
  unfold load_after_wait
  split
  · rfl
  · rw [load_install_busy]

theorem load_teardown_busy (s : State) :
    (load_teardown s).g_runner_busy = s.g_runner_busy := by
  unfold load_teardown
  split <;> rfl

theorem handle_load_cmd_busy (sb : Sandbox) (env : LoadEnv) (line : List Nat) (s : State) :
    (handle_load_cmd sb env line s).g_runner_busy = s.g_runner_busy := by
  unfold handle_load_cmd
  split
  · rfl
  · rfl
  · simp only []
    split
    · rfl
    · unfold load_receive
      simp only []
      split
      · simp only [agent_write_str, malloc]
        split <;> exact load_teardown_busy s
      · rw [load_after_wait_busy, (serial_cb_frame _ env.rx).2.2.2.2.2.2.2.1]
        simp only [agent_write_str, malloc]
        split <;> exact load_teardown_busy s

theorem handle_start_cmd_busy (sb : Sandbox) (line : List Nat) (s : State) :
    (handle_start_cmd sb line s).g_runner_busy = s.g_runner_busy ∨
    (s.g_module_loaded = true ∧ s.g_runner_busy = false ∧
      (handle_start_cmd sb line s).g_runner_busy = true ∧
      (handle_start_cmd sb line s).uart_tx = s.uart_tx ++ [str "START_OK\n"]) := by
  unfold handle_start_cmd
  split
  · exact Or.inl rfl
  · rename_i hl
    split
    · exact Or.inl rfl
    · split
      · exact Or.inl rfl
      · split
        · exact Or.inl rfl
        · rename_i hb
          split
          · exact Or.inl rfl
          · simp only []
            split
            · exact Or.inl rfl
            · refine Or.inr ⟨by simpa using hl, by simpa using hb, rfl, rfl⟩

theorem handle_stop_cmd_busy (line : List Nat) (s : State) :
    (handle_stop_cmd line s).g_runner_busy = s.g_runner_busy := by
  unfold handle_stop_cmd
  split
  · rfl
  · split
    · rfl
    · split <;> rfl

theorem handle_status_cmd_busy (line : List Nat) (s : State) :
    (handle_status_cmd line s).g_runner_busy = s.g_runner_busy := by
  unfold handle_status_cmd
  split <;> rfl

/-! ## `copy_param_value` on any destination array -/

theorem value_char_iff (c : Nat) :
    value_char c = true ↔ (c ≠ 0 ∧ c ≠ 32 ∧ c ≠ 13 ∧ c ≠ 10) := by
  simp [value_char, and_assoc]

theorem copy_param_loop_snd (n : Nat) (start : List Nat) :
    ∀ (dst : List Nat) (i : Nat),
    (copy_param_loop n start dst i).2 = i + (start.takeWhile value_char).length := by
  induction start with
  | nil =>
    intro dst i
    simp [copy_param_loop]
  | cons c rest ih =>
    intro dst i
    unfold copy_param_loop
    by_cases hc : c ≠ 0 ∧ c ≠ 32 ∧ c ≠ 13 ∧ c ≠ 10
    · rw [if_pos hc, List.takeWhile_cons_of_pos ((value_char_iff c).mpr hc), ih]
      simp only [List.length_cons]
      omega
    · rw [if_neg hc, List.takeWhile_cons_of_neg (fun h => hc ((value_char_iff c).mp h))]
      simp

theorem copy_param_loop_fst (n : Nat) (start : List Nat) :
    ∀ (pre post : List Nat), n ≤ pre.length + post.length →
    (copy_param_loop n start (pre ++ post) pre.length).1 =
      pre ++ (start.takeWhile value_char).take (n - 1 - pre.length) ++
        post.drop (min (start.takeWhile value_char).length (n - 1 - pre.length)) := by
  induction start with
  | nil =>
    intro pre post _
    simp [copy_param_loop]
  | cons c rest ih =>
    intro pre post hlen
    unfold copy_param_loop
    by_cases hc : c ≠ 0 ∧ c ≠ 32 ∧ c ≠ 13 ∧ c ≠ 10
    · rw [if_pos hc, List.takeWhile_cons_of_pos ((value_char_iff c).mpr hc)]
      by_cases hlt : pre.length + 1 < n
      · rw [if_pos hlt]
        cases post with
        | nil =>
          simp only [List.length_nil] at hlen
          omega
        | cons x post =>
          have hset : (pre ++ x :: post).set pre.length c = (pre ++ [c]) ++ post := by
            rw [set_at_length pre (x :: post) (by simp)]
            simp
          have := ih (pre ++ [c]) post (by
            simp only [List.length_append, List.length_singleton, List.length_cons] at hlen ⊢
            omega)
          simp only [List.length_append, List.length_singleton] at this
          rw [hset, this]
          have e : n - 1 - pre.length = (n - 1 - (pre.length + 1)) + 1 := by omega
          have e2 : min ((c :: rest.takeWhile value_char).length) (n - 1 - pre.length) =
              min (rest.takeWhile value_char).length (n - 1 - (pre.length + 1)) + 1 := by
            simp only [List.length_cons]
            omega
          rw [e2, e, List.take_succ_cons]
          simp
      · rw [if_neg hlt]
        have hfull := copy_param_loop_full n rest (pre ++ post) (pre.length + 1) (by omega)
        have e : n - 1 - pre.length = 0 := by omega
        rw [hfull.1, e]
        simp
    · rw [if_neg hc, List.takeWhile_cons_of_neg (fun h => hc ((value_char_iff c).mp h))]
      simp

theorem takeWhile_eq_take (p : Nat → Bool) (l : List Nat) :
    l.takeWhile p = l.take (l.takeWhile p).length := by
  induction l with
  | nil => rfl
  | cons c t ih =>
    by_cases hc : p c = true
    · rw [List.takeWhile_cons_of_pos hc]
      simp only [List.length_cons, List.take_succ_cons]
      rw [← ih]
    · rw [List.takeWhile_cons_of_neg hc]
      rfl

theorem takeWhile_length_le (p : Nat → Bool) (l : List Nat) :
    (l.takeWhile p).length ≤ l.length := by
  induction l with
  | nil => simp
  | cons c t ih =>
    by_cases hc : p c = true
    · rw [List.takeWhile_cons_of_pos hc]
      simp only [List.length_cons]
      omega
    · rw [List.takeWhile_cons_of_neg hc]
      simp

theorem copy_param_value_eq (start dst : List Nat) (dst_len : Nat) (h1 : 1 ≤ dst_len)
    (hlen : dst_len ≤ dst.length) :
    copy_param_value start dst dst_len =
      start.take (min (start.takeWhile value_char).length (dst_len - 1)) ++
        0 :: dst.drop (min (start.takeWhile value_char).length (dst_len - 1) + 1) := by
  have hfst := copy_param_loop_fst dst_len start [] dst (by simpa using hlen)
  have hsnd := copy_param_loop_snd dst_len start dst 0
  simp only [List.nil_append, List.length_nil, Nat.sub_zero, Nat.zero_add] at hfst hsnd
  have htk : (start.takeWhile value_char).take (dst_len - 1) =
      start.take (min (start.takeWhile value_char).length (dst_len - 1)) := by
    conv_lhs => rw [takeWhile_eq_take value_char start, List.take_take]
    rw [Nat.min_comm]
  have hL := takeWhile_length_le value_char start
  have hm : (start.take (min (start.takeWhile value_char).length (dst_len - 1))).length =
      min (start.takeWhile value_char).length (dst_len - 1) := by
    rw [List.length_take]
    omega
  have hidx : (if (start.takeWhile value_char).length < dst_len
      then (start.takeWhile value_char).length else dst_len - 1) =
      min (start.takeWhile value_char).length (dst_len - 1) := by
    split <;> omega
  have hdrop : dst.drop (min (start.takeWhile value_char).length (dst_len - 1)) ≠ [] := by
    intro h
    have := congrArg List.length h
    simp only [List.length_drop, List.length_nil] at this
    omega
  unfold copy_param_value
  have hpos : dst_len > 0 := h1
  cases hcp : copy_param_loop dst_len start dst 0 with
  | mk d i =>
    rw [hcp] at hfst hsnd
    simp only [] at hfst hsnd ⊢
    rw [if_pos hpos, hfst, hsnd, hidx, htk]
    have := set_at_length (start.take (min (start.takeWhile value_char).length (dst_len - 1)))
      (dst.drop (min (start.takeWhile value_char).length (dst_len - 1))) hdrop 0
    rw [hm] at this
    rw [this, List.tail_drop]

/-! ## `find_param`: the leftmost `key=` -/

theorem key_eq_at_head (key : List Nat) :
    ∀ l : List Nat, (key.isPrefixOf l = true ∧ l.getD key.length 0 = 61) ↔
      ∃ rest, l = key ++ 61 :: rest := by
  induction key with
  | nil =>
    intro l
    cases l with
    | nil => simp
    | cons x xs => simp
  | cons k ks ih =>
    intro l
    cases l with
    | nil => simp
    | cons x xs =>
      simp only [List.isPrefixOf, Bool.and_eq_true, beq_iff_eq, List.length_cons,
        List.getD_cons_succ, List.cons_append, List.cons.injEq]
      constructor
      · rintro ⟨⟨hkx, hp⟩, hg⟩
        obtain ⟨rest, hr⟩ := (ih xs).mp ⟨hp, hg⟩
        exact ⟨rest, hkx.symm, hr⟩
      · rintro ⟨rest, hkx, hr⟩
        have := (ih xs).mpr ⟨rest, hr⟩
        exact ⟨⟨hkx.symm, this.1⟩, this.2⟩

theorem drop_key_eq (key rest : List Nat) :
    (key ++ 61 :: rest).drop (key.length + 1) = rest := by
  induction key with
  | nil => rfl
  | cons k ks ih => simp [ih]

theorem scan_param_some (key : List Nat) :
    ∀ (line r : List Nat), scan_param key line = some r →
    ∃ pre, line = pre ++ key ++ 61 :: r ∧
      ∀ pre' r', line = pre' ++ key ++ 61 :: r' → pre.length ≤ pre'.length := by
  intro line
  induction line with
  | nil =>
    intro r h
    simp [scan_param] at h
  | cons c t ih =>
    intro r h
    unfold scan_param at h
    split at h
    · rename_i hc
      obtain ⟨rest, hrest⟩ := (key_eq_at_head key (c :: t)).mp hc
      simp only [Option.some.injEq] at h
      rw [hrest, drop_key_eq] at h
      subst h
      exact ⟨[], by simpa using hrest, fun _ _ _ => Nat.zero_le _⟩
    · rename_i hc
      obtain ⟨pre, hpre, hmin⟩ := ih r h
      refine ⟨c :: pre, by simp [hpre], ?_⟩
      intro pre' r' h'
      cases pre' with
      | nil =>
        exfalso
        exact hc ((key_eq_at_head key (c :: t)).mpr ⟨r', by simpa using h'⟩)
      | cons x p =>
        simp only [List.cons_append, List.cons.injEq] at h'
        have := hmin p r' (by simpa using h'.2)
        simp only [List.length_cons]
        omega

theorem scan_param_none (key : List Nat) :
    ∀ (line : List Nat), scan_param key line = none →
    ∀ pre r, line ≠ pre ++ key ++ 61 :: r := by
  intro line
  induction line with
  | nil =>
    intro _ pre r h
    have := congrArg List.length h
    simp at this
    omega
  | cons c t ih =>
    intro h pre r h'
    unfold scan_param at h
    split at h
    · simp at h
    · rename_i hc
      cases pre with
      | nil => exact hc ((key_eq_at_head key (c :: t)).mpr ⟨r, by simpa using h'⟩)
      | cons x p =>
        simp only [List.cons_append, List.cons.injEq] at h'
        exact ih h p r (by simpa using h'.2)

/-! ## `START`: the 64-byte `args_buf` -/

theorem start_args_buf_cut (line body rest : List Nat)
    (hfind : find_param line (str "args") = some (34 :: body ++ 34 :: rest))
    (hq : ∀ c ∈ body, c ≠ 34) :
    start_args_buf line = some (body.take 63) := by
  unfold start_args_buf
  rw [hfind]
  simp only [List.cons_append]
  have h1 : strchr (body ++ 34 :: rest) 34 = some (34 :: rest) := by
    unfold strchr
    have : (body ++ 34 :: rest).dropWhile (fun x => x != 34) = 34 :: rest := by
      rw [List.dropWhile_append_of_pos (by simpa using hq),
        List.dropWhile_cons_of_neg (by simp)]
    rw [this]
  rw [h1]
  simp only [List.length_append, List.length_cons, Nat.add_sub_cancel]
  by_cases h2 : body.length ≥ 64
  · simp only [h2, if_true, Nat.reduceSub]
    rw [List.take_append_of_le_length (by omega)]
  · simp only [h2, if_false, List.take_left']
    rw [List.take_of_length_le (by omega)]

/-! ## Claims -/

/-- C1: for every byte sequence `b`, `crc32_calc b` is the zlib CRC-32 of `b` (table-driven
reference of RFC 1952: reflected polynomial 0xEDB88320, initial value 0xFFFFFFFF, final
complement); in particular the CRC of the empty sequence is 0 and the CRC of the nine bytes
"123456789" is 0xCBF43926. -/
theorem crc32_calc_matches_zlib (b : List Nat) (hb : ∀ x ∈ b, x < 256) :
    crc32_calc b = zlib_crc32 b ∧ crc32_calc [] = 0x00000000 ∧
      crc32_calc (str "123456789") = 0xCBF43926 :=
  ⟨crc32_calc_eq_zlib b hb, by decide, crc32_check⟩

/-- C1 applied to the nine bytes "123456789". -/
theorem crc32_calc_matches_zlib_witness :
    (∀ x ∈ str "123456789", x < 256) ∧
      (crc32_calc (str "123456789") = zlib_crc32 (str "123456789") ∧
        crc32_calc [] = 0x00000000 ∧ crc32_calc (str "123456789") = 0xCBF43926) :=
  ⟨by decide, crc32_calc_matches_zlib (str "123456789") (by decide)⟩

set_option maxRecDepth 1000000 in
/-- C2: the state reached by a successful `LOAD`, a successful `START` and then a `LOAD`
whose payload stops after two of four bytes has `busy = true` with an empty slot. -/
theorem busy_with_empty_slot_reachable :
    ∃ s, Reachable demo_sandbox s ∧ s.g_runner_busy = true ∧ s.g_module_loaded = false :=
  ⟨handle_command_line demo_sandbox ⟨true, [0, 97]⟩
      (str "LOAD module_id=m2 size=4 crc32=5f4049db") demo_started,
    Reachable.command _ _ (Reachable.command _ _ (Reachable.command _ _ Reachable.init)),
    by decide, by decide⟩

set_option maxRecDepth 1000000 in
/-- C3: in the state after a successful `LOAD` and `START` (`busy = true`, slot loaded with
instance 8, module 7, buffer 1) a further well-formed `LOAD` deinstantiates the instance,
unloads the module and frees the buffer of the running module. -/
theorem load_tears_down_running_module :
    demo_started.g_runner_busy = true ∧ demo_started.g_module_loaded = true ∧
    demo_started.g_wasm_inst = 8 ∧ demo_started.g_wasm_module = 7 ∧
    demo_started.g_wasm_buf = 1 ∧ heap_read demo_started.heap 1 = demo_image ∧
    (handle_command_line demo_sandbox ⟨true, demo_image⟩
      (str "LOAD module_id=m3 size=4 crc32=5f4049db") demo_started).trace.drop
        demo_started.trace.length =
      [Event.wasm_runtime_deinstantiate 8, Event.wasm_runtime_unload 7, Event.free 1,
       Event.malloc 4 2, Event.wasm_runtime_load demo_image, Event.wasm_runtime_instantiate 7] ∧
    (handle_command_line demo_sandbox ⟨true, demo_image⟩
      (str "LOAD module_id=m3 size=4 crc32=5f4049db") demo_started).heap.getD 0 none = none := by
  decide

set_option maxRecDepth 1000000 in
/-- C4, as stated, fails for a module id that itself contains `size=`: `find_param` takes
the leftmost `size=`, which lies inside the id.  From the initial state (RX state LINE,
runner idle), with the four-byte image `00 61 73 6d` that the sandbox loads and
instantiates, the line `LOAD module_id=size=0 size=4 crc32=5f4049db` is answered
`LOAD_ERR code=BAD_PARAMS msg="size=0"` and the slot stays empty.  In the same way the
id `crc32=0` makes the handler compare against the checksum 0 and answer `BAD_CRC`. -/
theorem load_id_containing_size_is_rejected :
    init.g_rx_state = rx_state_t.RX_STATE_LINE ∧ init.g_runner_busy = false ∧
    1 ≤ demo_image.length ∧ demo_image.length ≤ 65536 ∧
    (demo_sandbox.wasm_runtime_load demo_image).1 ≠ NULL ∧
    (demo_sandbox.wasm_runtime_instantiate (demo_sandbox.wasm_runtime_load demo_image).1).1 ≠
      NULL ∧
    str "LOAD module_id=" ++ str "size=0" ++ str " size=" ++ utoa demo_image.length ++
      str " crc32=" ++ hex8 (crc32_calc demo_image) =
      str "LOAD module_id=size=0 size=4 crc32=5f4049db" ∧
    (handle_command_line demo_sandbox ⟨true, demo_image⟩
      (str "LOAD module_id=" ++ str "size=0" ++ str " size=" ++ utoa demo_image.length ++
        str " crc32=" ++ hex8 (crc32_calc demo_image)) init).uart_tx =
      [str "LOAD_ERR code=BAD_PARAMS msg=\"size=0\"\n"] ∧
    (handle_command_line demo_sandbox ⟨true, demo_image⟩
      (str "LOAD module_id=" ++ str "size=0" ++ str " size=" ++ utoa demo_image.length ++
        str " crc32=" ++ hex8 (crc32_calc demo_image)) init).g_module_loaded = false ∧
    (handle_command_line demo_sandbox ⟨true, demo_image⟩
      (str "LOAD module_id=" ++ str "crc32=0" ++ str " size=" ++ utoa demo_image.length ++
        str " crc32=" ++ hex8 (crc32_calc demo_image)) init).uart_tx.getLast? =
      some (str "LOAD_ERR code=BAD_CRC msg=\"expected=00000000 got=5f4049db\"\n") := by
  refine ⟨rfl, rfl, ?_, ?_, ?_, ?_, ?_, ?_, ?_, ?_⟩ <;> decide

/-- C4 (amended): LOAD round trip.  For every image `B` with `1 ≤ |B| ≤ 65536` and every
module id without space, CR, LF, NUL or `=`, from a state whose RX state is LINE with the
runner idle, handling `LOAD module_id=<id> size=<|B|> crc32=<crc32_calc B>` while exactly
the bytes of `B` reach the RX interrupt (allocation succeeding) ends with the reply
`LOAD_OK` and the slot loaded with image `B` if and only if the sandbox loads and
instantiates `B`; otherwise the last reply is a `LOAD_ERR` line. -/
theorem load_round_trip (sb : Sandbox) (s : State) (id B : List Nat)
    (hid : ∀ c ∈ id, c ≠ 0 ∧ c ≠ 32 ∧ c ≠ 13 ∧ c ≠ 10 ∧ c ≠ 61)
    (hB : ∀ x ∈ B, x < 256) (h1 : 1 ≤ B.length) (h2 : B.length ≤ 65536)
    (_hline : s.g_rx_state = rx_state_t.RX_STATE_LINE) (_hidle : s.g_runner_busy = false) :
    let s' := handle_command_line sb ⟨true, B⟩ (str "LOAD module_id=" ++ id ++ str " size=" ++
      utoa B.length ++ str " crc32=" ++ hex8 (crc32_calc B)) s
    let accepted := (sb.wasm_runtime_load B).1 ≠ NULL ∧
      (sb.wasm_runtime_instantiate (sb.wasm_runtime_load B).1).1 ≠ NULL
    ((s'.uart_tx.getLast? = some (str "LOAD_OK\n") ∧ s'.g_module_loaded = true ∧
        heap_read s'.heap s'.g_wasm_buf = B ∧ s'.g_wasm_size = B.length) ↔ accepted) ∧
    (¬ accepted → ∃ reply, s'.uart_tx.getLast? = some reply ∧
        (str "LOAD_ERR").isPrefixOf reply = true) := by
  have hv := value_char_of_id id hid
  intro s' accepted
  have hs' : s' = _ := handle_load_line sb s id B hid hB h1 (by omega)
  rw [load_install_waited sb _ id B _ hv.1] at hs'
  by_cases hm : (sb.wasm_runtime_load B).1 = NULL
  · have hna : ¬ accepted := fun h => h.1 hm
    simp only [hm, if_true] at hs'
    have hlast : s'.uart_tx.getLast? = some (snprintf 160 (str "LOAD_ERR code=LOAD_FAIL msg=\"" ++
        (sb.wasm_runtime_load B).2.take 127 ++ str "\"\n")) := by
      rw [hs']; simp
    have hpre : (str "LOAD_ERR").isPrefixOf (snprintf 160 (str "LOAD_ERR code=LOAD_FAIL msg=\"" ++
        (sb.wasm_runtime_load B).2.take 127 ++ str "\"\n")) = true := by
      simp [str, snprintf, List.isPrefixOf]
    refine ⟨⟨fun h => ?_, fun h => absurd h hna⟩, fun _ => ⟨_, hlast, hpre⟩⟩
    rw [hlast] at h
    have h0 := h.1
    simp only [Option.some.injEq] at h0
    rw [h0] at hpre
    exact absurd hpre (by decide)
  · by_cases hi : (sb.wasm_runtime_instantiate (sb.wasm_runtime_load B).1).1 = NULL
    · have hna : ¬ accepted := fun h => h.2 hi
      simp only [hm, hi, if_true, if_false] at hs'
      have hlast : s'.uart_tx.getLast? = some (snprintf 160
          (str "LOAD_ERR code=INSTANTIATE_FAIL msg=\"" ++
          (sb.wasm_runtime_instantiate (sb.wasm_runtime_load B).1).2.take 127 ++ str "\"\n")) := by
        rw [hs']; simp
      have hpre : (str "LOAD_ERR").isPrefixOf (snprintf 160
          (str "LOAD_ERR code=INSTANTIATE_FAIL msg=\"" ++
          (sb.wasm_runtime_instantiate (sb.wasm_runtime_load B).1).2.take 127 ++ str "\"\n"))
          = true := by
        simp [str, snprintf, List.isPrefixOf]
      refine ⟨⟨fun h => ?_, fun h => absurd h hna⟩, fun _ => ⟨_, hlast, hpre⟩⟩
      rw [hlast] at h
      have h0 := h.1
      simp only [Option.some.injEq] at h0
      rw [h0] at hpre
      exact absurd hpre (by decide)
    · have ha : accepted := ⟨hm, hi⟩
      simp only [hm, hi, if_false] at hs'
      refine ⟨⟨fun _ => ha, fun _ => ?_⟩, fun h => absurd ha h⟩
      rw [hs']
      simp [load_waited, heap_read_last]

set_option maxRecDepth 1000000 in
/-- C4 (amended) applied to the four-byte image `00 61 73 6d`, the id `m2`, the initial state and
the demo sandbox. -/
theorem load_round_trip_witness :
    (∀ c ∈ str "m2", c ≠ 0 ∧ c ≠ 32 ∧ c ≠ 13 ∧ c ≠ 10 ∧ c ≠ 61) ∧
    (∀ x ∈ demo_image, x < 256) ∧ 1 ≤ demo_image.length ∧ demo_image.length ≤ 65536 ∧
    init.g_rx_state = rx_state_t.RX_STATE_LINE ∧ init.g_runner_busy = false ∧
    (let s' := handle_command_line demo_sandbox ⟨true, demo_image⟩ (str "LOAD module_id=" ++
      str "m2" ++ str " size=" ++ utoa demo_image.length ++ str " crc32=" ++
      hex8 (crc32_calc demo_image)) init
    let accepted := (demo_sandbox.wasm_runtime_load demo_image).1 ≠ NULL ∧
      (demo_sandbox.wasm_runtime_instantiate (demo_sandbox.wasm_runtime_load demo_image).1).1
        ≠ NULL
    ((s'.uart_tx.getLast? = some (str "LOAD_OK\n") ∧ s'.g_module_loaded = true ∧
        heap_read s'.heap s'.g_wasm_buf = demo_image ∧ s'.g_wasm_size = demo_image.length) ↔
      accepted) ∧
    (¬ accepted → ∃ reply, s'.uart_tx.getLast? = some reply ∧
        (str "LOAD_ERR").isPrefixOf reply = true)) :=
  ⟨by decide, by decide, by decide, by decide, rfl, rfl,
    load_round_trip demo_sandbox init (str "m2") demo_image (by decide) (by decide) (by decide)
      (by decide) rfl rfl⟩

/-- C5: whenever `handle_load_cmd` ends with a `LOAD_ERR` reply of code NO_MEM, TIMEOUT,
BAD_CRC, LOAD_FAIL or INSTANTIATE_FAIL (from any state, slot empty or loaded), the slot is
empty on return: `g_module_loaded` is false and `g_wasm_buf` is `NULL`; a buffer allocated
by this `LOAD` has been freed (the `free` of it is the last outside call and its heap block
is gone); and for INSTANTIATE_FAIL the module parsed by this `LOAD` has been unloaded. -/
theorem load_error_leaves_slot_empty (sb : Sandbox) (env : LoadEnv) (line : List Nat)
    (s : State) (reply : List Nat)
    (hlast : (handle_load_cmd sb env line s).uart_tx.getLast? = some reply)
    (hcode : (str "LOAD_ERR code=NO_MEM").isPrefixOf reply = true ∨
      (str "LOAD_ERR code=TIMEOUT").isPrefixOf reply = true ∨
      (str "LOAD_ERR code=BAD_CRC").isPrefixOf reply = true ∨
      (str "LOAD_ERR code=LOAD_FAIL").isPrefixOf reply = true ∨
      (str "LOAD_ERR code=INSTANTIATE_FAIL").isPrefixOf reply = true) :
    let s' := handle_load_cmd sb env line s
    let calls := s'.trace.drop s.trace.length
    s'.g_module_loaded = false ∧ s'.g_wasm_buf = NULL ∧
    (∀ size p, Event.malloc size p ∈ calls → p ≠ NULL →
      calls.getLast? = some (Event.free p) ∧ s'.heap.getD (p - 1) none = none) ∧
    ((str "LOAD_ERR code=INSTANTIATE_FAIL").isPrefixOf reply = true →
      s'.g_wasm_module = NULL ∧
      ∃ before image p, calls = before ++
        [Event.wasm_runtime_load image,
         Event.wasm_runtime_instantiate (sb.wasm_runtime_load image).1,
         Event.wasm_runtime_unload (sb.wasm_runtime_load image).1, Event.free p]) := by
  intro s' calls
  have hT := load_teardown_facts s
  have hnm := teardown_events_no_malloc s
  revert hlast
  simp only [calls, s']
  unfold handle_load_cmd
  split
  · intro hlast
    simp [agent_write_str] at hlast
    subst hlast
    exact absurd hcode (by decide)
  · intro hlast
    simp [agent_write_str] at hlast
    subst hlast
    exact absurd hcode (by decide)
  · rename_i p_size p_crc hsz hcr
    simp only []
    split
    · intro hlast
      simp [agent_write_str] at hlast
      subst hlast
      exact absurd hcode (by decide)
    · rename_i hsize
      cases hmalloc : env.malloc_ok
      · -- NO_MEM
        unfold load_receive
        intro hlast
        simp only [hmalloc, malloc, NULL, agent_write_str, Bool.false_eq_true, if_false, if_true, hT.1,
          hT.2.1, List.append_assoc, List.drop_left', true_and] at hlast ⊢
        simp at hlast
        subst hlast
        refine ⟨?_, fun h => absurd h (by decide)⟩
        intro size p hmem hp
        rcases List.mem_append.mp hmem with h | h
        · exact absurd h (hnm size p)
        · simp at h
          exact absurd h.2 hp
      · obtain ⟨s6, hs6, f1, f2, f3, _⟩ := load_receive_shape sb env line (param_value p_crc 16)
          (to_u32 (atoi (param_value p_size 16))) (strtoul16 (param_value p_crc 16)) s hmalloc
        rw [hs6]
        intro hlast
        have hE := load_after_wait_error sb line _ s6 reply f1
          (by rw [f2]; exact Nat.add_one_ne_zero _) hlast hcode
        obtain ⟨e1, e2, e3, ⟨ext, e4, e5, e6⟩, e7⟩ := hE
        have hcalls : ((load_after_wait sb line (strtoul16 (param_value p_crc 16)) s6).trace).drop
            s.trace.length = teardown_events s ++ Event.malloc
              (to_u32 (atoi (param_value p_size 16))) ((load_teardown s).heap.length + 1)
              :: ext := by
          rw [e4, f3]
          simp only [List.append_assoc, List.drop_left', List.singleton_append]
        rw [hcalls]
        refine ⟨e1, e2, ?_, ?_⟩
        · intro size p hmem hp
          have hpe : p = (load_teardown s).heap.length + 1 := by
            rcases List.mem_append.mp hmem with h | h
            · exact absurd h (hnm size p)
            · rcases List.mem_cons.mp h with h | h
              · simp only [Event.malloc.injEq] at h
                exact h.2
              · exact absurd h (e6 size p)
          have hext : ext ≠ [] := by
            intro h
            rw [h] at e5
            simp at e5
          refine ⟨?_, ?_⟩
          · rw [List.getLast?_append_of_ne_nil _ (List.cons_ne_nil _ _)]
            obtain ⟨e, es, rfl⟩ := List.exists_cons_of_ne_nil hext
            rw [List.getLast?_cons_cons, e5, f2, hpe]
          · rw [hpe, ← f2]
            exact e3
        · intro hI
          obtain ⟨g1, image, p, g2⟩ := e7 hI
          refine ⟨g1, teardown_events s ++ [Event.malloc (to_u32 (atoi (param_value p_size 16)))
            ((load_teardown s).heap.length + 1)], image, p, ?_⟩
          have : ext = [Event.wasm_runtime_load image,
              Event.wasm_runtime_instantiate (sb.wasm_runtime_load image).1,
              Event.wasm_runtime_unload (sb.wasm_runtime_load image).1, Event.free p] := by
            rw [e4] at g2
            exact List.append_cancel_left g2
          rw [this]
          simp

set_option maxRecDepth 1000000 in
/-- C5 applied to a `LOAD` of four bytes of which two arrive, with the slot loaded before. -/
theorem load_error_leaves_slot_empty_witness :
    (handle_load_cmd demo_sandbox ⟨true, [0, 97]⟩ (str "module_id=m3 size=4 crc32=5f4049db")
      demo_loaded).uart_tx.getLast? =
      some (str "LOAD_ERR code=TIMEOUT msg=\"binary payload not received\"\n") ∧
    ((str "LOAD_ERR code=NO_MEM").isPrefixOf
        (str "LOAD_ERR code=TIMEOUT msg=\"binary payload not received\"\n") = true ∨
      (str "LOAD_ERR code=TIMEOUT").isPrefixOf
        (str "LOAD_ERR code=TIMEOUT msg=\"binary payload not received\"\n") = true ∨
      (str "LOAD_ERR code=BAD_CRC").isPrefixOf
        (str "LOAD_ERR code=TIMEOUT msg=\"binary payload not received\"\n") = true ∨
      (str "LOAD_ERR code=LOAD_FAIL").isPrefixOf
        (str "LOAD_ERR code=TIMEOUT msg=\"binary payload not received\"\n") = true ∨
      (str "LOAD_ERR code=INSTANTIATE_FAIL").isPrefixOf
        (str "LOAD_ERR code=TIMEOUT msg=\"binary payload not received\"\n") = true) ∧
    (let s' := handle_load_cmd demo_sandbox ⟨true, [0, 97]⟩
      (str "module_id=m3 size=4 crc32=5f4049db") demo_loaded
    let calls := s'.trace.drop demo_loaded.trace.length
    s'.g_module_loaded = false ∧ s'.g_wasm_buf = NULL ∧
    (∀ size p, Event.malloc size p ∈ calls → p ≠ NULL →
      calls.getLast? = some (Event.free p) ∧ s'.heap.getD (p - 1) none = none) ∧
    ((str "LOAD_ERR code=INSTANTIATE_FAIL").isPrefixOf
        (str "LOAD_ERR code=TIMEOUT msg=\"binary payload not received\"\n") = true →
      s'.g_wasm_module = NULL ∧
      ∃ before image p, calls = before ++
        [Event.wasm_runtime_load image,
         Event.wasm_runtime_instantiate (demo_sandbox.wasm_runtime_load image).1,
         Event.wasm_runtime_unload (demo_sandbox.wasm_runtime_load image).1, Event.free p])) :=
  ⟨by decide, by decide,
    load_error_leaves_slot_empty demo_sandbox ⟨true, [0, 97]⟩
      (str "module_id=m3 size=4 crc32=5f4049db") demo_loaded
      (str "LOAD_ERR code=TIMEOUT msg=\"binary payload not received\"\n") (by decide)
      (by decide)⟩

/-- C6: a one-byte corruption is always caught.  Let `B = pre ++ x :: post` and
`B' = pre ++ y :: post` with `x ≠ y` (same length, exactly one byte differs).  A `LOAD`
whose line declares size `|B|` and crc32 `crc32_calc B`, and whose payload is `B'`
(allocation succeeding), has `crc32_calc B' ≠ crc32_calc B`, replies `LOAD_READY` and then
`LOAD_ERR code=BAD_CRC msg="expected=<crc32 B> got=<crc32 B'>"`, never calls the sandbox
loader, and a following `STATUS` reports `modules="none"`. -/
theorem one_byte_corruption_is_caught (sb : Sandbox) (env : LoadEnv) (s : State)
    (line pre post p_size p_crc : List Nat) (x y : Nat)
    (hpre : ∀ b ∈ pre, b < 256) (hpost : ∀ b ∈ post, b < 256) (hx : x < 256) (hy : y < 256)
    (hxy : x ≠ y)
    (hsize : find_param line (str "size") = some p_size)
    (hn : to_u32 (atoi (param_value p_size 16)) = (pre ++ x :: post).length)
    (hcrc : find_param line (str "crc32") = some p_crc)
    (hv : strtoul16 (param_value p_crc 16) = crc32_calc (pre ++ x :: post)) :
    let s' := handle_load_cmd sb ⟨true, pre ++ y :: post⟩ line s
    crc32_calc (pre ++ y :: post) ≠ crc32_calc (pre ++ x :: post) ∧
    s'.uart_tx = s.uart_tx ++
      [snprintf 160 (str "LOAD_READY size=" ++ utoa (pre ++ x :: post).length ++ str " crc32=" ++
         param_value p_crc 16 ++ str "\n"),
       str "LOAD_ERR code=BAD_CRC msg=\"expected=" ++ hex8 (crc32_calc (pre ++ x :: post)) ++
         str " got=" ++ hex8 (crc32_calc (pre ++ y :: post)) ++ str "\"\n"] ∧
    (∀ image, Event.wasm_runtime_load image ∉ s'.trace.drop s.trace.length) ∧
    s'.g_module_loaded = false ∧
    (handle_command_line sb env (str "STATUS") s').uart_tx =
      s'.uart_tx ++ [str "STATUS_OK modules=\"none\" runner=IDLE\n"] := by
  intro s'
  have hne : crc32_calc (pre ++ y :: post) ≠ crc32_calc (pre ++ x :: post) :=
    crc32_calc_one_byte pre post y x hpre hpost hy hx (fun h => hxy h.symm)
  have hlen : (pre ++ x :: post).length = (pre ++ y :: post).length := by simp
  have hT := load_teardown_facts s
  have hs' : s' = load_install sb line (crc32_calc (pre ++ x :: post))
      (load_waited (load_teardown s) (param_value p_crc 16) (pre ++ y :: post).length
        (pre ++ y :: post) (pre ++ y :: post).length rx_state_t.RX_STATE_LINE) := by
    simp only [s']
    unfold handle_load_cmd
    simp only [hsize, hcrc, hn, hv]
    rw [if_neg (by simp), hlen]
    exact load_receive_full sb line _ (pre ++ y :: post) _ s (by simp)
  have hW : heap_read (load_waited (load_teardown s) (param_value p_crc 16)
      (pre ++ y :: post).length (pre ++ y :: post) (pre ++ y :: post).length
      rx_state_t.RX_STATE_LINE).heap (load_waited (load_teardown s) (param_value p_crc 16)
      (pre ++ y :: post).length (pre ++ y :: post) (pre ++ y :: post).length
      rx_state_t.RX_STATE_LINE).g_wasm_buf = pre ++ y :: post := by
    simp [load_waited, heap_read_last]
  have hS : (load_waited (load_teardown s) (param_value p_crc 16)
      (pre ++ y :: post).length (pre ++ y :: post) (pre ++ y :: post).length
      rx_state_t.RX_STATE_LINE).g_wasm_size = (pre ++ y :: post).length := rfl
  unfold load_install at hs'
  simp only [hW, hS, List.take_length, hne, ne_eq, not_false_eq_true, if_true] at hs'
  have htx : s'.uart_tx = s.uart_tx ++
      [snprintf 160 (str "LOAD_READY size=" ++ utoa (pre ++ x :: post).length ++ str " crc32=" ++
         param_value p_crc 16 ++ str "\n"),
       str "LOAD_ERR code=BAD_CRC msg=\"expected=" ++ hex8 (crc32_calc (pre ++ x :: post)) ++
         str " got=" ++ hex8 (crc32_calc (pre ++ y :: post)) ++ str "\"\n"] := by
    rw [hs']
    simp only [agent_write_str, free, load_waited, hT.2.2, hlen, List.append_assoc,
      List.singleton_append, List.append_cancel_left_eq, List.cons.injEq, true_and, and_true]
    simp [snprintf, hex8, str]
  have hloaded : s'.g_module_loaded = false := by
    rw [hs']
    simp [agent_write_str, free, load_waited, hT.2.1]
  refine ⟨hne, htx, ?_, hloaded, ?_⟩
  · intro image
    rw [hs']
    simp [agent_write_str, free, load_waited, hT.1, teardown_events]
  · rw [handle_status_line]
    unfold handle_status_cmd
    simp [hloaded, agent_write_str]

set_option maxRecDepth 1000000 in
/-- C6 applied to the image `00 61 73 6d` received as `00 61 73 6c`, from the initial state. -/
theorem one_byte_corruption_is_caught_witness :
    (∀ b ∈ [0, 97, 115], b < 256) ∧ (∀ b ∈ ([] : List Nat), b < 256) ∧ 109 < 256 ∧ 108 < 256 ∧
    109 ≠ 108 ∧
    find_param (str "module_id=m2 size=4 crc32=5f4049db") (str "size") =
      some (str "4 crc32=5f4049db") ∧
    to_u32 (atoi (param_value (str "4 crc32=5f4049db") 16)) = ([0, 97, 115] ++ 109 :: []).length ∧
    find_param (str "module_id=m2 size=4 crc32=5f4049db") (str "crc32") = some (str "5f4049db") ∧
    strtoul16 (param_value (str "5f4049db") 16) = crc32_calc ([0, 97, 115] ++ 109 :: []) ∧
    (let s' := handle_load_cmd demo_sandbox ⟨true, [0, 97, 115] ++ 108 :: []⟩
      (str "module_id=m2 size=4 crc32=5f4049db") init
    crc32_calc ([0, 97, 115] ++ 108 :: []) ≠ crc32_calc ([0, 97, 115] ++ 109 :: []) ∧
    s'.uart_tx = init.uart_tx ++
      [snprintf 160 (str "LOAD_READY size=" ++ utoa ([0, 97, 115] ++ 109 :: []).length ++
         str " crc32=" ++ param_value (str "5f4049db") 16 ++ str "\n"),
       str "LOAD_ERR code=BAD_CRC msg=\"expected=" ++
         hex8 (crc32_calc ([0, 97, 115] ++ 109 :: [])) ++
         str " got=" ++ hex8 (crc32_calc ([0, 97, 115] ++ 108 :: [])) ++ str "\"\n"] ∧
    (∀ image, Event.wasm_runtime_load image ∉ s'.trace.drop init.trace.length) ∧
    s'.g_module_loaded = false ∧
    (handle_command_line demo_sandbox ⟨true, []⟩ (str "STATUS") s').uart_tx =
      s'.uart_tx ++ [str "STATUS_OK modules=\"none\" runner=IDLE\n"]) :=
  ⟨by decide, by decide, by decide, by decide, by decide, by decide, by decide, by decide,
    by decide,
    one_byte_corruption_is_caught demo_sandbox ⟨true, []⟩ init
      (str "module_id=m2 size=4 crc32=5f4049db") [0, 97, 115] [] (str "4 crc32=5f4049db")
      (str "5f4049db") 109 108 (by decide) (by decide) (by decide) (by decide) (by decide)
      (by decide) (by decide) (by decide) (by decide)⟩

/-- C7: upload timeout.  For every `LOAD` whose line declares a size `n ≠ 0` and a crc32,
with allocation succeeding and fewer than `n` payload bytes reaching the RX interrupt
before the wait expires, the replies are `LOAD_READY` and then
`LOAD_ERR code=TIMEOUT msg="binary payload not received"`; on return the RX state is LINE,
the allocated buffer is freed, the slot is empty and `STATUS` reports `modules="none"`;
and a subsequent well-formed `LOAD` whose payload arrives in full, for an image the
sandbox accepts, ends with `LOAD_OK` and the slot loaded with that image. -/
theorem upload_timeout (sb : Sandbox) (env : LoadEnv) (s : State)
    (line rx p_size p_crc : List Nat) (n : Nat)
    (hsize : find_param line (str "size") = some p_size)
    (hn : to_u32 (atoi (param_value p_size 16)) = n) (hn0 : n ≠ 0)
    (hcrc : find_param line (str "crc32") = some p_crc)
    (hrx : rx.length < n) :
    let s' := handle_load_cmd sb ⟨true, rx⟩ line s
    let calls := s'.trace.drop s.trace.length
    s'.uart_tx = s.uart_tx ++
      [snprintf 160 (str "LOAD_READY size=" ++ utoa n ++ str " crc32=" ++
         param_value p_crc 16 ++ str "\n"),
       str "LOAD_ERR code=TIMEOUT msg=\"binary payload not received\"\n"] ∧
    s'.g_rx_state = rx_state_t.RX_STATE_LINE ∧ s'.g_wasm_buf = NULL ∧
    s'.g_module_loaded = false ∧
    (∃ p, p ≠ NULL ∧ Event.malloc n p ∈ calls ∧ calls.getLast? = some (Event.free p) ∧
      s'.heap.getD (p - 1) none = none) ∧
    (handle_command_line sb env (str "STATUS") s').uart_tx =
      s'.uart_tx ++ [str "STATUS_OK modules=\"none\" runner=IDLE\n"] ∧
    (∀ id B : List Nat, (∀ c ∈ id, c ≠ 0 ∧ c ≠ 32 ∧ c ≠ 13 ∧ c ≠ 10 ∧ c ≠ 61) →
      (∀ b ∈ B, b < 256) → 1 ≤ B.length → B.length ≤ 65536 →
      (sb.wasm_runtime_load B).1 ≠ NULL →
      (sb.wasm_runtime_instantiate (sb.wasm_runtime_load B).1).1 ≠ NULL →
      let s'' := handle_command_line sb ⟨true, B⟩ (str "LOAD module_id=" ++ id ++
        str " size=" ++ utoa B.length ++ str " crc32=" ++ hex8 (crc32_calc B)) s'
      s''.uart_tx.getLast? = some (str "LOAD_OK\n") ∧ s''.g_module_loaded = true ∧
        heap_read s''.heap s''.g_wasm_buf = B) := by
  intro s' calls
  have hT := load_teardown_facts s
  have hs' : s' = _ := handle_load_timeout sb s line rx p_size p_crc n hsize hn hn0 hcrc hrx
  have hloaded : s'.g_module_loaded = false := by
    rw [hs']
    simp [load_waited, hT.2.1]
  have hcalls : calls = teardown_events s ++
      [Event.malloc n ((load_teardown s).heap.length + 1),
       Event.free ((load_teardown s).heap.length + 1)] := by
    simp only [calls]
    rw [hs']
    simp [load_waited, hT.1]
  refine ⟨?_, ?_, ?_, hloaded, ?_, ?_, ?_⟩
  · rw [hs']
    simp [load_waited, hT.2.2]
  · rw [hs']
    rfl
  · rw [hs']
  · refine ⟨(load_teardown s).heap.length + 1, Nat.add_one_ne_zero _, ?_, ?_, ?_⟩
    · rw [hcalls]
      simp
    · rw [hcalls]
      simp
    · rw [hs']
      simp [load_waited, List.getD_append_right]
  · rw [handle_status_line]
    unfold handle_status_cmd
    simp [hloaded, agent_write_str]
  · intro id B hid hB h1 h2 hm hi
    exact load_line_accepted sb s' id B hid hB h1 (by omega) hm hi

set_option maxRecDepth 1000000 in
/-- C7 applied to a `LOAD` of four bytes of which two arrive, from the initial state. -/
theorem upload_timeout_witness :
    find_param (str "module_id=m2 size=4 crc32=5f4049db") (str "size") =
      some (str "4 crc32=5f4049db") ∧
    to_u32 (atoi (param_value (str "4 crc32=5f4049db") 16)) = 4 ∧ 4 ≠ 0 ∧
    find_param (str "module_id=m2 size=4 crc32=5f4049db") (str "crc32") = some (str "5f4049db") ∧
    [0, 97].length < 4 ∧
    (let s' := handle_load_cmd demo_sandbox ⟨true, [0, 97]⟩
      (str "module_id=m2 size=4 crc32=5f4049db") init
    let calls := s'.trace.drop init.trace.length
    s'.uart_tx = init.uart_tx ++
      [snprintf 160 (str "LOAD_READY size=" ++ utoa 4 ++ str " crc32=" ++
         param_value (str "5f4049db") 16 ++ str "\n"),
       str "LOAD_ERR code=TIMEOUT msg=\"binary payload not received\"\n"] ∧
    s'.g_rx_state = rx_state_t.RX_STATE_LINE ∧ s'.g_wasm_buf = NULL ∧
    s'.g_module_loaded = false ∧
    (∃ p, p ≠ NULL ∧ Event.malloc 4 p ∈ calls ∧ calls.getLast? = some (Event.free p) ∧
      s'.heap.getD (p - 1) none = none) ∧
    (handle_command_line demo_sandbox ⟨true, []⟩ (str "STATUS") s').uart_tx =
      s'.uart_tx ++ [str "STATUS_OK modules=\"none\" runner=IDLE\n"] ∧
    (∀ id B : List Nat, (∀ c ∈ id, c ≠ 0 ∧ c ≠ 32 ∧ c ≠ 13 ∧ c ≠ 10 ∧ c ≠ 61) →
      (∀ b ∈ B, b < 256) → 1 ≤ B.length → B.length ≤ 65536 →
      (demo_sandbox.wasm_runtime_load B).1 ≠ NULL →
      (demo_sandbox.wasm_runtime_instantiate (demo_sandbox.wasm_runtime_load B).1).1 ≠ NULL →
      let s'' := handle_command_line demo_sandbox ⟨true, B⟩ (str "LOAD module_id=" ++ id ++
        str " size=" ++ utoa B.length ++ str " crc32=" ++ hex8 (crc32_calc B)) s'
      s''.uart_tx.getLast? = some (str "LOAD_OK\n") ∧ s''.g_module_loaded = true ∧
        heap_read s''.heap s''.g_wasm_buf = B)) :=
  ⟨by decide, by decide, by decide, by decide, by decide,
    upload_timeout demo_sandbox ⟨true, []⟩ init (str "module_id=m2 size=4 crc32=5f4049db")
      [0, 97] (str "4 crc32=5f4049db") (str "5f4049db") 4 (by decide) (by decide) (by decide)
      (by decide) (by decide)⟩

set_option maxRecDepth 1000000 in
/-- C8, as stated, fails: with the slot loaded under the id `m2` and the runner idle, the
line `START module_id=zz` has no `func=`, yet the reply is
`RESULT status=NO_MODULE msg="module_id mismatch"`, not a `RESULT status=BAD_PARAMS` line. -/
theorem start_without_func_not_bad_params :
    demo_loaded.g_module_loaded = true ∧
    split_command (str "START module_id=zz") = some (str "START", str "module_id=zz") ∧
    find_param (str "module_id=zz") (str "func") = none ∧
    (handle_command_line demo_sandbox ⟨true, []⟩ (str "START module_id=zz") demo_loaded).uart_tx =
      demo_loaded.uart_tx ++ [str "RESULT status=NO_MODULE msg=\"module_id mismatch\"\n"] ∧
    (str "RESULT status=BAD_PARAMS").isPrefixOf
      (str "RESULT status=NO_MODULE msg=\"module_id mismatch\"\n") = false := by
  decide

/-- C8 (amended): malformed commands are answered by exactly one reply line and change
nothing else in the agent state.  This holds for a `LOAD` without `size=`, a `LOAD` without
`crc32=`, a `LOAD` whose size parses to 0, a `START` (slot loaded) without `module_id=`,
a `START` (slot loaded) without `func=`, and a line whose verb is none of
LOAD/START/STOP/STATUS.  The replies are `LOAD_ERR code=BAD_PARAMS ...`,
`RESULT status=BAD_PARAMS ...` and `ERROR code=UNKNOWN_COMMAND`, except that a `START`
without `func=` is answered `RESULT status=BAD_PARAMS` only when its `module_id` equals
the current id and the runner is not busy. -/
theorem malformed_command_replied_state_unchanged (sb : Sandbox) (env : LoadEnv)
    (line cmd rest : List Nat) (s : State) (hsplit : split_command line = some (cmd, rest)) :
    (cmd = str "LOAD" → find_param rest (str "size") = none →
      handle_command_line sb env line s =
        { s with uart_tx := s.uart_tx ++ [str "LOAD_ERR code=BAD_PARAMS msg=\"missing size\"\n"] }) ∧
    (cmd = str "LOAD" → find_param rest (str "crc32") = none →
      handle_command_line sb env line s =
        { s with uart_tx := s.uart_tx ++
            [if find_param rest (str "size") = none
             then str "LOAD_ERR code=BAD_PARAMS msg=\"missing size\"\n"
             else str "LOAD_ERR code=BAD_PARAMS msg=\"missing crc32\"\n"] }) ∧
    (cmd = str "LOAD" → ∀ p_size p_crc, find_param rest (str "size") = some p_size →
      find_param rest (str "crc32") = some p_crc → to_u32 (atoi (param_value p_size 16)) = 0 →
      handle_command_line sb env line s =
        { s with uart_tx := s.uart_tx ++ [str "LOAD_ERR code=BAD_PARAMS msg=\"size=0\"\n"] }) ∧
    (cmd = str "START" → s.g_module_loaded = true →
      find_param rest (str "module_id") = none →
      handle_command_line sb env line s =
        { s with uart_tx := s.uart_tx ++
            [str "RESULT status=BAD_PARAMS msg=\"missing module_id\"\n"] }) ∧
    (cmd = str "START" → s.g_module_loaded = true → find_param rest (str "func") = none →
      (∃ reply, handle_command_line sb env line s = { s with uart_tx := s.uart_tx ++ [reply] }) ∧
      (∀ p_mod, find_param rest (str "module_id") = some p_mod →
        param_value p_mod 32 = s.g_current_module_id → s.g_runner_busy = false →
        handle_command_line sb env line s =
          { s with uart_tx := s.uart_tx ++
              [str "RESULT status=BAD_PARAMS msg=\"missing func\"\n"] })) ∧
    (cmd ≠ str "LOAD" → cmd ≠ str "START" → cmd ≠ str "STOP" → cmd ≠ str "STATUS" →
      handle_command_line sb env line s =
        { s with uart_tx := s.uart_tx ++ [str "ERROR code=UNKNOWN_COMMAND\n"] }) := by
  have hne : str "START" ≠ str "LOAD" := by decide
  unfold handle_command_line
  rw [hsplit]
  simp only []
  refine ⟨?_, ?_, ?_, ?_, ?_, ?_⟩
  · intro hc hs
    subst hc
    simp only [if_true, handle_load_cmd, hs, agent_write_str]
  · intro hc hs
    subst hc
    simp only [if_true, handle_load_cmd, hs]
    cases hsz : find_param rest (str "size") <;> simp [agent_write_str]
  · intro hc p_size p_crc h1 h2 h3
    subst hc
    simp only [if_true, handle_load_cmd, h1, h2, h3, agent_write_str]
  · intro hc hl hm
    subst hc
    simp only [hne, if_false, if_true, handle_start_cmd, hl, hm, agent_write_str,
      not_true_eq_false]
  · intro hc hl hf
    subst hc
    simp only [hne, if_false, if_true, handle_start_cmd, hl, hf, agent_write_str,
      not_true_eq_false]
    constructor
    · cases hm : find_param rest (str "module_id") with
      | none => exact ⟨_, rfl⟩
      | some p_mod =>
        simp only []
        by_cases hid : param_value p_mod 32 ≠ s.g_current_module_id
        · rw [if_pos hid]
          exact ⟨_, rfl⟩
        · rw [if_neg hid]
          by_cases hb : s.g_runner_busy = true
          · rw [if_pos hb]
            exact ⟨_, rfl⟩
          · rw [if_neg hb]
            exact ⟨_, rfl⟩
    · intro p_mod hm hid hb
      simp only [hm, hid, hb, ne_eq, not_true_eq_false, if_false, Bool.false_eq_true]
  · intro h1 h2 h3 h4
    simp only [h1, h2, h3, h4, if_false, agent_write_str]

set_option maxRecDepth 1000000 in
/-- C8 (amended) applied to the line `START module_id=m2` with the slot loaded under `m2`. -/
theorem malformed_command_replied_state_unchanged_witness :
    split_command (str "START module_id=m2") = some (str "START", str "module_id=m2") ∧
    demo_loaded.g_module_loaded = true ∧
    find_param (str "module_id=m2") (str "func") = none ∧
    find_param (str "module_id=m2") (str "module_id") = some (str "m2") ∧
    param_value (str "m2") 32 = demo_loaded.g_current_module_id ∧
    demo_loaded.g_runner_busy = false ∧
    handle_command_line demo_sandbox ⟨true, []⟩ (str "START module_id=m2") demo_loaded =
      { demo_loaded with uart_tx := demo_loaded.uart_tx ++
          [str "RESULT status=BAD_PARAMS msg=\"missing func\"\n"] } :=
  ⟨by decide, by decide, by decide, by decide, by decide, by decide,
    ((malformed_command_replied_state_unchanged demo_sandbox ⟨true, []⟩
      (str "START module_id=m2") (str "START") (str "module_id=m2") demo_loaded
      (by decide)).2.2.2.2.1 rfl (by decide) (by decide)).2 (str "m2") (by decide) (by decide)
      (by decide)⟩

/-- C9: `START` rejects by the first failing precondition, in the documented order, and a
rejected `START` changes nothing but the reply written: slot empty gives
`RESULT status=NO_MODULE`; else a missing `module_id` gives `RESULT status=BAD_PARAMS`;
else a `module_id` different from the current id gives
`RESULT status=NO_MODULE msg="module_id mismatch"`; else busy gives `RESULT status=BUSY`;
else a missing `func` gives `RESULT status=BAD_PARAMS`; else an export that is not found
gives `RESULT status=NO_FUNC name=<name>`.  In each case the run request, `busy`,
`stop_requested` and the job semaphore are as before. -/
theorem start_rejections_in_order (sb : Sandbox) (line : List Nat) (s : State) :
    (s.g_module_loaded = false →
      handle_start_cmd sb line s =
        { s with uart_tx := s.uart_tx ++ [str "RESULT status=NO_MODULE\n"] }) ∧
    (s.g_module_loaded = true → find_param line (str "module_id") = none →
      handle_start_cmd sb line s =
        { s with uart_tx := s.uart_tx ++
            [str "RESULT status=BAD_PARAMS msg=\"missing module_id\"\n"] }) ∧
    (s.g_module_loaded = true → ∀ p_mod, find_param line (str "module_id") = some p_mod →
      param_value p_mod 32 ≠ s.g_current_module_id →
      handle_start_cmd sb line s =
        { s with uart_tx := s.uart_tx ++
            [str "RESULT status=NO_MODULE msg=\"module_id mismatch\"\n"] }) ∧
    (s.g_module_loaded = true → ∀ p_mod, find_param line (str "module_id") = some p_mod →
      param_value p_mod 32 = s.g_current_module_id → s.g_runner_busy = true →
      handle_start_cmd sb line s =
        { s with uart_tx := s.uart_tx ++ [str "RESULT status=BUSY\n"] }) ∧
    (s.g_module_loaded = true → ∀ p_mod, find_param line (str "module_id") = some p_mod →
      param_value p_mod 32 = s.g_current_module_id → s.g_runner_busy = false →
      find_param line (str "func") = none →
      handle_start_cmd sb line s =
        { s with uart_tx := s.uart_tx ++
            [str "RESULT status=BAD_PARAMS msg=\"missing func\"\n"] }) ∧
    (s.g_module_loaded = true → ∀ p_mod p_func,
      find_param line (str "module_id") = some p_mod →
      param_value p_mod 32 = s.g_current_module_id → s.g_runner_busy = false →
      find_param line (str "func") = some p_func →
      sb.wasm_runtime_lookup_function s.g_wasm_inst (param_value p_func 64) = NULL →
      handle_start_cmd sb line s =
        { s with uart_tx := s.uart_tx ++
            [str "RESULT status=NO_FUNC name=" ++ param_value p_func 64 ++ str "\n"] }) ∧
    (∀ reply, handle_start_cmd sb line s = { s with uart_tx := s.uart_tx ++ [reply] } →
      (handle_start_cmd sb line s).g_run_req = s.g_run_req ∧
      (handle_start_cmd sb line s).g_runner_busy = s.g_runner_busy ∧
      (handle_start_cmd sb line s).g_stop_requested = s.g_stop_requested ∧
      (handle_start_cmd sb line s).run_sem = s.run_sem) := by
  refine ⟨?_, ?_, ?_, ?_, ?_, ?_, ?_⟩
  · intro hl
    simp [handle_start_cmd, hl, agent_write_str]
  · intro hl hm
    simp [handle_start_cmd, hl, hm, agent_write_str]
  · intro hl p_mod hm hid
    simp [handle_start_cmd, hl, hm, hid, agent_write_str]
  · intro hl p_mod hm hid hb
    simp [handle_start_cmd, hl, hm, hid, hb, agent_write_str]
  · intro hl p_mod hm hid hb hf
    simp [handle_start_cmd, hl, hm, hid, hb, hf, agent_write_str]
  · intro hl p_mod p_func hm hid hb hf hfn
    have hlen := param_value_length p_func 64 (by decide)
    simp only [handle_start_cmd, hl, hm, hid, hb, hf, hfn, agent_write_str, not_true_eq_false,
      if_false, ne_eq, if_true, Bool.false_eq_true, snprintf_no_func _ hlen]
  · intro reply h
    rw [h]
    exact ⟨rfl, rfl, rfl, rfl⟩

set_option maxRecDepth 1000000 in
/-- C9 applied to a second `START` while the first job is pending: the reply is
`RESULT status=BUSY` and nothing else changes. -/
theorem start_rejections_in_order_witness :
    demo_started.g_module_loaded = true ∧
    find_param (str "module_id=m2 func=add args=\"a=1,b=2\"") (str "module_id") =
      some (str "m2 func=add args=\"a=1,b=2\"") ∧
    param_value (str "m2 func=add args=\"a=1,b=2\"") 32 = demo_started.g_current_module_id ∧
    demo_started.g_runner_busy = true ∧
    handle_start_cmd demo_sandbox (str "module_id=m2 func=add args=\"a=1,b=2\"") demo_started =
      { demo_started with uart_tx := demo_started.uart_tx ++ [str "RESULT status=BUSY\n"] } :=
  ⟨by decide, by decide, by decide, by decide,
    (start_rejections_in_order demo_sandbox (str "module_id=m2 func=add args=\"a=1,b=2\"")
      demo_started).2.2.2.1 (by decide) (str "m2 func=add args=\"a=1,b=2\"") (by decide)
      (by decide) (by decide)⟩

/-- C10: `START` success.  With the slot loaded and the runner idle, a `START` line whose
`module_id` equals the current id and whose `func` names an existing export is answered
exactly `START_OK`, and leaves the run request equal to a zeroed record with `func_name`
the first 63 bytes of the `func` value, `argc` the number of parsed arguments (at most 4)
and `argv` the parsed arguments followed by zeros, with `stop_requested = false`,
`busy = true`, the job semaphore raised, and every other field (the module slot included)
unchanged. -/
theorem start_success (sb : Sandbox) (line p_mod p_func : List Nat) (s : State)
    (hl : s.g_module_loaded = true) (hb : s.g_runner_busy = false)
    (hm : find_param line (str "module_id") = some p_mod)
    (hid : param_value p_mod 32 = s.g_current_module_id)
    (hf : find_param line (str "func") = some p_func)
    (hfn : sb.wasm_runtime_lookup_function s.g_wasm_inst (param_value p_func 64) ≠ NULL) :
    handle_start_cmd sb line s =
      { s with
        uart_tx := s.uart_tx ++ [str "START_OK\n"]
        g_run_req :=
          { func_name := (p_func.takeWhile value_char).take 63
            argc := (start_parse_args line).length
            argv := start_parse_args line ++
              List.replicate (4 - (start_parse_args line).length) 0 }
        g_stop_requested := false
        g_runner_busy := true
        run_sem := k_sem_give s.run_sem } ∧
    (start_parse_args line).length ≤ 4 ∧ 0 < k_sem_give s.run_sem := by
  have hlen := start_parse_args_length line
  refine ⟨?_, hlen, ?_⟩
  · simp only [handle_start_cmd, hl, hm, hid, hb, hf, hfn, agent_write_str, not_true_eq_false,
      if_false, ne_eq, Bool.false_eq_true, start_request, strncpy,
      start_request_argv _ hlen]
    simp only [param_value_eq p_func 64 (by decide), List.take_take]
    rfl
  · unfold k_sem_give
    split <;> omega

set_option maxRecDepth 1000000 in
/-- C10 applied to `START module_id=m2 func=add args="a=200,b=26"` after a successful
`LOAD` of module `m2`: the request holds `add` with `argc = 2` and `argv = [200, 26, 0, 0]`. -/
theorem start_success_witness :
    demo_loaded.g_module_loaded = true ∧ demo_loaded.g_runner_busy = false ∧
    find_param (str "module_id=m2 func=add args=\"a=200,b=26\"") (str "module_id") =
      some (str "m2 func=add args=\"a=200,b=26\"") ∧
    param_value (str "m2 func=add args=\"a=200,b=26\"") 32 = demo_loaded.g_current_module_id ∧
    find_param (str "module_id=m2 func=add args=\"a=200,b=26\"") (str "func") =
      some (str "add args=\"a=200,b=26\"") ∧
    demo_sandbox.wasm_runtime_lookup_function demo_loaded.g_wasm_inst
      (param_value (str "add args=\"a=200,b=26\"") 64) ≠ NULL ∧
    start_parse_args (str "module_id=m2 func=add args=\"a=200,b=26\"") = [200, 26] ∧
    (handle_start_cmd demo_sandbox (str "module_id=m2 func=add args=\"a=200,b=26\"") demo_loaded =
      { demo_loaded with
        uart_tx := demo_loaded.uart_tx ++ [str "START_OK\n"]
        g_run_req :=
          { func_name := ((str "add args=\"a=200,b=26\"").takeWhile value_char).take 63
            argc := (start_parse_args (str "module_id=m2 func=add args=\"a=200,b=26\"")).length
            argv := start_parse_args (str "module_id=m2 func=add args=\"a=200,b=26\"") ++
              List.replicate
                (4 - (start_parse_args (str "module_id=m2 func=add args=\"a=200,b=26\"")).length) 0 }
        g_stop_requested := false
        g_runner_busy := true
        run_sem := k_sem_give demo_loaded.run_sem } ∧
    (start_parse_args (str "module_id=m2 func=add args=\"a=200,b=26\"")).length ≤ 4 ∧
    0 < k_sem_give demo_loaded.run_sem) :=
  ⟨by decide, by decide, by decide, by decide, by decide, by decide, by decide,
    start_success demo_sandbox (str "module_id=m2 func=add args=\"a=200,b=26\"")
      (str "m2 func=add args=\"a=200,b=26\"") (str "add args=\"a=200,b=26\"") demo_loaded
      (by decide) (by decide) (by decide) (by decide) (by decide) (by decide)⟩

/-- C11: argument parsing.  Let the `args` parameter of a `START` line be the quoted text
`"t1,t2,...,tk"` (`k ≥ 0`), at most 63 bytes between the quotes, every token `ti` being
`name=value` with a name free of `,`, `=` and `"` and `value` the decimal text of an
integer `v` with `-2^31 ≤ v < 2^31`.  Then the values collected by `START` are those of
the first `min (k, 4)` tokens in textual order, each converted to `uint32_t`, that is `v`
for `v ≥ 0` and `v + 2^32` for `v < 0`; tokens after the fourth are ignored; and the run
request built from them has `argc = min (k, 4)` and these values in `argv`, followed by
zeros. -/
theorem start_args_parsed (line rest : List Nat) (toks : List (List Nat × Int))
    (hfind : find_param line (str "args") =
      some (34 :: comma_join (toks.map arg_text) ++ 34 :: rest))
    (hlen : (comma_join (toks.map arg_text)).length ≤ 63)
    (hname : ∀ a ∈ toks, ∀ c ∈ a.1, c ≠ 44 ∧ c ≠ 61 ∧ c ≠ 34)
    (hval : ∀ a ∈ toks, -(2 ^ 31 : Int) ≤ a.2 ∧ a.2 < 2 ^ 31) :
    start_parse_args line = (toks.take 4).map (fun a => to_u32 a.2) ∧
    (start_parse_args line).length = min toks.length 4 ∧
    (∀ a ∈ toks, (to_u32 a.2 : Int) = if a.2 < 0 then a.2 + 2 ^ 32 else a.2) ∧
    (∀ func_name, start_request func_name (start_parse_args line) =
      { func_name := func_name.take 63
        argc := min toks.length 4
        argv := (toks.take 4).map (fun a => to_u32 a.2) ++
          List.replicate (4 - min toks.length 4) 0 }) := by
  have hq : ∀ c ∈ comma_join (toks.map arg_text), c ≠ 34 := by
    apply comma_join_chars
    intro t ht
    obtain ⟨a, ha, rfl⟩ := List.mem_map.mp ht
    exact arg_text_chars a 34 (Or.inr rfl) (fun c hc => (hname a ha c hc).2.2)
  have hbuf := start_args_buf_quoted line _ rest hfind hlen hq
  have hk : toks.length ≤ (comma_join (toks.map arg_text)).length := by
    have := comma_join_length (toks.map arg_text) (by
      intro t ht
      obtain ⟨a, _, rfl⟩ := List.mem_map.mp ht
      exact arg_text_ne_nil a)
    simpa using this
  have hargs : start_parse_args line = (toks.take 4).map (fun a => to_u32 a.2) := by
    unfold start_parse_args
    rw [hbuf]
    simp only []
    rw [start_args_loop_tokens toks _ [] (by omega) (by simp)
      (fun a ha c hc => ⟨(hname a ha c hc).1, (hname a ha c hc).2.1⟩) hval]
    simp [MAX_CALL_ARGS]
  have hl : (start_parse_args line).length = min toks.length 4 := by
    rw [hargs]
    simp [Nat.min_comm]
  refine ⟨hargs, hl, fun a ha => to_u32_twos_complement a.2 (hval a ha).1 (hval a ha).2, ?_⟩
  intro func_name
  have hle : (start_parse_args line).length ≤ MAX_CALL_ARGS := start_parse_args_length line
  unfold start_request
  rw [start_request_argv _ hle, hl, ← hargs]
  simp [strncpy, MAX_CALL_ARGS]

set_option maxRecDepth 1000000 in
/-- C11 applied to `START module_id=m2 func=add args="a=200,b=26"`: the values are 200 and
26 and `argc = 2`; a negative value and a fifth token are evaluated as well. -/
theorem start_args_parsed_witness :
    start_parse_args (str "module_id=m2 func=add args=\"a=200,b=26\"") = [200, 26] ∧
    (start_request (str "add")
      (start_parse_args (str "module_id=m2 func=add args=\"a=200,b=26\""))).argc = 2 ∧
    start_parse_args (str "module_id=m2 func=f args=\"x=-1,y=2,z=3,u=4,v=5\"") =
      [4294967295, 2, 3, 4] :=
  ⟨(start_args_parsed (str "module_id=m2 func=add args=\"a=200,b=26\"") []
      [(str "a", 200), (str "b", 26)] (by decide) (by decide) (by decide) (by decide)).1,
   by decide, by decide⟩

/-- C12: `STOP` reply and effect, for every state and line.  If `busy` is false the reply
is `STOP_OK status=IDLE`; else if `module_id` is missing or its value differs from the
current module id the reply is `STOP_OK status=NO_JOB`; otherwise `stop_requested` becomes
true and the reply is `STOP_OK status=PENDING`.  In the first two cases the state is
unchanged, and in every case no field other than `stop_requested` (and the UART output,
which receives the reply) changes. -/
theorem stop_reply_and_effect (line : List Nat) (s : State) :
    (s.g_runner_busy = false →
      handle_stop_cmd line s = { s with uart_tx := s.uart_tx ++ [str "STOP_OK status=IDLE\n"] }) ∧
    (s.g_runner_busy = true → find_param line (str "module_id") = none →
      handle_stop_cmd line s =
        { s with uart_tx := s.uart_tx ++ [str "STOP_OK status=NO_JOB\n"] }) ∧
    (s.g_runner_busy = true → ∀ p_mod, find_param line (str "module_id") = some p_mod →
      param_value p_mod 32 ≠ s.g_current_module_id →
      handle_stop_cmd line s =
        { s with uart_tx := s.uart_tx ++ [str "STOP_OK status=NO_JOB\n"] }) ∧
    (s.g_runner_busy = true → ∀ p_mod, find_param line (str "module_id") = some p_mod →
      param_value p_mod 32 = s.g_current_module_id →
      handle_stop_cmd line s =
        { s with uart_tx := s.uart_tx ++ [str "STOP_OK status=PENDING\n"],
                 g_stop_requested := true }) ∧
    (∃ reply, { handle_stop_cmd line s with g_stop_requested := s.g_stop_requested } =
      { s with uart_tx := s.uart_tx ++ [reply] }) := by
  refine ⟨?_, ?_, ?_, ?_, ?_⟩
  · intro hb
    simp [handle_stop_cmd, hb, agent_write_str]
  · intro hb hm
    simp [handle_stop_cmd, hb, hm, agent_write_str]
  · intro hb p_mod hm hid
    simp [handle_stop_cmd, hb, hm, hid, agent_write_str]
  · intro hb p_mod hm hid
    simp [handle_stop_cmd, hb, hm, hid, agent_write_str]
  · unfold handle_stop_cmd
    split
    · exact ⟨_, rfl⟩
    · split
      · exact ⟨_, rfl⟩
      · split
        · exact ⟨_, rfl⟩
        · exact ⟨_, rfl⟩

set_option maxRecDepth 1000000 in
/-- C12 applied to `STOP module_id=m2` while the job started on module `m2` is pending. -/
theorem stop_reply_and_effect_witness :
    demo_started.g_runner_busy = true ∧
    find_param (str "module_id=m2") (str "module_id") = some (str "m2") ∧
    param_value (str "m2") 32 = demo_started.g_current_module_id ∧
    handle_stop_cmd (str "module_id=m2") demo_started =
      { demo_started with uart_tx := demo_started.uart_tx ++ [str "STOP_OK status=PENDING\n"],
                          g_stop_requested := true } :=
  ⟨by decide, by decide, by decide,
    (stop_reply_and_effect (str "module_id=m2") demo_started).2.2.2.1 (by decide) (str "m2")
      (by decide) (by decide)⟩

/-- C13: `STOP` is idempotent.  For every state and `STOP` line, handling the line twice
in succession leaves the same agent state as handling it once (the UART output apart,
which holds one more reply), the second reply is the same line as the first, and so a
first `STOP_OK status=PENDING` is followed by a second `STOP_OK status=PENDING`. -/
theorem stop_idempotent (line : List Nat) (s : State) :
    { handle_stop_cmd line (handle_stop_cmd line s) with
        uart_tx := (handle_stop_cmd line s).uart_tx } = handle_stop_cmd line s ∧
    (∃ reply, (handle_stop_cmd line s).uart_tx = s.uart_tx ++ [reply] ∧
      (handle_stop_cmd line (handle_stop_cmd line s)).uart_tx = s.uart_tx ++ [reply, reply]) ∧
    ((handle_stop_cmd line s).uart_tx = s.uart_tx ++ [str "STOP_OK status=PENDING\n"] →
      (handle_stop_cmd line (handle_stop_cmd line s)).uart_tx =
        s.uart_tx ++ [str "STOP_OK status=PENDING\n", str "STOP_OK status=PENDING\n"]) := by
  have key : { handle_stop_cmd line (handle_stop_cmd line s) with
        uart_tx := (handle_stop_cmd line s).uart_tx } = handle_stop_cmd line s ∧
      ∃ reply, (handle_stop_cmd line s).uart_tx = s.uart_tx ++ [reply] ∧
        (handle_stop_cmd line (handle_stop_cmd line s)).uart_tx = s.uart_tx ++ [reply, reply] := by
    by_cases hb : s.g_runner_busy = true
    · cases hm : find_param line (str "module_id") with
      | none =>
        refine ⟨?_, str "STOP_OK status=NO_JOB\n", ?_, ?_⟩ <;>
          simp [handle_stop_cmd, hb, hm, agent_write_str]
      | some p_mod =>
        by_cases hid : param_value p_mod 32 = s.g_current_module_id
        · refine ⟨?_, str "STOP_OK status=PENDING\n", ?_, ?_⟩ <;>
            simp [handle_stop_cmd, hb, hm, hid, agent_write_str]
        · refine ⟨?_, str "STOP_OK status=NO_JOB\n", ?_, ?_⟩ <;>
            simp [handle_stop_cmd, hb, hm, hid, agent_write_str]
    · have hb' : s.g_runner_busy = false := by simpa using hb
      refine ⟨?_, str "STOP_OK status=IDLE\n", ?_, ?_⟩ <;>
        simp [handle_stop_cmd, hb', agent_write_str]
  refine ⟨key.1, key.2, ?_⟩
  intro h
  obtain ⟨reply, h1, h2⟩ := key.2
  rw [h1] at h
  have : reply = str "STOP_OK status=PENDING\n" := by
    have := List.append_cancel_left h
    simpa using this
  rw [h2, this]

set_option maxRecDepth 1000000 in
/-- C13 applied to `STOP module_id=m2` sent twice while the job started on module `m2` is
pending: both replies are `STOP_OK status=PENDING`. -/
theorem stop_idempotent_witness :
    (handle_stop_cmd (str "module_id=m2") demo_started).uart_tx =
      demo_started.uart_tx ++ [str "STOP_OK status=PENDING\n"] ∧
    (handle_stop_cmd (str "module_id=m2")
      (handle_stop_cmd (str "module_id=m2") demo_started)).uart_tx =
      demo_started.uart_tx ++ [str "STOP_OK status=PENDING\n", str "STOP_OK status=PENDING\n"] :=
  ⟨by decide, (stop_idempotent (str "module_id=m2") demo_started).2.2 (by decide)⟩

set_option maxRecDepth 1000000 in
/-- C14, as stated, fails: in the state reached by a successful `LOAD`, a successful
`START` and a `LOAD` that times out, `busy` is true and the slot is empty, and `STATUS`
answers `STATUS_OK modules="none" runner=IDLE`, not `runner=RUNNING`. -/
theorem status_reports_idle_while_busy :
    Reachable demo_sandbox demo_busy_unloaded ∧
    demo_busy_unloaded.g_runner_busy = true ∧ demo_busy_unloaded.g_module_loaded = false ∧
    (handle_command_line demo_sandbox ⟨true, []⟩ (str "STATUS") demo_busy_unloaded).uart_tx =
      demo_busy_unloaded.uart_tx ++ [str "STATUS_OK modules=\"none\" runner=IDLE\n"] ∧
    str "STATUS_OK modules=\"none\" runner=IDLE\n" ≠
      str "STATUS_OK modules=\"none\" runner=RUNNING\n" :=
  ⟨Reachable.command _ _ (Reachable.command _ _ (Reachable.command _ _ Reachable.init)),
    by decide, by decide, by decide, by decide⟩

/-- C14 (amended): for every agent state, `STATUS` changes nothing but the UART output, to
which it appends one reply: `STATUS_OK modules="none" runner=IDLE` when the slot is empty
(whatever `busy` is), and `STATUS_OK modules="wasm_module(loaded)" runner=<r>` when the
slot is loaded, `r` being RUNNING if `busy` is true and IDLE otherwise. -/
theorem status_reply (sb : Sandbox) (env : LoadEnv) (s : State) :
    handle_command_line sb env (str "STATUS") s =
      { s with uart_tx := s.uart_tx ++
          [if s.g_module_loaded = false then str "STATUS_OK modules=\"none\" runner=IDLE\n"
           else if s.g_runner_busy = true then
             str "STATUS_OK modules=\"wasm_module(loaded)\" runner=RUNNING\n"
           else str "STATUS_OK modules=\"wasm_module(loaded)\" runner=IDLE\n"] } := by
  have h1 : snprintf 128 (str "STATUS_OK modules=\"wasm_module(loaded)\" runner=" ++
      (str "RUNNING" ++ str "\n")) =
      str "STATUS_OK modules=\"wasm_module(loaded)\" runner=RUNNING\n" := by decide
  have h2 : snprintf 128 (str "STATUS_OK modules=\"wasm_module(loaded)\" runner=" ++
      (str "IDLE" ++ str "\n")) =
      str "STATUS_OK modules=\"wasm_module(loaded)\" runner=IDLE\n" := by decide
  rw [handle_status_line]
  unfold handle_status_cmd
  cases hl : s.g_module_loaded <;> cases hb : s.g_runner_busy <;>
    simp [agent_write_str, hl, hb, h1, h2]

/-- C15: binary reception.  Take a state as `LOAD` leaves it when it has switched the RX
interrupt to binary mode: RX state BINARY, `g_bin_buf` pointing to a live block of
`n ≥ 1` bytes, `g_bin_expected = n`, `g_bin_received = 0`, `bin_sem = 0`.  For every
sequence of `k ≤ n` bytes (no byte value excepted, `\n` and `\r` included) handled by
the RX interrupt, the block holds exactly these bytes at indices `0 .. k-1` (its other
cells and its size as before), the line accumulator, its position and the line queue are
untouched; while `k < n` the RX state is still BINARY and the semaphore is not given; at
`k = n` the RX state is LINE and the semaphore has been given (count 1). -/
theorem binary_reception (s : State) (h0 h1 : List (Option (List Nat))) (blk bytes : List Nat)
    (hst : s.g_rx_state = rx_state_t.RX_STATE_BINARY) (hp : s.g_bin_buf = h0.length + 1)
    (hh : s.heap = h0 ++ some blk :: h1) (hr : s.g_bin_received = 0)
    (he : s.g_bin_expected = blk.length) (hn : 1 ≤ blk.length) (hsem : s.bin_sem = 0)
    (hk : bytes.length ≤ blk.length) :
    let s' := serial_cb s bytes
    heap_read s'.heap s.g_bin_buf = bytes ++ blk.drop bytes.length ∧
    s'.heap = h0 ++ some (bytes ++ blk.drop bytes.length) :: h1 ∧
    s'.rx_buf = s.rx_buf ∧ s'.rx_buf_pos = s.rx_buf_pos ∧ s'.uart_msgq = s.uart_msgq ∧
    s'.g_bin_received = bytes.length ∧
    (bytes.length < blk.length →
      s'.g_rx_state = rx_state_t.RX_STATE_BINARY ∧ s'.bin_sem = 0) ∧
    (bytes.length = blk.length →
      s'.g_rx_state = rx_state_t.RX_STATE_LINE ∧ s'.bin_sem = 1) := by
  intro s'
  have hs' : s' = _ := serial_cb_binary_at bytes [] blk h0 h1 s hst hp (by simpa using hh)
    (by simpa using hr) (by simpa using he) hk
  by_cases hfull : bytes ≠ [] ∧ bytes.length = blk.length
  · rw [if_pos hfull] at hs'
    have hd : blk.drop bytes.length = [] := by
      rw [hfull.2]
      simp
    rw [hs', hd, hp]
    simp only [List.nil_append, List.append_nil, heap_read_at, List.length_nil, Nat.zero_add,
      hsem, k_sem_give, true_and]
    refine ⟨fun h => absurd hfull.2 (Nat.ne_of_lt h), fun _ => by decide⟩
  · rw [if_neg hfull] at hs'
    have hlt : bytes.length < blk.length := by
      rcases Nat.lt_or_eq_of_le hk with h | h
      · exact h
      · exfalso
        apply hfull
        refine ⟨?_, h⟩
        intro hb
        rw [hb] at h
        simp at h
        omega
    rw [hs', hp]
    simp only [List.nil_append, heap_read_at, List.length_nil, Nat.zero_add, true_and]
    refine ⟨fun _ => ⟨hst, hsem⟩, fun h => absurd h (Nat.ne_of_lt hlt)⟩

/-- C15 applied to the state in which `LOAD size=4` waits for its payload, with the two
bytes `\n`, `\r` received: they are in the block and the RX state is still BINARY. -/
theorem binary_reception_witness :
    heap_read (serial_cb (load_waited init (str "5f4049db") 4 [0, 0, 0, 0] 0
        rx_state_t.RX_STATE_BINARY) [10, 13]).heap 1 = [10, 13, 0, 0] ∧
    (serial_cb (load_waited init (str "5f4049db") 4 [0, 0, 0, 0] 0
        rx_state_t.RX_STATE_BINARY) [10, 13]).g_rx_state = rx_state_t.RX_STATE_BINARY :=
  have h := binary_reception (load_waited init (str "5f4049db") 4 [0, 0, 0, 0] 0
      rx_state_t.RX_STATE_BINARY) [] [] [0, 0, 0, 0] [10, 13]
    rfl rfl rfl rfl rfl (by decide) rfl (by decide)
  ⟨h.1, (h.2.2.2.2.2.2.1 (by decide)).1⟩

set_option maxRecDepth 1000000 in
/-- C16: in LINE state with line position 0 a received `\n` (or `\r`) is not ignored: the
test `(c == '\n' || c == '\r') && rx_buf_pos > 0` fails and the byte falls into the
`else if` branch, which stores it in the line buffer and advances the position to 1.
After `STATUS\r\n` + `STATUS\r` the second posted line is `\nSTATUS`, which the COMM
thread answers with `ERROR code=UNKNOWN_COMMAND`. -/
theorem newline_at_position_zero_is_stored :
    init.g_rx_state = rx_state_t.RX_STATE_LINE ∧ init.rx_buf_pos = 0 ∧
    (serial_cb_byte init 10).rx_buf_pos = 1 ∧
    (serial_cb_byte init 10).rx_buf ≠ init.rx_buf ∧
    (serial_cb_byte init 10).rx_buf.getD 0 0 = 10 ∧
    (serial_cb_byte init 13).rx_buf_pos = 1 ∧
    (serial_cb_byte init 13).rx_buf.getD 0 0 = 13 ∧
    (serial_cb init (str "STATUS\r\nSTATUS\r")).uart_msgq.map cstr =
      [str "STATUS", str "\nSTATUS"] ∧
    (comm_thread_step demo_sandbox ⟨true, []⟩ (comm_thread_step demo_sandbox ⟨true, []⟩
      (serial_cb init (str "STATUS\r\nSTATUS\r")))).uart_tx =
      [str "STATUS_OK modules=\"none\" runner=IDLE\n", str "ERROR code=UNKNOWN_COMMAND\n"] := by
  refine ⟨rfl, rfl, ?_, ?_, ?_, ?_, ?_, ?_, ?_⟩ <;> decide

/-- C17: line framing.  In LINE state with line position 0 and the 256-byte line buffer,
for every sequence of `n ≥ 1` bytes none of which is `\n` or `\r`, followed by one `\n`
or `\r`: nothing is posted before the terminator; at the terminator exactly one message
is put on the line queue (appended if fewer than 4 lines are queued, dropped otherwise);
the message is the 256-byte buffer that starts with the first `min (n, 255)` bytes
followed by a NUL, so the line read from it is these bytes when none of them is NUL; the
line position is back to 0, and nothing else changes. -/
theorem line_framing (s : State) (bytes : List Nat) (term : Nat)
    (hst : s.g_rx_state = rx_state_t.RX_STATE_LINE) (hpos : s.rx_buf_pos = 0)
    (hlen : s.rx_buf.length = LINE_BUF_SIZE) (hn : 1 ≤ bytes.length)
    (hb : ∀ b ∈ bytes, b ≠ 10 ∧ b ≠ 13) (ht : term = 10 ∨ term = 13) :
    let msg := bytes.take 255 ++ 0 :: s.rx_buf.drop (min bytes.length 255 + 1)
    (serial_cb s bytes).uart_msgq = s.uart_msgq ∧
    serial_cb s (bytes ++ [term]) =
      { s with rx_buf := msg,
               uart_msgq := if s.uart_msgq.length < 4 then s.uart_msgq ++ [msg] else s.uart_msgq,
               rx_buf_pos := 0 } ∧
    msg.length = 256 ∧ (bytes.take 255).length = min bytes.length 255 ∧
    ((∀ b ∈ bytes, b ≠ 0) → cstr msg = bytes.take 255) := by
  intro msg
  have hne : s.rx_buf ≠ [] := by
    intro h
    rw [h] at hlen
    simp [LINE_BUF_SIZE] at hlen
  have hacc := serial_cb_line_accumulate bytes [] s.rx_buf s hst rfl (by simpa using hpos)
    (by simpa [LINE_BUF_SIZE] using hlen) hne hb
  simp only [List.length_nil, Nat.sub_zero, List.nil_append, Nat.zero_add] at hacc
  have hlen2 : s.rx_buf.length = 256 := by simpa [LINE_BUF_SIZE] using hlen
  have htk : (bytes.take 255).length = min bytes.length 255 := by
    simp [Nat.min_comm]
  have hdrop : s.rx_buf.drop (min bytes.length 255) ≠ [] := by
    intro h
    have := congrArg List.length h
    simp only [List.length_drop, List.length_nil, hlen2] at this
    omega
  have hmsg : msg.length = 256 := by
    simp only [msg, List.length_append, List.length_cons, List.length_drop, htk, hlen2]
    omega
  refine ⟨by rw [hacc], ?_, hmsg, htk, ?_⟩
  · rw [serial_cb_append, hacc]
    have hpos2 : 0 < min bytes.length 255 := by omega
    have hset : (bytes.take 255 ++ s.rx_buf.drop (min bytes.length 255)).set
        (min bytes.length 255) 0 = msg := by
      have := set_at_length (bytes.take 255) (s.rx_buf.drop (min bytes.length 255)) hdrop 0
      rw [htk] at this
      rw [this]
      simp [msg, List.tail_drop]
    simp only [serial_cb, List.foldl_cons, List.foldl_nil]
    unfold serial_cb_byte
    simp only [hst, ht, hpos2, gt_iff_lt, and_self, if_true, hset, k_msgq_put, MSGQ_MAX_MSGS]
  · intro hz
    exact cstr_append_zero _ _ (fun x hx => hz x (List.mem_of_mem_take hx))

set_option maxRecDepth 1000000 in
/-- C17 applied to the bytes `STOP\n` received in the initial state. -/
theorem line_framing_witness :
    serial_cb init (str "STOP\n") =
      { init with rx_buf := str "STOP" ++ 0 :: init.rx_buf.drop 5,
                  uart_msgq := [str "STOP" ++ 0 :: init.rx_buf.drop 5],
                  rx_buf_pos := 0 } :=
  (line_framing init (str "STOP") 10 rfl rfl rfl (by decide) (by decide) (by decide)).2.1

set_option maxRecDepth 1000000 in
/-- C18, as stated, fails: with `LOAD size=4` waiting for its payload, a fifth byte `A`
delivered in the same burst is stored in the line accumulator (position 1 instead of 0),
and the surplus bytes `STOP\n` are posted to the line queue as the line `STOP`. -/
theorem surplus_bytes_enter_line_framer :
    (serial_cb (load_waited init (str "5f4049db") 4 [0, 0, 0, 0] 0 rx_state_t.RX_STATE_BINARY)
      demo_image).rx_buf_pos = 0 ∧
    (serial_cb (load_waited init (str "5f4049db") 4 [0, 0, 0, 0] 0 rx_state_t.RX_STATE_BINARY)
      (demo_image ++ [65])).rx_buf_pos = 1 ∧
    (serial_cb (load_waited init (str "5f4049db") 4 [0, 0, 0, 0] 0 rx_state_t.RX_STATE_BINARY)
      (demo_image ++ [65])).rx_buf.getD 0 0 = 65 ∧
    (handle_command_line demo_sandbox ⟨true, demo_image⟩
      (str "LOAD module_id=m2 size=4 crc32=5f4049db") init).uart_msgq = [] ∧
    (handle_command_line demo_sandbox ⟨true, demo_image ++ str "STOP\n"⟩
      (str "LOAD module_id=m2 size=4 crc32=5f4049db") init).uart_msgq.map cstr = [str "STOP"] ∧
    (handle_command_line demo_sandbox ⟨true, demo_image ++ str "STOP\n"⟩
      (str "LOAD module_id=m2 size=4 crc32=5f4049db") init).uart_tx.getLast? =
      some (str "LOAD_OK\n") := by
  refine ⟨?_, ?_, ?_, ?_, ?_, ?_⟩ <;> decide

/-- C18 (amended): surplus bytes are handled as line input.  Take a state as `LOAD` leaves
it when it has switched the RX interrupt to binary mode (RX state BINARY, `g_bin_buf`
pointing to a live block of `n ≥ 1` bytes, `g_bin_expected = n`, `g_bin_received = 0`).
When the `n` payload bytes and then further bytes are delivered in one burst, the bytes
after the `n`-th leave the binary buffer (and the whole heap), the received count and
the semaphore as the `n`-th byte left them, and the RX state is LINE; on the line
accumulator, its position and the line queue they act exactly as the same bytes
received in LINE state would. -/
theorem surplus_bytes_are_line_input (s : State) (h0 h1 : List (Option (List Nat)))
    (blk image extra : List Nat)
    (hst : s.g_rx_state = rx_state_t.RX_STATE_BINARY) (hp : s.g_bin_buf = h0.length + 1)
    (hh : s.heap = h0 ++ some blk :: h1) (hr : s.g_bin_received = 0)
    (he : s.g_bin_expected = blk.length) (hn : 1 ≤ blk.length)
    (hi : image.length = blk.length) :
    let s' := serial_cb s (image ++ extra)
    let t := serial_cb { s with g_rx_state := rx_state_t.RX_STATE_LINE } extra
    heap_read s'.heap s.g_bin_buf = image ∧ s'.heap = (serial_cb s image).heap ∧
    s'.g_bin_received = blk.length ∧ s'.bin_sem = (serial_cb s image).bin_sem ∧
    s'.bin_sem = k_sem_give s.bin_sem ∧
    s'.g_rx_state = rx_state_t.RX_STATE_LINE ∧
    s'.rx_buf = t.rx_buf ∧ s'.rx_buf_pos = t.rx_buf_pos ∧ s'.uart_msgq = t.uart_msgq := by
  intro s' t
  have hne : image ≠ [] := by
    intro h
    rw [h] at hi
    simp at hi
    omega
  have hB := serial_cb_binary_at image [] blk h0 h1 s hst hp (by simpa using hh)
    (by simpa using hr) (by simpa using he) (Nat.le_of_eq hi)
  rw [if_pos ⟨hne, hi⟩] at hB
  simp only [List.nil_append, List.length_nil, Nat.zero_add] at hB
  have hBl : (serial_cb s image).g_rx_state = rx_state_t.RX_STATE_LINE := by rw [hB]
  have hF := serial_cb_line_frame (serial_cb s image) extra hBl
  have hS := serial_cb_line_sim extra (serial_cb s image)
    { s with g_rx_state := rx_state_t.RX_STATE_LINE } hBl rfl
    (by rw [hB]) (by rw [hB]) (by rw [hB])
  have hs' : s' = serial_cb (serial_cb s image) extra := serial_cb_append s image extra
  unfold line_frame at hF
  rw [hs']
  refine ⟨?_, hF.2.1, ?_, hF.2.2.2.2.2, ?_, hF.1, hS.1, hS.2.1, hS.2.2⟩
  · rw [hF.2.1, hB, hp]
    exact heap_read_at h0 h1 image
  · rw [hF.2.2.2.2.1, hB, hi]
  · rw [hF.2.2.2.2.2, hB]

set_option maxRecDepth 1000000 in
/-- C18 (amended) applied to the four payload bytes followed by `STOP\n`: the line queue is
the one that `STOP\n` produces in LINE state. -/
theorem surplus_bytes_are_line_input_witness :
    (serial_cb (load_waited init (str "5f4049db") 4 [0, 0, 0, 0] 0 rx_state_t.RX_STATE_BINARY)
      (demo_image ++ str "STOP\n")).uart_msgq =
    (serial_cb { load_waited init (str "5f4049db") 4 [0, 0, 0, 0] 0 rx_state_t.RX_STATE_BINARY
      with g_rx_state := rx_state_t.RX_STATE_LINE } (str "STOP\n")).uart_msgq :=
  (surplus_bytes_are_line_input (load_waited init (str "5f4049db") 4 [0, 0, 0, 0] 0
      rx_state_t.RX_STATE_BINARY) [] [] [0, 0, 0, 0] demo_image (str "STOP\n")
    rfl rfl rfl rfl rfl (by decide) rfl).2.2.2.2.2.2.2.2

/-- C19: queue bound.  In every state of the running agent (any interleaving of received
bytes, COMM loop iterations and runner iterations from the initial state) the line queue
holds at most 4 lines.  When a line terminator arrives in LINE state with at least one
byte accumulated while 4 lines are queued, the new line is dropped: the queue is
exactly as before (the 4 lines, in order), and the line position is reset to 0. -/
theorem queue_bound (sb : Sandbox) :
    (∀ s, Running sb s → s.uart_msgq.length ≤ MSGQ_MAX_MSGS) ∧ MSGQ_MAX_MSGS = 4 ∧
    (∀ s c, s.g_rx_state = rx_state_t.RX_STATE_LINE → 0 < s.rx_buf_pos →
      c = 10 ∨ c = 13 → s.uart_msgq.length = 4 →
      (serial_cb_byte s c).uart_msgq = s.uart_msgq ∧ (serial_cb_byte s c).rx_buf_pos = 0) := by
  refine ⟨running_msgq_bound sb, rfl, ?_⟩
  intro s c hst hpos hc hq
  unfold serial_cb_byte
  simp [hst, hc, hpos, k_msgq_put, hq, MSGQ_MAX_MSGS]

set_option maxRecDepth 1000000 in
/-- C19 applied to the state after the lines `A`, `B`, `C`, `D` and the byte `E`: the
terminator of the fifth line leaves the four queued lines and resets the position. -/
theorem queue_bound_witness :
    (serial_cb init (str "A\nB\nC\nD\nE")).uart_msgq.length = 4 ∧
    (serial_cb_byte (serial_cb init (str "A\nB\nC\nD\nE")) 10).uart_msgq =
      (serial_cb init (str "A\nB\nC\nD\nE")).uart_msgq ∧
    (serial_cb_byte (serial_cb init (str "A\nB\nC\nD\nE")) 10).rx_buf_pos = 0 ∧
    (serial_cb_byte (serial_cb init (str "A\nB\nC\nD\nE")) 10).uart_msgq.length ≤ 4 :=
  have h := (queue_bound demo_sandbox).2.2 (serial_cb init (str "A\nB\nC\nD\nE")) 10
    (by decide) (by decide) (by decide) (by decide)
  ⟨by decide, h.1, h.2,
   (queue_bound demo_sandbox).1 _ (Running.rx [10] (Running.rx (str "A\nB\nC\nD\nE") Running.init))⟩

set_option maxRecDepth 1000000 in
/-- C20, as stated, fails for a long line: `out` has 192 bytes, so `snprintf` keeps the
first 191 bytes.  With a function name of 63 bytes and an exception text of 100 bytes
the EXCEPTION line is cut inside the message: it is 191 bytes long, ends in a byte of
the message, and has neither the closing quote nor the newline. -/
theorem exception_line_is_cut :
    runner_result_line ⟨⟨List.replicate 63 102, 0, [0, 0, 0, 0]⟩, 3, 1, 9⟩
        ⟨false, 0, some (List.replicate 100 101)⟩ false ≠
      str "RESULT status=EXCEPTION func=" ++ List.replicate 63 102 ++ str " msg=\"" ++
        List.replicate 100 101 ++ str "\"\n" ∧
    (runner_result_line ⟨⟨List.replicate 63 102, 0, [0, 0, 0, 0]⟩, 3, 1, 9⟩
        ⟨false, 0, some (List.replicate 100 101)⟩ false).length = 191 ∧
    (runner_result_line ⟨⟨List.replicate 63 102, 0, [0, 0, 0, 0]⟩, 3, 1, 9⟩
        ⟨false, 0, some (List.replicate 100 101)⟩ false).getLast? = some 101 := by
  refine ⟨?_, ?_, ?_⟩ <;> decide

/-- C20 (amended): the RESULT line of a job.  Let the runner have taken a job (module
loaded, function found, exec env created) whose function name has at most 63 bytes, as
`START` stores it, and let `s` be the state when the guest call returns.  The part of
the iteration before the call writes nothing to the UART; the part after the call
appends exactly one line, destroys the exec env and clears `busy` and `stop_requested`,
and changes nothing else.  The line is: if the call reports failure,
`RESULT status=EXCEPTION func=<name> msg="<exception or <none>>"` cut to its first 191
bytes (the whole line when name and exception together have at most 154 bytes);
else if `stop_requested` is set at return, `RESULT status=STOPPED func=<name>`, whatever
the guest returned and whatever the result arity; else if the result arity is positive,
`RESULT status=OK func=<name> ret_i32=<argv[0] as unsigned 32-bit decimal>`; else
`RESULT status=OK func=<name>`. -/
theorem runner_emits_one_result_line (sb : Sandbox) (s0 s1 s : State) (job : Job)
    (run : GuestRun)
    (hb : runner_job_begin sb s0 = (s1, some job))
    (hname : s0.g_run_req.func_name.length ≤ 63) :
    let name := s0.g_run_req.func_name
    let exc := match run.exception with
      | some e => e
      | none => str "<none>"
    let exception_line :=
      str "RESULT status=EXCEPTION func=" ++ name ++ str " msg=\"" ++ exc ++ str "\"\n"
    let line :=
      if run.ok = false then exception_line.take 191
      else if s.g_stop_requested = true then str "RESULT status=STOPPED func=" ++ name ++ str "\n"
      else if 0 < sb.wasm_func_get_result_count job.fn s0.g_wasm_inst then
        str "RESULT status=OK func=" ++ name ++ str " ret_i32=" ++ utoa (run.argv0 % 2 ^ 32) ++
          str "\n"
      else str "RESULT status=OK func=" ++ name ++ str "\n"
    s1.uart_tx = s0.uart_tx ∧
    runner_job_end job run s =
      { s with uart_tx := s.uart_tx ++ [line],
               trace := s.trace ++ [Event.wasm_runtime_destroy_exec_env job.exec_env],
               g_runner_busy := false, g_stop_requested := false } ∧
    (name.length + exc.length ≤ 154 → exception_line.take 191 = exception_line) := by
  intro name exc exception_line line
  obtain ⟨hreq, -, hrc, -, -, -, -, htx⟩ := runner_job_begin_some sb s0 s1 job hb
  have hu := utoa_length (run.argv0 % 2 ^ 32) (Nat.mod_lt _ (by norm_num))
  have e1 : (str "RESULT status=EXCEPTION func=").length = 29 := by decide
  have e2 : (str " msg=\"").length = 6 := by decide
  have e3 : (str "\"\n").length = 2 := by decide
  have e4 : (str "RESULT status=STOPPED func=").length = 27 := by decide
  have e5 : (str "\n").length = 1 := by decide
  have e6 : (str "RESULT status=OK func=").length = 22 := by decide
  have e7 : (str " ret_i32=").length = 9 := by decide
  refine ⟨htx, ?_, ?_⟩
  · have hline : runner_result_line job run s.g_stop_requested = line := by
      unfold runner_result_line
      simp only [hreq, hrc, line, exception_line, exc, name]
      cases hok : run.ok
      · simp only [Bool.false_eq_true, not_false_eq_true, if_true, snprintf]
      · simp only [not_true_eq_false, if_false, Bool.true_eq_false, gt_iff_lt]
        split
        · apply snprintf_fits
          simp only [List.length_append, e4, e5]
          omega
        · split
          · apply snprintf_fits
            simp only [List.length_append, e6, e7, e5]
            omega
          · apply snprintf_fits
            simp only [List.length_append, e6, e5]
            omega
    unfold runner_job_end
    simp only [hline, agent_write_str, runner_reset]
  · intro hfit
    apply List.take_of_length_le
    simp only [exception_line, List.length_append, e1, e2, e3]
    have hfit2 : s0.g_run_req.func_name.length + exc.length ≤ 154 := hfit
    show 29 + s0.g_run_req.func_name.length + 6 + exc.length + 2 ≤ 191
    omega

set_option maxRecDepth 1000000 in
/-- C20 (amended) applied to the job started by `START module_id=m2 func=add
args="a=200,b=26"` whose call returns 226: the line is `RESULT status=OK func=add ret_i32=226`. -/
theorem runner_emits_one_result_line_witness :
    runner_iteration demo_sandbox ⟨true, 226, none⟩ demo_started =
      { (runner_job_begin demo_sandbox demo_started).1 with
        uart_tx := (runner_job_begin demo_sandbox demo_started).1.uart_tx ++
          [str "RESULT status=OK func=add ret_i32=226\n"],
        trace := (runner_job_begin demo_sandbox demo_started).1.trace ++
          [Event.wasm_runtime_destroy_exec_env 9],
        g_runner_busy := false, g_stop_requested := false } :=
  (runner_emits_one_result_line demo_sandbox demo_started
    (runner_job_begin demo_sandbox demo_started).1 (runner_job_begin demo_sandbox demo_started).1
    ⟨demo_started.g_run_req, 3, 1, 9⟩ ⟨true, 226, none⟩ (by decide) (by decide)).2.1

/-- C21: every runner job iteration ends with `busy = false` and `stop_requested = false`
and leaves the module slot as it was.  For every sandbox, guest outcome and state: one
whole iteration of the runner loop (slot found empty, `NO_FUNC`, `NO_EXEC_ENV`,
`EXCEPTION`, `STOPPED` or `OK`) ends with both flags false and with the loaded flag, the
buffer pointer and size, the module, the instance, the module id and the heap unchanged;
the same holds for the part of the iteration after the guest call, from whatever state
the call returns in.  So a loaded slot is still loaded after `EXCEPTION` or `STOPPED`. -/
theorem runner_iteration_resets_flags_keeps_slot (sb : Sandbox) (run : GuestRun) (s : State) :
    ((runner_iteration sb run s).g_runner_busy = false ∧
     (runner_iteration sb run s).g_stop_requested = false ∧
     (runner_iteration sb run s).g_module_loaded = s.g_module_loaded ∧
     (runner_iteration sb run s).g_wasm_buf = s.g_wasm_buf ∧
     (runner_iteration sb run s).g_wasm_size = s.g_wasm_size ∧
     (runner_iteration sb run s).g_wasm_module = s.g_wasm_module ∧
     (runner_iteration sb run s).g_wasm_inst = s.g_wasm_inst ∧
     (runner_iteration sb run s).g_current_module_id = s.g_current_module_id ∧
     (runner_iteration sb run s).heap = s.heap) ∧
    (∀ job : Job,
     (runner_job_end job run s).g_runner_busy = false ∧
     (runner_job_end job run s).g_stop_requested = false ∧
     (runner_job_end job run s).g_module_loaded = s.g_module_loaded ∧
     (runner_job_end job run s).g_wasm_buf = s.g_wasm_buf ∧
     (runner_job_end job run s).g_wasm_size = s.g_wasm_size ∧
     (runner_job_end job run s).g_wasm_module = s.g_wasm_module ∧
     (runner_job_end job run s).g_wasm_inst = s.g_wasm_inst ∧
     (runner_job_end job run s).g_current_module_id = s.g_current_module_id ∧
     (runner_job_end job run s).heap = s.heap) := by
  have hend : ∀ (job : Job) (t : State),
      (runner_job_end job run t).g_runner_busy = false ∧
      (runner_job_end job run t).g_stop_requested = false ∧
      (runner_job_end job run t).g_module_loaded = t.g_module_loaded ∧
      (runner_job_end job run t).g_wasm_buf = t.g_wasm_buf ∧
      (runner_job_end job run t).g_wasm_size = t.g_wasm_size ∧
      (runner_job_end job run t).g_wasm_module = t.g_wasm_module ∧
      (runner_job_end job run t).g_wasm_inst = t.g_wasm_inst ∧
      (runner_job_end job run t).g_current_module_id = t.g_current_module_id ∧
      (runner_job_end job run t).heap = t.heap :=
    fun _ _ => ⟨rfl, rfl, rfl, rfl, rfl, rfl, rfl, rfl, rfl⟩
  refine ⟨?_, fun job => hend job s⟩
  have hb := runner_job_begin_slot sb s
  unfold runner_iteration
  cases hj : runner_job_begin sb s with
  | mk s1 oj =>
    rw [hj] at hb
    simp only at hb
    obtain ⟨h1, h2, h3, h4, h5, h6, h7, h8⟩ := hb
    cases oj with
    | none =>
      simp only []
      exact ⟨(h8 rfl).1, (h8 rfl).2, h1, h2, h3, h4, h5, h6, h7⟩
    | some job =>
      simp only []
      have he := hend job s1
      exact ⟨he.1, he.2.1, he.2.2.1.trans h1, he.2.2.2.1.trans h2, he.2.2.2.2.1.trans h3,
        he.2.2.2.2.2.1.trans h4, he.2.2.2.2.2.2.1.trans h5, he.2.2.2.2.2.2.2.1.trans h6,
        he.2.2.2.2.2.2.2.2.trans h7⟩

/-- C22: RX binary-state invariant.  In every state reached from the initial state by
`LOAD`'s setup (size at least 1, allocation successful), bytes handled by the RX
interrupt and the part of `LOAD` after its wait (timeout reset included): when the RX
state is BINARY, `g_bin_buf` is not `NULL`, `g_bin_received < g_bin_expected`, the block
at `g_bin_buf` is live and has `g_bin_expected` bytes, so the next byte is written at
index `g_bin_received` inside the block, whose size stays the same; when the RX state is
LINE the RX interrupt leaves the heap, and so the destination, untouched.  A whole
`LOAD` receive phase stays within these states. -/
theorem binary_state_invariant (sb : Sandbox) (s : State) (c : Nat) (h : FramerReach sb s) :
    (s.g_rx_state = rx_state_t.RX_STATE_BINARY →
      s.g_bin_buf ≠ NULL ∧ s.g_bin_received < s.g_bin_expected ∧
      (heap_read s.heap s.g_bin_buf).length = s.g_bin_expected ∧
      (serial_cb_byte s c).heap = heap_write s.heap s.g_bin_buf s.g_bin_received c ∧
      (heap_read (serial_cb_byte s c).heap s.g_bin_buf).length = s.g_bin_expected) ∧
    (s.g_rx_state = rx_state_t.RX_STATE_LINE → (serial_cb_byte s c).heap = s.heap) ∧
    (∀ line crc_str rx size crc, 1 ≤ size →
      FramerReach sb (load_receive sb ⟨true, rx⟩ line crc_str size crc s)) := by
  refine ⟨?_, fun hl => (serial_cb_byte_line_frame s c hl).2.1, ?_⟩
  · intro hst
    obtain ⟨h1, h2, h3, _⟩ := framer_reach_binary_inv sb s h hst
    have hw : (serial_cb_byte s c).heap = heap_write s.heap s.g_bin_buf s.g_bin_received c := by
      unfold serial_cb_byte
      rw [hst]
      simp only [h1, h2, ne_eq, not_false_eq_true, and_self, if_true]
      split <;> rfl
    refine ⟨h1, h2, h3, hw, ?_⟩
    rw [hw, heap_read_write_length, h3]
  · intro line crc_str rx size crc hsize
    rw [load_receive_setup]
    exact FramerReach.after_wait line crc
      (framer_reach_serial_cb sb rx _ (FramerReach.setup crc_str size h hsize))

set_option maxRecDepth 1000000 in
/-- C22 applied to the state in which `LOAD size=4` has received the byte `\n`: the RX
state is BINARY, one byte of four is received, and the next byte `\r` is written at
index 1 of the 4-byte block. -/
theorem binary_state_invariant_witness :
    (serial_cb_byte (load_waited (load_teardown init) (str "5f4049db") 4 (List.replicate 4 0) 0
      rx_state_t.RX_STATE_BINARY) 10).g_bin_received = 1 ∧
    (serial_cb_byte (load_waited (load_teardown init) (str "5f4049db") 4 (List.replicate 4 0) 0
      rx_state_t.RX_STATE_BINARY) 10).g_bin_received <
    (serial_cb_byte (load_waited (load_teardown init) (str "5f4049db") 4 (List.replicate 4 0) 0
      rx_state_t.RX_STATE_BINARY) 10).g_bin_expected :=
  ⟨by decide,
   ((binary_state_invariant demo_sandbox _ 13
      (FramerReach.byte 10 (FramerReach.setup (str "5f4049db") 4 FramerReach.init
        (by decide)))).1 (by decide)).2.1⟩

/-- C23: the line accumulator stays in bounds and only terminated lines are posted.  In
every state of the running agent (any interleaving of received bytes of any value, COMM
loop iterations and runner iterations from the initial state) the line position is at
most 255, which is inside the 256-byte line buffer, and every message in the line queue
is a 256-byte buffer holding a NUL at an index between 1 and 255.  The RX interrupt
changes the line queue only on a byte `\n` or `\r`, in LINE state with a position of at
least 1, and what it posts is the line buffer with a NUL stored at the line position. -/
theorem line_queue_safety (sb : Sandbox) :
    (∀ s, Running sb s →
      s.rx_buf_pos ≤ 255 ∧ s.rx_buf.length = 256 ∧ s.rx_buf_pos < s.rx_buf.length ∧
      ∀ msg ∈ s.uart_msgq, msg.length = 256 ∧ ∃ i, 1 ≤ i ∧ i ≤ 255 ∧ msg.getD i 1 = 0) ∧
    (∀ s c, (serial_cb_byte s c).uart_msgq ≠ s.uart_msgq →
      (c = 10 ∨ c = 13) ∧ s.g_rx_state = rx_state_t.RX_STATE_LINE ∧ 0 < s.rx_buf_pos ∧
      (serial_cb_byte s c).uart_msgq = s.uart_msgq ++ [s.rx_buf.set s.rx_buf_pos 0]) := by
  refine ⟨?_, serial_cb_byte_posts⟩
  intro s h
  obtain ⟨h1, h2, h3⟩ := running_line_inv sb s h
  have h2' : s.rx_buf.length = 256 := h2
  exact ⟨h1, h2', by omega, h3⟩

set_option maxRecDepth 1000000 in
/-- C23 applied to the bytes `STOP\n` received in the initial state: the queued message
has 256 bytes and a NUL at an index between 1 and 255, and the byte `\n` posted it. -/
theorem line_queue_safety_witness :
    (serial_cb init (str "STOP\n")).uart_msgq = [str "STOP" ++ List.replicate 252 0] ∧
    ((str "STOP" ++ List.replicate 252 0).length = 256 ∧
      ∃ i, 1 ≤ i ∧ i ≤ 255 ∧ (str "STOP" ++ List.replicate 252 0).getD i 1 = 0) ∧
    ((10 = 10 ∨ 10 = 13) ∧
      (serial_cb init (str "STOP")).g_rx_state = rx_state_t.RX_STATE_LINE ∧
      0 < (serial_cb init (str "STOP")).rx_buf_pos ∧
      (serial_cb_byte (serial_cb init (str "STOP")) 10).uart_msgq =
        (serial_cb init (str "STOP")).uart_msgq ++
          [(serial_cb init (str "STOP")).rx_buf.set (serial_cb init (str "STOP")).rx_buf_pos 0]) :=
  ⟨by decide,
   ((line_queue_safety demo_sandbox).1 (serial_cb init (str "STOP\n"))
      (Running.rx (str "STOP\n") Running.init)).2.2.2 _ (by decide),
   (line_queue_safety demo_sandbox).2 (serial_cb init (str "STOP")) 10 (by decide)⟩

/-- C24: `busy` changes only as documented.  For every sandbox, `LOAD` environment, line
and state: a command handled by the COMM thread never turns `busy` from true to false;
if it changes `busy` at all, then the verb of the line is `START`, the reply is
`START_OK`, `busy` was false and is now true, and the slot was loaded when the command
was handled.  `LOAD`, `STOP`, `STATUS` and a line with another verb leave `busy` as it
is.  A runner iteration ends with `busy = false`. -/
theorem busy_changes_only_as_documented (sb : Sandbox) (env : LoadEnv) (line : List Nat)
    (s : State) :
    (s.g_runner_busy = true → (handle_command_line sb env line s).g_runner_busy = true) ∧
    ((handle_command_line sb env line s).g_runner_busy ≠ s.g_runner_busy →
      s.g_runner_busy = false ∧ (handle_command_line sb env line s).g_runner_busy = true ∧
      s.g_module_loaded = true ∧
      (∃ rest, split_command line = some (str "START", rest) ∧
        handle_command_line sb env line s = handle_start_cmd sb rest s) ∧
      (handle_command_line sb env line s).uart_tx = s.uart_tx ++ [str "START_OK\n"]) ∧
    (∀ rest, (handle_load_cmd sb env rest s).g_runner_busy = s.g_runner_busy ∧
      (handle_stop_cmd rest s).g_runner_busy = s.g_runner_busy ∧
      (handle_status_cmd rest s).g_runner_busy = s.g_runner_busy) ∧
    (∀ run, (runner_iteration sb run s).g_runner_busy = false) := by
  have key : (handle_command_line sb env line s).g_runner_busy = s.g_runner_busy ∨
      (s.g_runner_busy = false ∧ (handle_command_line sb env line s).g_runner_busy = true ∧
       s.g_module_loaded = true ∧
       (∃ rest, split_command line = some (str "START", rest) ∧
         handle_command_line sb env line s = handle_start_cmd sb rest s) ∧
       (handle_command_line sb env line s).uart_tx = s.uart_tx ++ [str "START_OK\n"]) := by
    unfold handle_command_line
    cases hsp : split_command line with
    | none => exact Or.inl rfl
    | some r =>
      obtain ⟨cmd, rest⟩ := r
      simp only []
      split
      · exact Or.inl (handle_load_cmd_busy _ _ _ _)
      · split
        · rename_i hcmd
          rcases handle_start_cmd_busy sb rest s with h | ⟨h1, h2, h3, h4⟩
          · exact Or.inl h
          · exact Or.inr ⟨h2, h3, h1, ⟨rest, by rw [hcmd], rfl⟩, h4⟩
        · split
          · exact Or.inl (handle_stop_cmd_busy _ _)
          · split
            · exact Or.inl (handle_status_cmd_busy _ _)
            · exact Or.inl rfl
  refine ⟨?_, ?_, ?_, ?_⟩
  · intro hb
    rcases key with h | h
    · rw [h, hb]
    · exact h.2.1
  · intro hne
    rcases key with h | h
    · exact absurd h hne
    · exact h
  · intro rest
    exact ⟨handle_load_cmd_busy _ _ _ _, handle_stop_cmd_busy _ _, handle_status_cmd_busy _ _⟩
  · intro run
    have hb := runner_job_begin_slot sb s
    unfold runner_iteration
    cases hj : runner_job_begin sb s with
    | mk s1 oj =>
      rw [hj] at hb
      cases oj with
      | none => exact (hb.2.2.2.2.2.2.2 rfl).1
      | some job => rfl

set_option maxRecDepth 1000000 in
/-- C24 applied to `START module_id=m2 func=add args="a=200,b=26"` after a successful
`LOAD` of module `m2` (`busy` turns true, the slot being loaded), and to a following
`STOP`, which leaves `busy` true. -/
theorem busy_changes_only_as_documented_witness :
    (demo_loaded.g_runner_busy = false ∧ demo_started.g_runner_busy = true ∧
      demo_loaded.g_module_loaded = true ∧
      (∃ rest, split_command (str "START module_id=m2 func=add args=\"a=200,b=26\"") =
          some (str "START", rest) ∧
        handle_command_line demo_sandbox ⟨true, []⟩
          (str "START module_id=m2 func=add args=\"a=200,b=26\"") demo_loaded =
          handle_start_cmd demo_sandbox rest demo_loaded) ∧
      (handle_command_line demo_sandbox ⟨true, []⟩
        (str "START module_id=m2 func=add args=\"a=200,b=26\"") demo_loaded).uart_tx =
        demo_loaded.uart_tx ++ [str "START_OK\n"]) ∧
    (handle_command_line demo_sandbox ⟨true, []⟩ (str "STOP module_id=m2")
      demo_started).g_runner_busy = true :=
  ⟨(busy_changes_only_as_documented demo_sandbox ⟨true, []⟩
      (str "START module_id=m2 func=add args=\"a=200,b=26\"") demo_loaded).2.1 (by decide),
   (busy_changes_only_as_documented demo_sandbox ⟨true, []⟩ (str "STOP module_id=m2")
      demo_started).1 (by decide)⟩

/-- C25: `copy_param_value`.  For every input string, every destination array `dst` and
every `dst_len ≥ 1` not larger than the array: let `L` be the number of bytes of the
input before the first NUL, space, `\r` or `\n` (or its end) and `m = min (L, dst_len - 1)`.
Afterwards the array holds the first `m` bytes of the input at indices `0 .. m-1`, a NUL
at index `m`, and its old contents at every index above `m`; as `m < dst_len`, no cell
at an index `≥ dst_len` is written.  With `dst_len = 0` the array is unchanged. -/
theorem copy_param_value_copies_and_terminates (start dst : List Nat) (dst_len : Nat) :
    (1 ≤ dst_len → dst_len ≤ dst.length →
      copy_param_value start dst dst_len =
        start.take (min (start.takeWhile value_char).length (dst_len - 1)) ++
          0 :: dst.drop (min (start.takeWhile value_char).length (dst_len - 1) + 1) ∧
      min (start.takeWhile value_char).length (dst_len - 1) < dst_len ∧
      (∀ i, dst_len ≤ i →
        (copy_param_value start dst dst_len).getD i 0 = dst.getD i 0) ∧
      (copy_param_value start dst dst_len).length = dst.length) ∧
    copy_param_value start dst 0 = dst ∧
    (∀ c, value_char c = true ↔ (c ≠ 0 ∧ c ≠ 32 ∧ c ≠ 13 ∧ c ≠ 10)) := by
  refine ⟨?_, ?_, value_char_iff⟩
  · intro h1 hlen
    have hmain := copy_param_value_eq start dst dst_len h1 hlen
    have hL := takeWhile_length_le value_char start
    have hm : (start.take (min (start.takeWhile value_char).length (dst_len - 1))).length =
        min (start.takeWhile value_char).length (dst_len - 1) := by
      rw [List.length_take]
      omega
    refine ⟨hmain, by omega, ?_, ?_⟩
    · intro i hi
      rw [hmain, List.getD_eq_getElem?_getD, List.getD_eq_getElem?_getD,
        List.getElem?_append_right (by rw [hm]; omega), hm]
      obtain ⟨j, hj⟩ : ∃ j, i - min (start.takeWhile value_char).length (dst_len - 1) = j + 1 :=
        ⟨i - min (start.takeWhile value_char).length (dst_len - 1) - 1, by omega⟩
      rw [hj, List.getElem?_cons_succ, List.getElem?_drop]
      congr 2
      omega
    · rw [hmain]
      simp only [List.length_append, List.length_cons, List.length_drop, hm]
      omega
  · unfold copy_param_value
    have h := copy_param_loop_full 0 start dst 0 (Nat.zero_le _)
    cases hcp : copy_param_loop 0 start dst 0 with
    | mk d i =>
      rw [hcp] at h
      simp only [gt_iff_lt, Nat.lt_irrefl, if_false]
      exact h.1

set_option maxRecDepth 1000000 in
/-- C25 applied to the input `resize x` and a 6-cell array with `dst_len = 4`: the array
holds `res`, a NUL, and its old cells 4 and 5. -/
theorem copy_param_value_copies_and_terminates_witness :
    copy_param_value (str "resize x") [7, 7, 7, 7, 7, 7] 4 = str "res" ++ [0, 7, 7] ∧
    copy_param_value (str "m2 func=add") [7, 7, 7, 7, 7, 7] 4 = str "m2" ++ [0, 7, 7, 7] :=
  ⟨((copy_param_value_copies_and_terminates (str "resize x") [7, 7, 7, 7, 7, 7] 4).1
      (by decide) (by decide)).1,
   ((copy_param_value_copies_and_terminates (str "m2 func=add") [7, 7, 7, 7, 7, 7] 4).1
      (by decide) (by decide)).1⟩

/-- C26: `find_param`.  For every line and every non-empty key, the loop of `find_param`
ends within `length + 1` rounds (more rounds give the same result), and it returns the text `rest` exactly
when the line is `pre ++ key ++ "=" ++ rest` for the shortest possible `pre`, that is
`rest` is the text right after the leftmost occurrence of the key followed by `=`; and
it returns `NULL` exactly when the line has no occurrence of the key followed by `=`.
An occurrence of the key that is not followed by `=` is therefore skipped. -/
theorem find_param_leftmost (line key : List Nat) (hk : key ≠ []) :
    (∀ rest, find_param line key = some rest ↔
      ∃ pre, line = pre ++ key ++ 61 :: rest ∧
        ∀ pre' rest', line = pre' ++ key ++ 61 :: rest' → pre.length ≤ pre'.length) ∧
    (find_param line key = none ↔ ∀ pre rest, line ≠ pre ++ key ++ 61 :: rest) ∧
    (∀ fuel, line.length < fuel → find_param_loop key fuel line = find_param line key) := by
  rw [find_param_eq_scan line key hk]
  refine ⟨?_, ?_, fun fuel hf => find_param_loop_eq key hk fuel line hf⟩
  · intro rest
    constructor
    · exact scan_param_some key line rest
    · rintro ⟨pre, hpre, hmin⟩
      cases hs : scan_param key line with
      | none => exact absurd hpre (scan_param_none key line hs pre rest)
      | some r =>
        obtain ⟨pre2, hpre2, hmin2⟩ := scan_param_some key line r hs
        have h1 := hmin pre2 r hpre2
        have h2 := hmin2 pre rest hpre
        have heq : pre ++ (key ++ 61 :: rest) = pre2 ++ (key ++ 61 :: r) := by
          rw [← List.append_assoc, ← List.append_assoc, ← hpre, ← hpre2]
        have := List.append_inj heq (by omega)
        have h3 := List.append_cancel_left this.2
        simp only [List.cons.injEq, true_and] at h3
        rw [h3]
  · constructor
    · exact scan_param_none key line
    · intro h
      cases hs : scan_param key line with
      | none => rfl
      | some r =>
        obtain ⟨pre, hpre, _⟩ := scan_param_some key line r hs
        exact absurd hpre (h pre r)

set_option maxRecDepth 1000000 in
/-- C26 applied to the key `size`: in the line `module_id=resize size=4` the `size` inside
`resize` is not followed by `=` and is skipped, the result `4` being the text after the
leftmost `size=`; the line `module_id=resize` has no `size=` and the result is `NULL`. -/
theorem find_param_leftmost_witness :
    (∃ pre, str "module_id=resize size=4" = pre ++ str "size" ++ 61 :: str "4" ∧
      ∀ pre' rest', str "module_id=resize size=4" = pre' ++ str "size" ++ 61 :: rest' →
        pre.length ≤ pre'.length) ∧
    (∀ pre rest, str "module_id=resize" ≠ pre ++ str "size" ++ 61 :: rest) :=
  ⟨((find_param_leftmost (str "module_id=resize size=4") (str "size") (by decide)).1
      (str "4")).mp (by decide),
   (find_param_leftmost (str "module_id=resize") (str "size") (by decide)).2.1.mp (by decide)⟩

/-- C27: the quoted `args` body is cut to 63 bytes before it is tokenized.  Let the `args`
parameter of a `START` line be a quoted body of more than 63 bytes, and let a second line
carry the first 63 bytes of that body as its quoted `args`.  Then `args_buf` holds these
63 bytes and the collected values (`argc`, `argv`) are the same for the two lines; if the
two lines also agree on the values of the `module_id` and `func` parameters, `START`
gives the same result on both, reply included: the cut itself produces no error reply. -/
theorem args_body_cut_to_63 (line line2 body rest rest2 : List Nat)
    (hfind : find_param line (str "args") = some (34 :: body ++ 34 :: rest))
    (hq : ∀ c ∈ body, c ≠ 34) (hlong : 63 < body.length)
    (hfind2 : find_param line2 (str "args") = some (34 :: body.take 63 ++ 34 :: rest2)) :
    start_args_buf line = some (body.take 63) ∧ (body.take 63).length = 63 ∧
    start_parse_args line = start_parse_args line2 ∧
    (∀ sb s,
      (find_param line (str "module_id")).map (fun p => param_value p 32) =
        (find_param line2 (str "module_id")).map (fun p => param_value p 32) →
      (find_param line (str "func")).map (fun p => param_value p 64) =
        (find_param line2 (str "func")).map (fun p => param_value p 64) →
      handle_start_cmd sb line s = handle_start_cmd sb line2 s) := by
  have h1 := start_args_buf_cut line body rest hfind hq
  have h2 := start_args_buf_cut line2 (body.take 63) rest2 hfind2
    (fun c hc => hq c (List.mem_of_mem_take hc))
  rw [List.take_take, Nat.min_self] at h2
  have hargs : start_parse_args line = start_parse_args line2 := by
    unfold start_parse_args
    rw [h1, h2]
  refine ⟨h1, by rw [List.length_take]; omega, hargs, ?_⟩
  intro sb s hm hf
  unfold handle_start_cmd
  rw [hargs]
  cases hm1 : find_param line (str "module_id") with
  | none =>
    cases hm2 : find_param line2 (str "module_id") with
    | none => rfl
    | some q => rw [hm1, hm2] at hm; simp at hm
  | some p =>
    cases hm2 : find_param line2 (str "module_id") with
    | none => rw [hm1, hm2] at hm; simp at hm
    | some q =>
      rw [hm1, hm2] at hm
      simp only [Option.map_some', Option.some.injEq] at hm
      cases hf1 : find_param line (str "func") with
      | none =>
        cases hf2 : find_param line2 (str "func") with
        | none => simp only [hm]
        | some q2 => rw [hf1, hf2] at hf; simp at hf
      | some p2 =>
        cases hf2 : find_param line2 (str "func") with
        | none => rw [hf1, hf2] at hf; simp at hf
        | some q2 =>
          rw [hf1, hf2] at hf
          simp only [Option.map_some', Option.some.injEq] at hf
          simp only [hm, hf]

set_option maxRecDepth 1000000 in
/-- C27 applied to a `START` line whose `args` body has 70 bytes, the digits `123456` of
its first argument straddling byte 63: the values are those of the body cut after
`=123`, that is the single value 123; the argument `b=7` is lost and the reply is
`START_OK`. -/
theorem args_body_cut_to_63_witness :
    start_parse_args demo_long_start = start_parse_args demo_cut_start ∧
    start_parse_args demo_cut_start = [123] ∧
    handle_start_cmd demo_sandbox demo_long_start demo_loaded =
      handle_start_cmd demo_sandbox demo_cut_start demo_loaded ∧
    (handle_start_cmd demo_sandbox demo_long_start demo_loaded).uart_tx.getLast? =
      some (str "START_OK\n") :=
  have h := args_body_cut_to_63 demo_long_start demo_cut_start demo_long_args [] []
    (by decide) (by decide) (by decide) (by decide)
  ⟨h.2.2.1, by decide, h.2.2.2 demo_sandbox demo_loaded (by decide) (by decide), by decide⟩

end Agent
